import Mathlib

/-! # Chain maintenance and market settlement (graphene, `libraries/chain/db_update.cpp`)

A shallow embedding of the functions of `db_update.cpp` and the properties proved of them.

* The object database is a record of the objects the functions read and write; an index is the
  list of its objects in index order, an iterator is a position in that list.
* A function that can throw or abort returns `Except exception _`; a failure discards the state,
  as the enclosing block application does through its undo session.
* Machine integers are naturals or integers with the wrap-around written out.
* Code of the repository that is not in `db_update.cpp` (prices, asset arithmetic, the slot
  schedule, global settlement, the matching engine, the pay deposit, the constants of
  `config.hpp`) is a parameter or is modelled from the specification; each such definition
  says so.
* A loop whose end is not evident takes a bound on its rounds (`fuel`) and fails with
  `out_of_fuel` when the bound is reached.
-/

namespace Graphene

/-! ## Failures -/

/-- The ways a call can fail: `FC_ASSERT`/`FC_THROW` give `assert_exception`, `GRAPHENE_ASSERT`
with `undo_database_exception` gives that exception, the checked arithmetic of `fc::safe` gives
`overflow_exception`/`underflow_exception`, a failed `assert( ... )` gives `assertion_failed`, and
reading through an iterator or an index that designates no element gives `invalid_access`;
`black_swan_exception` is the exception of the matching engine that `clear_expired_orders`
catches. `out_of_fuel` is no failure of the code: it marks that the bound given to the model of
a loop was reached before the loop ended. -/
inductive exception where
  | assert_exception
  | undo_database_exception
  | overflow_exception
  | underflow_exception
  | assertion_failed
  | invalid_access
  | black_swan_exception
  | out_of_fuel
  deriving DecidableEq, Repr

/-- The statement `assert( c )`. -/
def assert (c : Bool) : Except exception Unit :=
  if c then .ok () else .error .assertion_failed

/-- The statement `FC_ASSERT( c, ... )`. -/
def FC_ASSERT (c : Bool) : Except exception Unit :=
  if c then .ok () else .error .assert_exception

/-! ## Constants -/

/-- Modelled from the spec: the consensus constants (`config.hpp`, `database.hpp` and
`global_property_object.hpp` are not part of the sources at hand). The specification lists them as
network-wide constants: the missed-count increment and decrement, the percentage denominator
("100%"), the irreversibility threshold, the maximum retained undo depth; `skip_undo_history_check`
is the bit of the skip flags that suppresses the undo-history check, `skip_authority_check` the
bit that suppresses the authority checks, and `maintenance_flag` the bit of `dynamic_flags` for
the maintenance interval. They are parameters of every definition below. -/
structure chain_config where
  GRAPHENE_100_PERCENT : Nat
  GRAPHENE_IRREVERSIBLE_THRESHOLD : Nat
  GRAPHENE_MAX_UNDO_HISTORY : Nat
  GRAPHENE_RECENTLY_MISSED_COUNT_INCREMENT : Nat
  GRAPHENE_RECENTLY_MISSED_COUNT_DECREMENT : Nat
  GRAPHENE_MAX_SHARE_SUPPLY : Int
  skip_undo_history_check : Nat
  maintenance_flag : Nat
  skip_authority_check : Nat := 64

/-- One admissible choice of the constants, used for the concrete evaluations: a percentage
base of 10000 and the 70% threshold of the comment in `update_last_irreversible_block`. -/
def default_config : chain_config where
  GRAPHENE_100_PERCENT := 10000
  GRAPHENE_IRREVERSIBLE_THRESHOLD := 7000
  GRAPHENE_MAX_UNDO_HISTORY := 1000
  GRAPHENE_RECENTLY_MISSED_COUNT_INCREMENT := 4
  GRAPHENE_RECENTLY_MISSED_COUNT_DECREMENT := 3
  GRAPHENE_MAX_SHARE_SUPPLY := 1000000000000000
  skip_undo_history_check := 512
  maintenance_flag := 1

/-! ## Assets and prices -/

/-- Modelled from the spec: an amount of one asset (`asset` of `asset.hpp`, not part of the
sources at hand): a share amount and the id of the asset. -/
structure asset where
  amount : Int
  asset_id : Nat
  deriving DecidableEq, Repr

/-- Modelled from the spec: a price (`price` of `asset.hpp`, not part of the sources at hand),
"a directed ratio (base/quote)" of two asset amounts. -/
structure price where
  base : asset
  quote : asset
  deriving DecidableEq, Repr

namespace price

/-- Modelled from the spec: `operator ==` on prices, the same asset pair and the same ratio,
compared exactly by cross-multiplication in a wide intermediate. -/
def eq (a b : price) : Bool :=
  if a.base.asset_id ≠ b.base.asset_id ∨ a.quote.asset_id ≠ b.quote.asset_id then false
  else decide (b.quote.amount * a.base.amount = a.quote.amount * b.base.amount)

/-- Modelled from the spec: `operator <` on prices, the order of the price indexes: first by
base asset id, then by quote asset id, then by the ratio base/quote, compared exactly by
cross-multiplication in a wide intermediate. -/
def lt (a b : price) : Bool :=
  if a.base.asset_id < b.base.asset_id then true
  else if b.base.asset_id < a.base.asset_id then false
  else if a.quote.asset_id < b.quote.asset_id then true
  else if b.quote.asset_id < a.quote.asset_id then false
  else decide (b.quote.amount * a.base.amount < a.quote.amount * b.base.amount)

/-- Modelled from the spec: `operator <=` on prices, equal or less. -/
def le (a b : price) : Bool := a.eq b || a.lt b

/-- Modelled from the spec: `operator >` on prices, not less-or-equal. -/
def gt (a b : price) : Bool := !(a.le b)

/-- Modelled from the spec: `operator >=` on prices, not less. -/
def ge (a b : price) : Bool := !(a.lt b)

/-- Modelled from the spec: `operator ~`, "the inverse price": base and quote exchanged. -/
def inv (p : price) : price := ⟨p.quote, p.base⟩

/-- Modelled from the spec: `price::max( base, quote )`, the upper end of "the valid trading
range for this asset pair": the whole share supply of `base` for one unit of `quote`. -/
def max (cfg : chain_config) (base quote : Nat) : price :=
  ⟨⟨cfg.GRAPHENE_MAX_SHARE_SUPPLY, base⟩, ⟨1, quote⟩⟩

/-- Modelled from the spec: `price::min( base, quote )`, the lower end of "the valid trading
range for this asset pair": one unit of `base` for the whole share supply of `quote`. -/
def min (cfg : chain_config) (base quote : Nat) : price :=
  ⟨⟨1, base⟩, ⟨cfg.GRAPHENE_MAX_SHARE_SUPPLY, quote⟩⟩

/-- Modelled from the spec: `price::is_null()`, a price equal to the default-constructed price
(both amounts 0 of asset 0); a feed with such a settlement price is "no valid median feed". -/
def is_null (p : price) : Bool := p.eq ⟨⟨0, 0⟩, ⟨0, 0⟩⟩

/-- The call `std::max( a, b )` on prices: `b` when `a < b`, else `a`. -/
def std_max (a b : price) : price := if a.lt b then b else a

end price

/-- Modelled from the spec: `operator /` on two asset amounts, the price `base / quote`; the two
assets must differ. -/
def asset.div (base quote : asset) : Except exception price := do
  FC_ASSERT (decide (base.asset_id ≠ quote.asset_id))
  pure ⟨base, quote⟩

/-! ## Objects -/

/-- Modelled from the spec: a collateralized short position (`call_order_object`): "debt amount,
collateral amount, implied price": `call_price` is quoted collateral / debt and is the key of the
`by_price` index. -/
structure call_order_object where
  id : Nat
  borrower : Nat
  collateral : Int
  debt : Int
  call_price : price
  deriving DecidableEq, Repr

namespace call_order_object

/-- Modelled from the spec: `get_collateral()`, the collateral amount in the collateral asset. -/
def get_collateral (c : call_order_object) : asset := ⟨c.collateral, c.call_price.base.asset_id⟩

/-- Modelled from the spec: `get_debt()`, the debt amount in the debt asset. -/
def get_debt (c : call_order_object) : asset := ⟨c.debt, c.call_price.quote.asset_id⟩

/-- Modelled from the spec: `collateralization()`, the ratio collateral / debt. -/
def collateralization (c : call_order_object) : Except exception price :=
  asset.div c.get_collateral c.get_debt

end call_order_object

/-- Modelled from the spec: a limit order (`limit_order_object`): "seller, sell price,
expiration instant"; `sell_price` is the key of the `by_price` index. -/
structure limit_order_object where
  id : Nat
  seller : Nat
  sell_price : price
  expiration : Nat
  deriving DecidableEq, Repr

/-- Modelled from the spec: the current price feed of a market-issued asset ("median of reporter
feeds"); only the settlement price is read here. -/
structure price_feed where
  settlement_price : price
  deriving DecidableEq, Repr

/-- Modelled from the spec: the options of a market-issued asset read here: the backing-asset
id, the `force_settlement_offset_percent` and the `max_force_settlement_volume` ratio (16-bit
unsigned values in units of 1/100 of a percent). -/
structure bitasset_options where
  short_backing_asset : Nat
  force_settlement_offset_percent : Nat := 0
  maximum_force_settlement_volume : Nat := 0
  deriving DecidableEq, Repr

/-- Modelled from the spec: `asset_bitasset_data_object`: "current price feed, settlement flag +
settlement price (once tripped, permanent until resolved), `force_settled_volume` (resets at
settlement-fund refresh), backing-asset id". -/
structure asset_bitasset_data_object where
  id : Nat
  options : bitasset_options
  current_feed : price_feed
  settlement_price : price
  force_settled_volume : Int := 0
  deriving DecidableEq, Repr

/-- Modelled from the spec: `has_settlement()`, a settlement price is recorded. -/
def asset_bitasset_data_object.has_settlement (b : asset_bitasset_data_object) : Bool :=
  !b.settlement_price.is_null

/-- Modelled from the spec: `asset_object`: its id, for a market-issued asset the id of its
bitasset data, and the id of its dynamic data. -/
structure asset_object where
  id : Nat
  bitasset_data_id : Option Nat
  dynamic_asset_data_id : Nat := 0
  deriving DecidableEq, Repr

/-- Modelled from the spec: `is_market_issued()`, the asset has bitasset data. -/
def asset_object.is_market_issued (a : asset_object) : Bool := a.bitasset_data_id.isSome

/-- Modelled from the spec: `WitnessRecord`: "id, linked account, `total_missed` (lifetime
counter), `last_aslot`, `last_confirmed_block_num`". -/
structure witness_object where
  id : Nat
  witness_account : Nat
  total_missed : Nat
  last_aslot : Nat
  last_confirmed_block_num : Nat
  deriving DecidableEq, Repr

/-- Modelled from the spec: `DynamicGlobalProperties`, the fields `db_update.cpp` touches.
`head_block_number`, `recently_missed_count`, `dynamic_flags` and `last_irreversible_block_num`
are 32-bit unsigned, `current_aslot` is 64-bit unsigned, `recent_slots_filled` is 128-bit
unsigned, `witness_budget` is a signed 64-bit share amount. -/
structure dynamic_global_property_object where
  head_block_number : Nat
  head_block_id : Nat
  time : Nat
  current_witness : Nat
  witness_budget : Int
  recently_missed_count : Nat
  current_aslot : Nat
  recent_slots_filled : Nat
  dynamic_flags : Nat
  last_irreversible_block_num : Nat
  deriving DecidableEq, Repr

/-- Modelled from the spec: the consensus parameters read here: the pay per block. -/
structure chain_parameters where
  witness_pay_per_block : Int
  deriving DecidableEq, Repr

/-- Modelled from the spec: `GlobalProperties`: "consensus parameters (pay-per-block, etc.),
ordered set of currently active block-producer ids". -/
structure global_property_object where
  parameters : chain_parameters
  active_witnesses : List Nat
  deriving DecidableEq, Repr

/-- Modelled from the spec: what `db_update.cpp` reads of a `signed_block`: its number, id,
timestamp and the id of the witness that signed it. -/
structure signed_block where
  block_num : Nat
  id : Nat
  timestamp : Nat
  witness : Nat
  deriving DecidableEq, Repr

/-- Modelled from the spec: the dynamic data of an asset read here: the current supply. -/
structure asset_dynamic_data_object where
  id : Nat
  current_supply : Int
  deriving DecidableEq, Repr

/-- Modelled from the spec: a "ForceSettlementOrder": "owning balance (amount+asset), settlement
asset id, requested-at timestamp implying a settlement date". -/
structure force_settlement_object where
  id : Nat
  owner : Nat
  balance : asset
  settlement_date : Nat
  deriving DecidableEq, Repr

/-- Modelled from the spec: `settlement_asset_id()`, the asset of the balance to settle. -/
def force_settlement_object.settlement_asset_id (o : force_settlement_object) : Nat :=
  o.balance.asset_id

/-- Modelled from the spec: a "Dedup transaction record": "transaction digest + expiration";
`expiration` is `trx.expiration`. -/
structure transaction_object where
  id : Nat
  expiration : Nat
  deriving DecidableEq, Repr

/-- Modelled from the spec: a "WithdrawPermission": "expiration instant". -/
structure withdraw_permission_object where
  id : Nat
  expiration : Nat
  deriving DecidableEq, Repr

/-- Modelled from the spec: the object database as `db_update.cpp` sees it. `witnesses` and
`bitassets` are object tables, `call_orders` is the call-order index `by_price` (ascending
`call_price`), `limit_orders` the limit-order index `by_price` ("sorted from greatest to least"),
`checkpoints` the map `_checkpoints` in ascending order of block number, `skip_flags` the
node's skip flags, `undo_db_max_size` and `fork_db_max_size` the retention windows, and
`witness_pay_deposits` the credits handed to the external pay-deposit routine, newest first.
`transactions` is the dedup-transaction index `by_expiration` and `withdraw_permissions` the
withdraw-permission index `by_expiration` (both ascending expiration), `force_settlements` the
force-settlement index `by_expiration` (ascending asset id, then settlement date), `assets` and
`asset_dynamic_data` are object tables. -/
structure database where
  dgp : dynamic_global_property_object
  gpo : global_property_object
  witnesses : List witness_object
  bitassets : List asset_bitasset_data_object
  call_orders : List call_order_object
  limit_orders : List limit_order_object
  checkpoints : List (Nat × Nat)
  skip_flags : Nat
  undo_db_max_size : Nat
  fork_db_max_size : Nat
  witness_pay_deposits : List (Nat × Int)
  transactions : List transaction_object := []
  withdraw_permissions : List withdraw_permission_object := []
  force_settlements : List force_settlement_object := []
  assets : List asset_object := []
  asset_dynamic_data : List asset_dynamic_data_object := []
  deriving DecidableEq, Repr

/-! ## Index and table access -/

/-- The call `index.lower_bound( k )` on an ordered index with comparison `comp`, as a position:
the first position whose key is not ordered before `k`. -/
def lower_bound {κ : Type} (comp : κ → κ → Bool) (keys : List κ) (k : κ) : Nat :=
  (keys.takeWhile (fun e => comp e k)).length

/-- The call `index.upper_bound( k )` on an ordered index with comparison `comp`, as a position:
the first position whose key is ordered after `k`. -/
def upper_bound {κ : Type} (comp : κ → κ → Bool) (keys : List κ) (k : κ) : Nat :=
  (keys.takeWhile (fun e => !(comp k e))).length

/-- Reading through an iterator: the element at the position, a failure at `end()`. -/
def deref {α : Type} (index : List α) (itr : Nat) : Except exception α :=
  match index[itr]? with
  | some x => .ok x
  | none => .error .invalid_access

/-- The lookup `id(db)` of bitasset data: the object with that id, a failure when there is none. -/
def database.get_bitasset (db : database) (id : Nat) : Except exception asset_bitasset_data_object :=
  match db.bitassets.find? (fun b => b.id == id) with
  | some b => .ok b
  | none => .error .assert_exception

/-- The lookup `id(db)` of a witness: the object with that id, a failure when there is none. -/
def database.get_witness (db : database) (id : Nat) : Except exception witness_object :=
  match db.witnesses.find? (fun w => w.id == id) with
  | some w => .ok w
  | none => .error .assert_exception

/-- The call `modify( w, f )` on a witness object: `f` applied in place to the object `w`. -/
def database.modify_witness (db : database) (w : witness_object) (f : witness_object → witness_object) :
    database :=
  { db with witnesses := db.witnesses.map (fun x => if x.id = w.id then f x else x) }

/-- The call `modify( dgp, f )` on the dynamic global properties. -/
def database.modify_dgp (db : database)
    (f : dynamic_global_property_object → dynamic_global_property_object) : database :=
  { db with dgp := f db.dgp }

/-! ## `check_for_blackswan` -/

/-- The function `database::check_for_blackswan( mia, enable_black_swan )`.
`globally_settle_asset` is the external global settlement (not part of the sources at hand), a
parameter. The `elog` of the detected swan does not change the state and is left out. -/
def check_for_blackswan (cfg : chain_config)
    (globally_settle_asset : database → asset_object → price → Except exception database)
    (db : database) (mia : asset_object) (enable_black_swan : Bool) :
    Except exception (Bool × database) :=
  match mia.bitasset_data_id with
  | none => .ok (false, db)
  | some bitasset_data_id => do
    let bitasset ← db.get_bitasset bitasset_data_id
    if bitasset.has_settlement then .ok (true, db) else
    let settle_price := bitasset.current_feed.settlement_price
    if settle_price.is_null then .ok (false, db) else
    let highest_possible_bid := price.max cfg mia.id bitasset.options.short_backing_asset
    let lowest_possible_bid := price.min cfg mia.id bitasset.options.short_backing_asset
    assert (highest_possible_bid.base.asset_id == lowest_possible_bid.base.asset_id)
    let limit_price_index := db.limit_orders.map (fun o => o.sell_price)
    let limit_itr := lower_bound price.gt limit_price_index highest_possible_bid
    let limit_end := upper_bound price.gt limit_price_index lowest_possible_bid
    let call_min := price.min cfg bitasset.options.short_backing_asset mia.id
    let call_max := price.max cfg bitasset.options.short_backing_asset mia.id
    let call_price_index := db.call_orders.map (fun c => c.call_price)
    let call_itr := lower_bound price.lt call_price_index call_min
    let call_end := upper_bound price.lt call_price_index call_max
    if call_itr = call_end then .ok (false, db) else
    let highest ←
      if limit_itr ≠ limit_end then do
        let limit_order ← deref db.limit_orders limit_itr
        assert (settle_price.base.asset_id == limit_order.sell_price.base.asset_id)
        pure (price.std_max limit_order.sell_price settle_price)
      else pure settle_price
    let call_order ← deref db.call_orders call_itr
    let least_collateral ← call_order.collateralization
    if least_collateral.inv.ge highest then do
      FC_ASSERT enable_black_swan
      let db ← globally_settle_asset db mia least_collateral.inv
      pure (true, db)
    else .ok (false, db)

/-! ## Fixed-width arithmetic -/

/-- Subtraction of two 32-bit unsigned values, wrapping. -/
def uint32_sub (a b : Nat) : Nat := (a + 2 ^ 32 - b % 2 ^ 32) % 2 ^ 32

/-- Subtraction of `fc::safe<int64_t>` share amounts (`safe.hpp` of the `fc` library): the
difference, or an exception when it leaves the 64-bit signed range. -/
def safe_sub (a b : Int) : Except exception Int :=
  if 0 < b ∧ a < -(2 ^ 63) + b then .error .underflow_exception
  else if b < 0 ∧ a > (2 ^ 63 - 1) + b then .error .overflow_exception
  else .ok (a - b)

/-! ## The slot schedule and the pay deposit -/

/-- Modelled from the spec: the "Slot/Schedule Oracle" (`db_witness_schedule.cpp` is not part of
the sources at hand): `slots_elapsed(timestamp) -> u32` is `get_slot_at_time` and
`scheduled_producer(slot_offset) -> WitnessId` is `get_scheduled_witness`. -/
structure schedule_oracle where
  get_slot_at_time : Nat → Nat
  get_scheduled_witness : Nat → Nat

/-- Modelled from the spec: the "Pay Deposit: `deposit_pay(witness, amount)`" (`db_balance.cpp`
is not part of the sources at hand): the credit is handed over and recorded. -/
def deposit_witness_pay (db : database) (wit : witness_object) (amount : Int) : database :=
  { db with witness_pay_deposits := (wit.id, amount) :: db.witness_pay_deposits }

/-! ## `update_global_dynamic_data` -/

/-- The loop of `update_global_dynamic_data` over the missed slots: for each `i` of the list,
the witness scheduled for slot `i+1` has `total_missed` incremented unless it signed the block. -/
def update_missed_witnesses (o : schedule_oracle) (b : signed_block) :
    List Nat → database → Except exception database
  | [], db => .ok db
  | i :: rest, db => do
    let witness_missed ← db.get_witness (o.get_scheduled_witness (i + 1))
    let db :=
      if witness_missed.id ≠ b.witness then
        db.modify_witness witness_missed (fun w => { w with total_missed := w.total_missed + 1 })
      else db
    update_missed_witnesses o b rest db

/-- The value `recently_missed_count` receives in `update_global_dynamic_data` (32-bit
unsigned arithmetic), from the block number, the checkpoints, the missed blocks and the value
before. -/
def new_recently_missed_count (cfg : chain_config) (checkpoints : List (Nat × Nat))
    (block_num missed_blocks recently_missed_count : Nat) : Nat :=
  if block_num = 1 then 0
  else if (checkpoints.length != 0 &&
      (match checkpoints.getLast? with
        | some cp => decide (cp.1 ≥ block_num)
        | none => false)) = true then 0
  else if missed_blocks ≠ 0 then
    (recently_missed_count + cfg.GRAPHENE_RECENTLY_MISSED_COUNT_INCREMENT * missed_blocks) % 2 ^ 32
  else if recently_missed_count > cfg.GRAPHENE_RECENTLY_MISSED_COUNT_INCREMENT then
    uint32_sub recently_missed_count cfg.GRAPHENE_RECENTLY_MISSED_COUNT_DECREMENT
  else if recently_missed_count > 0 then recently_missed_count - 1
  else recently_missed_count

/-- The mutation of the dynamic global properties in `update_global_dynamic_data`. -/
def update_dgp (cfg : chain_config) (checkpoints : List (Nat × Nat)) (b : signed_block)
    (missed_blocks : Nat) (dgp : dynamic_global_property_object) :
    dynamic_global_property_object :=
  { dgp with
    recently_missed_count :=
      new_recently_missed_count cfg checkpoints b.block_num missed_blocks dgp.recently_missed_count
    head_block_number := b.block_num
    head_block_id := b.id
    time := b.timestamp
    current_witness := b.witness
    recent_slots_filled :=
      (((dgp.recent_slots_filled * 2) % 2 ^ 128 + 1) % 2 ^ 128 * 2 ^ missed_blocks) % 2 ^ 128
    current_aslot := (dgp.current_aslot + (missed_blocks + 1) % 2 ^ 32) % 2 ^ 64 }

/-- The function `database::update_global_dynamic_data( b )`. -/
def update_global_dynamic_data (cfg : chain_config) (o : schedule_oracle) (db : database)
    (b : signed_block) : Except exception database := do
  let missed_blocks := o.get_slot_at_time b.timestamp % 2 ^ 32
  assert (decide (missed_blocks ≠ 0))
  let missed_blocks := missed_blocks - 1
  let db ← update_missed_witnesses o b (List.range missed_blocks) db
  let db := db.modify_dgp (update_dgp cfg db.checkpoints b missed_blocks)
  if db.skip_flags &&& cfg.skip_undo_history_check = 0 then
    if uint32_sub db.dgp.head_block_number db.dgp.last_irreversible_block_num
        < cfg.GRAPHENE_MAX_UNDO_HISTORY then pure ()
    else throw .undo_database_exception
  let size := (uint32_sub db.dgp.head_block_number db.dgp.last_irreversible_block_num + 1) % 2 ^ 32
  pure { db with undo_db_max_size := size, fork_db_max_size := size }

/-! ## `update_signing_witness` -/

/-- The function `database::update_signing_witness( signing_witness, new_block )`. -/
def update_signing_witness (o : schedule_oracle) (db : database) (signing_witness : witness_object)
    (new_block : signed_block) : Except exception database := do
  let new_block_aslot :=
    (db.dgp.current_aslot + o.get_slot_at_time new_block.timestamp % 2 ^ 32) % 2 ^ 64
  let witness_pay := min db.gpo.parameters.witness_pay_per_block db.dgp.witness_budget
  let witness_budget ← safe_sub db.dgp.witness_budget witness_pay
  let db := db.modify_dgp (fun _dpo => { _dpo with witness_budget := witness_budget })
  let db := deposit_witness_pay db signing_witness witness_pay
  pure (db.modify_witness signing_witness (fun _wit =>
    { _wit with last_aslot := new_block_aslot, last_confirmed_block_num := new_block.block_num }))

/-! ## `update_last_irreversible_block` -/

/-- The loop that fills `wit_objs`: the witness object of every id, in order. -/
def get_witnesses (db : database) : List Nat → Except exception (List witness_object)
  | [] => .ok []
  | wid :: rest => do
    let w ← db.get_witness wid
    let ws ← get_witnesses db rest
    pure (w :: ws)

/-- The comparison handed to `std::nth_element`, as a relation: `a` is not after `b`, that is,
not `b->last_confirmed_block_num < a->last_confirmed_block_num`. -/
def not_after (a b : witness_object) : Prop :=
  a.last_confirmed_block_num ≤ b.last_confirmed_block_num

instance : DecidableRel not_after := fun a b =>
  inferInstanceAs (Decidable (a.last_confirmed_block_num ≤ b.last_confirmed_block_num))

instance : IsTotal witness_object not_after :=
  ⟨fun a b => Nat.le_total a.last_confirmed_block_num b.last_confirmed_block_num⟩

instance : IsTrans witness_object not_after :=
  ⟨fun _ _ _ hab hbc => Nat.le_trans hab hbc⟩

instance : IsRefl witness_object not_after :=
  ⟨fun a => Nat.le_refl a.last_confirmed_block_num⟩

/-- What the C++ standard promises of `std::nth_element( first, first + n, last, comp )`: the
range is rearranged, and no element before position `n` is after the element at `n`, which is
after no element behind it. Which rearrangement is made, and so how ties are broken, is left
open. -/
def nth_element_post (input output : List witness_object) (n : Nat) : Prop :=
  output.Perm input ∧
  ∀ (i j : Nat) (hi : i < output.length) (hj : j < output.length),
    i ≤ n → n ≤ j → not_after (output.get ⟨i, hi⟩) (output.get ⟨j, hj⟩)

/-- One rearrangement `std::nth_element` may make: the whole range in ascending order of
`last_confirmed_block_num`, equal keys in their order of arrival. -/
def nth_element (wit_objs : List witness_object) (_n : Nat) : List witness_object :=
  wit_objs.insertionSort not_after

/-- The selection offset of `update_last_irreversible_block` for `n` witnesses: the difference
of the two constants is converted to `size_t` and the product is taken in 64-bit unsigned
arithmetic. -/
def irreversible_offset (cfg : chain_config) (n : Nat) : Nat :=
  (((cfg.GRAPHENE_100_PERCENT + 2 ^ 64 - cfg.GRAPHENE_IRREVERSIBLE_THRESHOLD) % 2 ^ 64) * n)
    % 2 ^ 64 / cfg.GRAPHENE_100_PERCENT

/-- The function `database::update_last_irreversible_block()`, for a rearrangement
`nth_element` of the standard library. -/
def update_last_irreversible_block_with
    (nth_element : List witness_object → Nat → List witness_object)
    (cfg : chain_config) (db : database) : Except exception database := do
  let wit_objs ← get_witnesses db db.gpo.active_witnesses
  let offset := irreversible_offset cfg wit_objs.length
  let wit_objs := nth_element wit_objs offset
  let w ← deref wit_objs offset
  let new_last_irreversible_block_num := w.last_confirmed_block_num
  if new_last_irreversible_block_num > db.dgp.last_irreversible_block_num then
    pure (db.modify_dgp (fun _dpo =>
      { _dpo with last_irreversible_block_num := new_last_irreversible_block_num }))
  else pure db

/-- The function `database::update_last_irreversible_block()`. -/
def update_last_irreversible_block (cfg : chain_config) (db : database) :
    Except exception database :=
  update_last_irreversible_block_with nth_element cfg db

/-! ## `update_maintenance_flag` -/

/-- The function `database::update_maintenance_flag( new_maintenance_flag )` (32-bit flags). -/
def update_maintenance_flag (cfg : chain_config) (db : database) (new_maintenance_flag : Bool) :
    database :=
  db.modify_dgp (fun dpo =>
    { dpo with dynamic_flags :=
        (dpo.dynamic_flags &&& (4294967295 ^^^ cfg.maintenance_flag))
          ||| (if new_maintenance_flag then cfg.maintenance_flag else 0) })

/-! ## The quantities of the black-swan rule -/

instance {ε α : Type} [DecidableEq ε] [DecidableEq α] : DecidableEq (Except ε α) := fun x y =>
  match x, y with
  | .ok a, .ok b =>
    if h : a = b then isTrue (by rw [h]) else isFalse (fun h2 => h (by cases h2; rfl))
  | .error a, .error b =>
    if h : a = b then isTrue (by rw [h]) else isFalse (fun h2 => h (by cases h2; rfl))
  | .ok _, .error _ => isFalse (fun h => by cases h)
  | .error _, .ok _ => isFalse (fun h => by cases h)

/-- The call order `check_for_blackswan` reads for the asset `mia`: the first one of the
`by_price` index within the call-price range of the pair (`call_itr`), `none` when the range
`[call_itr, call_end)` is empty. -/
def first_call_order (cfg : chain_config) (db : database) (mia : asset_object)
    (bitasset : asset_bitasset_data_object) : Except exception (Option call_order_object) :=
  let call_price_index := db.call_orders.map (fun c => c.call_price)
  let call_itr := lower_bound price.lt call_price_index
    (price.min cfg bitasset.options.short_backing_asset mia.id)
  let call_end := upper_bound price.lt call_price_index
    (price.max cfg bitasset.options.short_backing_asset mia.id)
  if call_itr = call_end then .ok none else (deref db.call_orders call_itr).map some

/-- The highest bid `HB`: the first limit order of the `by_price` index within the bid range of
the pair (`limit_itr`), `none` when the range `[limit_itr, limit_end)` is empty. -/
def highest_bid (cfg : chain_config) (db : database) (mia : asset_object)
    (bitasset : asset_bitasset_data_object) : Except exception (Option limit_order_object) :=
  let limit_price_index := db.limit_orders.map (fun o => o.sell_price)
  let limit_itr := lower_bound price.gt limit_price_index
    (price.max cfg mia.id bitasset.options.short_backing_asset)
  let limit_end := upper_bound price.gt limit_price_index
    (price.min cfg mia.id bitasset.options.short_backing_asset)
  if limit_itr = limit_end then .ok none else (deref db.limit_orders limit_itr).map some

/-- The swan price of a call order, debt / collateral. -/
def swan_price (c : call_order_object) : price := ⟨c.get_debt, c.get_collateral⟩

/-- The price `MAX` of the rule: `max(HB, SP)` when there is a highest bid, else `SP`. -/
def max_bid_or_feed (HB : Option limit_order_object) (SP : price) : price :=
  match HB with
  | some o => price.std_max o.sell_price SP
  | none => SP

/-! ## Concrete states for the evaluations -/

/-- A stand-in for the external global settlement in the concrete evaluations: it records the
settlement price on the bitasset data of the asset and changes nothing else. -/
def record_settlement (db : database) (mia : asset_object) (p : price) :
    Except exception database :=
  .ok { db with bitassets := db.bitassets.map (fun b =>
    if some b.id = mia.bitasset_data_id then { b with settlement_price := p } else b) }

/-- The core asset, id 0, not market-issued. -/
def core_asset : asset_object := { id := 0, bitasset_data_id := none }

/-- A market-issued asset, id 1, backed by the core asset. -/
def usd_asset : asset_object := { id := 1, bitasset_data_id := some 7 }

/-- The price of `debt` units of the asset 1 for `collateral` units of the asset 0. -/
def usd_per_core (debt collateral : Int) : price := ⟨⟨debt, 1⟩, ⟨collateral, 0⟩⟩

/-- The null price. -/
def null_price : price := ⟨⟨0, 0⟩, ⟨0, 0⟩⟩

/-- The bitasset data of `usd_asset` with the feed settlement price `feed` and the recorded
settlement price `settlement`. -/
def usd_bitasset (feed settlement : price) : asset_bitasset_data_object :=
  { id := 7, options := { short_backing_asset := 0 }, current_feed := { settlement_price := feed },
    settlement_price := settlement }

/-- A short position of `debt` units of the asset 1 against `collateral` units of the asset 0. -/
def short_position (debt collateral : Int) : call_order_object :=
  { id := 0, borrower := 5, collateral := collateral, debt := debt,
    call_price := ⟨⟨collateral, 0⟩, ⟨debt, 1⟩⟩ }

/-- A limit order selling `debt` units of the asset 1 for `collateral` units of the asset 0. -/
def bid_order (debt collateral : Int) : limit_order_object :=
  { id := 0, seller := 6, sell_price := usd_per_core debt collateral, expiration := 1000 }

/-- Dynamic global properties at head block 10 with last irreversible block 5. -/
def sample_dgp : dynamic_global_property_object :=
  { head_block_number := 10, head_block_id := 0, time := 30, current_witness := 1,
    witness_budget := 100, recently_missed_count := 0, current_aslot := 10,
    recent_slots_filled := 1023, dynamic_flags := 0, last_irreversible_block_num := 5 }

/-- Three witnesses with ids 1, 2, 3 and the given last confirmed block numbers. -/
def sample_witnesses (a b c : Nat) : List witness_object :=
  [{ id := 1, witness_account := 11, total_missed := 0, last_aslot := 8,
     last_confirmed_block_num := a },
   { id := 2, witness_account := 12, total_missed := 0, last_aslot := 9,
     last_confirmed_block_num := b },
   { id := 3, witness_account := 13, total_missed := 0, last_aslot := 10,
     last_confirmed_block_num := c }]

/-- A state with the market of `usd_asset` given by its bitasset data, call orders and limit
orders. -/
def market_state (bitasset : asset_bitasset_data_object) (calls : List call_order_object)
    (bids : List limit_order_object) : database :=
  { dgp := sample_dgp
    gpo := { parameters := { witness_pay_per_block := 3 }, active_witnesses := [1, 2, 3] }
    witnesses := sample_witnesses 8 9 10
    bitassets := [bitasset]
    call_orders := calls
    limit_orders := bids
    checkpoints := []
    skip_flags := 0
    undo_db_max_size := 6
    fork_db_max_size := 6
    witness_pay_deposits := [] }

/-! ## The rule of the specification for `recently_missed_count` -/

/-- The priority-ordered rule of the specification, first match wins, in exact arithmetic: 0 at
the genesis block (block number 1); else 0 when some configured checkpoint is at or above the
block number (the newest one then is); else the value before plus the increment constant times
the missed blocks when blocks were missed; else the value before minus the decrement constant
when it is above the threshold; else the value before minus 1 when it is positive; else 0. -/
def recently_missed_count_rule (cfg : chain_config) (checkpoints : List (Nat × Nat))
    (block_num missed_blocks prior : Nat) : Nat :=
  if block_num = 1 then 0
  else if ∃ cp ∈ checkpoints, block_num ≤ cp.1 then 0
  else if 0 < missed_blocks then
    prior + cfg.GRAPHENE_RECENTLY_MISSED_COUNT_INCREMENT * missed_blocks
  else if cfg.GRAPHENE_RECENTLY_MISSED_COUNT_INCREMENT < prior then
    prior - cfg.GRAPHENE_RECENTLY_MISSED_COUNT_DECREMENT
  else if 0 < prior then prior - 1
  else 0

/-- A schedule for the concrete evaluations: slots of 3 seconds counted from the time 30, the
witnesses 1, 2, 3 in rotation. -/
def sample_oracle : schedule_oracle :=
  { get_slot_at_time := fun t => (t - 30) / 3
    get_scheduled_witness := fun slot => slot % 3 + 1 }

/-- A state with the given dynamic global properties, checkpoints and skip flags, the witnesses
1, 2, 3 active and no market. -/
def chain_state (dgp : dynamic_global_property_object) (checkpoints : List (Nat × Nat))
    (skip_flags : Nat) : database :=
  { dgp := dgp
    gpo := { parameters := { witness_pay_per_block := 3 }, active_witnesses := [1, 2, 3] }
    witnesses := sample_witnesses 8 9 10
    bitassets := []
    call_orders := []
    limit_orders := []
    checkpoints := checkpoints
    skip_flags := skip_flags
    undo_db_max_size := 6
    fork_db_max_size := 6
    witness_pay_deposits := [] }

/-- The block number 11 signed by the witness 2 at the given time. -/
def block_11 (timestamp : Nat) : signed_block :=
  { block_num := 11, id := 111, timestamp := timestamp, witness := 2 }

/-! ## Sequences of operations -/

/-- The operations of `db_update.cpp` on the dynamic global properties and the witnesses. -/
inductive operation where
  | update_global_dynamic_data (o : schedule_oracle) (b : signed_block)
  | update_signing_witness (o : schedule_oracle) (signing_witness : witness_object)
      (new_block : signed_block)
  | update_last_irreversible_block
  | update_maintenance_flag (new_maintenance_flag : Bool)

/-- One operation applied to a state, for a rearrangement `nth` of the standard library. -/
def operation.apply (nth : List witness_object → Nat → List witness_object) (cfg : chain_config)
    (db : database) : operation → Except exception database
  | .update_global_dynamic_data o b => Graphene.update_global_dynamic_data cfg o db b
  | .update_signing_witness o signing_witness new_block =>
    Graphene.update_signing_witness o db signing_witness new_block
  | .update_last_irreversible_block => update_last_irreversible_block_with nth cfg db
  | .update_maintenance_flag new_maintenance_flag =>
    .ok (Graphene.update_maintenance_flag cfg db new_maintenance_flag)

/-- The states a sequence of operations goes through, up to the first operation that fails. -/
def run_operations (nth : List witness_object → Nat → List witness_object) (cfg : chain_config) :
    database → List operation → List database
  | _, [] => []
  | db, op :: ops =>
    match op.apply nth cfg db with
    | .ok db2 => db2 :: run_operations nth cfg db2 ops
    | .error _ => []

/-- The witnesses with ids 1, 2, ... and the given last confirmed block numbers. -/
def witnesses_confirming (heights : List Nat) : List witness_object :=
  (List.enumFrom 1 heights).map (fun ih =>
    { id := ih.1, witness_account := 10 + ih.1, total_missed := 0, last_aslot := 0,
      last_confirmed_block_num := ih.2 })

/-- A state whose active witnesses have the given last confirmed block numbers, with last
irreversible block `lib`. -/
def producer_state (heights : List Nat) (lib : Nat) : database :=
  { chain_state { sample_dgp with last_irreversible_block_num := lib } [] 0 with
    witnesses := witnesses_confirming heights
    gpo := { parameters := { witness_pay_per_block := 3 },
             active_witnesses := (List.enumFrom 1 heights).map (fun ih => ih.1) } }

/-! ## The rule of the specification for `recent_slots_filled` -/

/-- The sequence of the specification for `recent_slots_filled`, in the 128-bit unsigned type:
"left-shifts by one bit, sets the low bit, then left-shifts again by `missed_blocks`". -/
def recent_slots_filled_rule (old missed_blocks : Nat) : Nat :=
  ((((old <<< 1) % 2 ^ 128) ||| 1) <<< missed_blocks) % 2 ^ 128

/-! ## `clear_expired_transactions` and `update_withdraw_permissions` -/

/-- The loop of `clear_expired_transactions`: while the index is not empty and the head block
time is after the expiration of its last entry (`rbegin()`), that entry is removed. Every
iteration removes one entry, so the length of the index bounds the iterations. -/
def clear_expired_transactions_loop (head_block_time : Nat) :
    Nat → List transaction_object → List transaction_object
  | 0, dedupe_index => dedupe_index
  | fuel + 1, dedupe_index =>
    match dedupe_index.getLast? with
    | none => dedupe_index
    | some last =>
      if head_block_time > last.expiration then
        clear_expired_transactions_loop head_block_time fuel dedupe_index.dropLast
      else dedupe_index

/-- The function `database::clear_expired_transactions()`; `head_block_time()` is the time of the
dynamic global properties. -/
def clear_expired_transactions (db : database) : database :=
  { db with transactions :=
      clear_expired_transactions_loop db.dgp.time db.transactions.length db.transactions }

/-- The loop of `update_withdraw_permissions`: while the index is not empty and the expiration
of its first entry (`begin()`) is at or before the head block time, that entry is removed. -/
def update_withdraw_permissions_loop (head_block_time : Nat) :
    List withdraw_permission_object → List withdraw_permission_object
  | [] => []
  | first :: rest =>
    if first.expiration ≤ head_block_time then
      update_withdraw_permissions_loop head_block_time rest
    else first :: rest

/-- The function `database::update_withdraw_permissions()`. -/
def update_withdraw_permissions (db : database) : database :=
  { db with withdraw_permissions :=
      update_withdraw_permissions_loop db.dgp.time db.withdraw_permissions }

/-- A state at head time 30 with the given dedup transactions and withdraw permissions. -/
def sweep_state (transactions : List transaction_object)
    (withdraw_permissions : List withdraw_permission_object) : database :=
  { chain_state sample_dgp [] 0 with
    transactions := transactions
    withdraw_permissions := withdraw_permissions }

/-! ## Asset arithmetic -/

/-- The conversion of a signed 64-bit value to the 128-bit unsigned type (sign extension). -/
def to_uint128 (x : Int) : Nat := (x % 2 ^ 128).toNat

/-- The conversion of an unsigned value to a signed 64-bit share amount: the low 64 bits, read in
two's complement. -/
def to_int64 (n : Nat) : Int :=
  if n % 2 ^ 64 < 2 ^ 63 then ((n % 2 ^ 64 : Nat) : Int) else ((n % 2 ^ 64 : Nat) : Int) - 2 ^ 64

/-- Addition of `fc::safe<int64_t>` share amounts (`safe.hpp` of the `fc` library): the sum, or
an exception when it leaves the 64-bit signed range. -/
def safe_add (a b : Int) : Except exception Int :=
  if 0 < b ∧ a > (2 ^ 63 - 1) - b then .error .overflow_exception
  else if b < 0 ∧ a < -(2 ^ 63) - b then .error .underflow_exception
  else .ok (a + b)

/-- Modelled from the spec: `operator <` on asset amounts: both of the same asset, the smaller
amount. -/
def asset.lt (a b : asset) : Except exception Bool := do
  FC_ASSERT (a.asset_id == b.asset_id)
  pure (decide (a.amount < b.amount))

/-- Modelled from the spec: `operator <=` on asset amounts: equal or less. -/
def asset.le (a b : asset) : Except exception Bool :=
  if a = b then pure true else a.lt b

/-- Modelled from the spec: `operator -` on asset amounts of the same asset. -/
def asset.sub (a b : asset) : Except exception asset := do
  FC_ASSERT (a.asset_id == b.asset_id)
  let amount ← safe_sub a.amount b.amount
  pure ⟨amount, a.asset_id⟩

/-- Modelled from the spec: `operator +=` on asset amounts of the same asset. -/
def asset.add (a b : asset) : Except exception asset := do
  FC_ASSERT (a.asset_id == b.asset_id)
  let amount ← safe_add a.amount b.amount
  pure ⟨amount, a.asset_id⟩

/-- Modelled from the spec: `operator *` of an asset amount and a price, the conversion of the
amount to the other asset of the price "at the feed settlement price", in "exact integer
(fixed-point, wide-intermediate) arithmetic", rounded down; the divisor must be positive and the
result must not exceed the maximum share supply. -/
def asset.mul_price (cfg : chain_config) (a : asset) (b : price) : Except exception asset :=
  if a.asset_id = b.base.asset_id then do
    FC_ASSERT (decide (b.base.amount > 0))
    let result := (to_uint128 a.amount * to_uint128 b.quote.amount) % 2 ^ 128
      / to_uint128 b.base.amount
    FC_ASSERT (decide (result ≤ to_uint128 cfg.GRAPHENE_MAX_SHARE_SUPPLY))
    pure ⟨to_int64 result, b.quote.asset_id⟩
  else if a.asset_id = b.quote.asset_id then do
    FC_ASSERT (decide (b.quote.amount > 0))
    let result := (to_uint128 a.amount * to_uint128 b.base.amount) % 2 ^ 128
      / to_uint128 b.quote.amount
    FC_ASSERT (decide (result ≤ to_uint128 cfg.GRAPHENE_MAX_SHARE_SUPPLY))
    pure ⟨to_int64 result, b.base.asset_id⟩
  else .error .assert_exception

/-- Modelled from the spec: `asset_object::amount( a )`, the amount `a` of this asset. -/
def asset_object.amount (mia_object : asset_object) (a : Int) : asset := ⟨a, mia_object.id⟩

/-! ## Lookups of `clear_expired_orders` -/

/-- The lookup `get( id )` of an asset: the object with that id, a failure when there is none. -/
def database.get_asset (db : database) (id : Nat) : Except exception asset_object :=
  match db.assets.find? (fun a => a.id == id) with
  | some a => .ok a
  | none => .error .assert_exception

/-- Modelled from the spec: `asset_object::bitasset_data( db )`: asserts that the asset is
market-issued and looks its bitasset data up. -/
def asset_object.bitasset_data (mia_object : asset_object) (db : database) :
    Except exception asset_bitasset_data_object :=
  match mia_object.bitasset_data_id with
  | none => .error .assertion_failed
  | some id => db.get_bitasset id

/-- Modelled from the spec: `asset_object::dynamic_data( db )`: looks the dynamic data up. -/
def asset_object.dynamic_data (mia_object : asset_object) (db : database) :
    Except exception asset_dynamic_data_object :=
  match db.asset_dynamic_data.find? (fun d => d.id == mia_object.dynamic_asset_data_id) with
  | some d => .ok d
  | none => .error .assert_exception

/-- The call `find_object( order_id )` on a force-settlement order. -/
def database.find_settlement (db : database) (order_id : Nat) : Option force_settlement_object :=
  db.force_settlements.find? (fun o => o.id == order_id)

/-- The call `modify( mia, f )` on bitasset data: `f` applied in place to the stored object with
the id of `mia`. -/
def database.modify_bitasset (db : database) (mia : asset_bitasset_data_object)
    (f : asset_bitasset_data_object → asset_bitasset_data_object) : database :=
  { db with bitassets := db.bitassets.map (fun x => if x.id = mia.id then f x else x) }

/-- Modelled from the spec: `cancel_order( order )` on a force-settlement request: the request is
cancelled "outright (no conversion)" and leaves the store; its balance goes back to the owner,
which is outside the state kept here. -/
def cancel_order (db : database) (order : force_settlement_object) : database :=
  { db with force_settlements := db.force_settlements.filter (fun o => o.id ≠ order.id) }

/-- Modelled from the spec: `debt_type()`, the asset of the debt of a call order. -/
def call_order_object.debt_type (c : call_order_object) : Nat := c.get_debt.asset_id

/-- The key of the call-order index `by_collateral`: the ratio collateral / debt. -/
def call_order_object.collateral_key (c : call_order_object) : price :=
  ⟨c.get_collateral, c.get_debt⟩

/-- The call-order index `by_collateral`: the call orders in ascending order of their
collateralization, then of their id. -/
def database.call_orders_by_collateral (db : database) : List call_order_object :=
  db.call_orders.insertionSort (fun a b =>
    a.collateral_key.lt b.collateral_key = true ∨
      (b.collateral_key.lt a.collateral_key = false ∧ a.id ≤ b.id))

/-- The limit-order index `by_expiration`: the limit orders in ascending order of expiration. -/
def database.limit_orders_by_expiration (db : database) : List limit_order_object :=
  db.limit_orders.insertionSort (fun a b => a.expiration ≤ b.expiration)

/-! ## The external market engine -/

/-- The operation `limit_order_cancel_operation` as `clear_expired_orders` fills it in. -/
structure limit_order_cancel_operation where
  fee_paying_account : Nat
  order : Nat
  deriving DecidableEq, Repr

/-- The code `clear_expired_orders` calls outside `db_update.cpp`, as parameters:
`match_` is `match( call, order, price, max_settlement )` of the matching engine, which returns
the amount settled with the state after it, or throws and leaves the state as it was;
`max_force_settlement_volume` is the member of the bitasset data that computes the volume cap
from the current supply; `apply_operation` is the generic evaluator, applied to the synthetic
cancel operation. -/
structure market_engine where
  match_ : database → call_order_object → force_settlement_object → price → asset →
    Except exception (asset × database)
  max_force_settlement_volume : asset_bitasset_data_object → Int → Int
  apply_operation : database → limit_order_cancel_operation → Except exception database

/-! ## `clear_expired_orders` -/

/-- The loop of `clear_expired_orders` over the limit orders: while the first order of the
index `by_expiration` has `expiration <= head_block_time()`, a cancel operation for it is
applied. `fuel` bounds the number of evaluations of the loop condition. -/
def cancel_expired_limit_orders (eng : market_engine) : Nat → database → Except exception database
  | 0, _ => .error .out_of_fuel
  | fuel + 1, db =>
    match db.limit_orders_by_expiration.head? with
    | none => pure db
    | some order =>
      if order.expiration ≤ db.dgp.time then do
        let db ← eng.apply_operation db ⟨order.seller, order.id⟩
        cancel_expired_limit_orders eng fuel db
      else pure db

/-- The amount of `receives` after the offset in `clear_expired_orders`:
`(fc::uint128_t( amount ) * (GRAPHENE_100_PERCENT - force_settlement_offset_percent) /
GRAPHENE_100_PERCENT).to_uint64()`, stored in a share amount. -/
def offset_receives (cfg : chain_config) (mia : asset_bitasset_data_object) (amount : Int) : Int :=
  to_int64 ((to_uint128 amount *
      to_uint128 ((cfg.GRAPHENE_100_PERCENT : Int) -
        (mia.options.force_settlement_offset_percent : Int))) % 2 ^ 128 /
    to_uint128 (cfg.GRAPHENE_100_PERCENT : Int))

/-- The payout of a force-settlement request in `clear_expired_orders`: `pays` is the balance of
the request, `receives` its conversion `order.balance * settlement_price` with the amount replaced
by the amount after the offset, then the assertion
`receives <= order.balance * settlement_price`, and the price `pays / receives` handed to the
matching engine. The result is `(pays, receives, settlement_price)`. -/
def settlement_payout (cfg : chain_config) (order : force_settlement_object)
    (mia : asset_bitasset_data_object) : Except exception (asset × asset × price) := do
  let pays := order.balance
  let converted ← order.balance.mul_price cfg mia.current_feed.settlement_price
  let receives : asset := { converted with amount := offset_receives cfg mia converted.amount }
  let bound ← order.balance.mul_price cfg mia.current_feed.settlement_price
  let within ← receives.le bound
  assert within
  let settlement_price ← asset.div pays receives
  pure (pays, receives, settlement_price)

/-- The variables the force-settlement loop of `clear_expired_orders` carries from one iteration
to the next: the state, `current_asset` and `max_settlement_volume`. -/
structure settlement_loop_state where
  db : database
  current_asset : Nat
  max_settlement_volume : asset
  deriving DecidableEq, Repr

/-- The outcome of one iteration of the force-settlement loop: `again` when the loop goes on
(`continue`, or the end of the body), `finished` when it ends (`break`, or `itr` at the end). -/
inductive settlement_loop_step where
  | again (s : settlement_loop_state)
  | finished (db : database)
  deriving DecidableEq, Repr

/-- The lambda `next_asset` of `clear_expired_orders`: the asset of the first request past the
requests of `current_asset` in the index ordered by asset, `none` when there is no such request
(the lambda returns false). -/
def next_asset (db : database) (current_asset : Nat) : Option Nat :=
  (db.force_settlements[upper_bound (fun a b => decide (a < b))
    (db.force_settlements.map (fun o => o.settlement_asset_id)) current_asset]?).map
    (fun o => o.settlement_asset_id)

/-- The head of an iteration of the force-settlement loop: the request `*itr` at
`settlement_index.lower_bound( current_asset )` with its asset object and the copy of its
bitasset data; `none` when `itr` is at the end. -/
def current_request (s : settlement_loop_state) :
    Except exception
      (Option (force_settlement_object × asset_object × asset_bitasset_data_object)) :=
  match s.db.force_settlements[lower_bound (fun a b => decide (a < b))
      (s.db.force_settlements.map (fun o => o.settlement_asset_id)) s.current_asset]? with
  | none => pure none
  | some order => do
    let mia_object ← s.db.get_asset order.settlement_asset_id
    let mia ← mia_object.bitasset_data s.db
    pure (some (order, mia_object, mia))

/-- The volume cap in force in an iteration: `max_settlement_volume` is computed from the
current supply of the asset when it is not a volume of this asset, and kept otherwise. -/
def cap_in_force (eng : market_engine) (db : database) (max_settlement_volume : asset)
    (current_asset : Nat) (mia_object : asset_object) (mia : asset_bitasset_data_object) :
    Except exception asset :=
  if max_settlement_volume.asset_id ≠ current_asset then do
    let dyn ← mia_object.dynamic_data db
    pure (mia_object.amount (eng.max_force_settlement_volume mia dyn.current_supply))
  else pure max_settlement_volume

/-- The inner loop of `clear_expired_orders`: while `settled < max_settlement_volume` and the
request still exists, the request is matched against the call order at the lower bound of the
asset in the index `by_collateral`, for at most `max_settlement_volume - settled`, and the amount
returned is added to `settled`; a `black_swan_exception` of the match cancels the request and
ends the loop. `fuel` bounds the number of evaluations of the loop condition. -/
def match_settlement_loop (eng : market_engine) (cfg : chain_config) (mia_object : asset_object)
    (order_id : Nat) (settlement_price : price) (max_settlement_volume : asset) :
    Nat → database → asset → Except exception (database × asset)
  | 0, _, _ => .error .out_of_fuel
  | fuel + 1, db, settled => do
    let below ← settled.lt max_settlement_volume
    match (if below then db.find_settlement order_id else none) with
    | none => pure (db, settled)
    | some order => do
      let bitasset ← mia_object.bitasset_data db
      match db.call_orders_by_collateral[lower_bound price.lt
          (db.call_orders_by_collateral.map call_order_object.collateral_key)
          (price.min cfg bitasset.options.short_backing_asset mia_object.id)]? with
      | none => .error .assertion_failed
      | some call => do
        assert (call.debt_type == mia_object.id)
        let max_settlement ← max_settlement_volume.sub settled
        match eng.match_ db call order settlement_price max_settlement with
        | .ok (amount, db) => do
          let settled ← settled.add amount
          match_settlement_loop eng cfg mia_object order_id settlement_price
            max_settlement_volume fuel db settled
        | .error .black_swan_exception => pure (cancel_order db order, settled)
        | .error e => .error e

/-- One iteration of the force-settlement loop of `clear_expired_orders`. -/
def settlement_iteration (eng : market_engine) (cfg : chain_config) (fuel : Nat)
    (s : settlement_loop_state) : Except exception settlement_loop_step := do
  match ← current_request s with
  | none => pure (.finished s.db)
  | some (order, mia_object, mia) =>
    if mia.has_settlement then
      pure (.again { s with db := cancel_order s.db order,
                            current_asset := order.settlement_asset_id })
    else if order.settlement_date > s.db.dgp.time then
      match next_asset s.db order.settlement_asset_id with
      | some following => pure (.again { s with current_asset := following })
      | none => pure (.finished s.db)
    else if mia.current_feed.settlement_price.is_null then
      pure (.again { s with db := cancel_order s.db order,
                            current_asset := order.settlement_asset_id })
    else do
      let max_settlement_volume ← cap_in_force eng s.db s.max_settlement_volume
        order.settlement_asset_id mia_object mia
      if mia.force_settled_volume ≥ max_settlement_volume.amount then
        match next_asset s.db order.settlement_asset_id with
        | some following => pure (.again ⟨s.db, following, max_settlement_volume⟩)
        | none => pure (.finished s.db)
      else do
        let payout ← settlement_payout cfg order mia
        let result ← match_settlement_loop eng cfg mia_object order.id payout.2.2
          max_settlement_volume fuel s.db (mia_object.amount mia.force_settled_volume)
        pure (.again ⟨result.1.modify_bitasset mia
            (fun b => { b with force_settled_volume := result.2.amount }),
          order.settlement_asset_id, max_settlement_volume⟩)

/-- The force-settlement loop of `clear_expired_orders`. `fuel` bounds the number of
iterations, `inner_fuel` the inner loop of each. -/
def settlement_loop (eng : market_engine) (cfg : chain_config) (inner_fuel : Nat) :
    Nat → settlement_loop_state → Except exception database
  | 0, _ => .error .out_of_fuel
  | fuel + 1, s => do
    match ← settlement_iteration eng cfg inner_fuel s with
    | .finished db => pure db
    | .again s => settlement_loop eng cfg inner_fuel fuel s

/-- The states at the heads of the iterations of the force-settlement loop from `s`, in order,
as far as the iterations succeed and the fuel reaches. -/
def settlement_trace (eng : market_engine) (cfg : chain_config) (inner_fuel : Nat) :
    Nat → settlement_loop_state → List settlement_loop_state
  | 0, _ => []
  | fuel + 1, s =>
    s :: (match settlement_iteration eng cfg inner_fuel s with
      | .ok (.again s) => settlement_trace eng cfg inner_fuel fuel s
      | _ => [])

/-- The function `database::clear_expired_orders`: the expired limit orders are cancelled with
the authority check skipped, then the force-settlement requests are processed asset by asset.
`fuel` bounds each of its loops. -/
def clear_expired_orders (eng : market_engine) (cfg : chain_config) (fuel : Nat) (db : database) :
    Except exception database := do
  let cancelled ← cancel_expired_limit_orders eng fuel
    { db with skip_flags := db.skip_flags ||| cfg.skip_authority_check }
  let db := { cancelled with skip_flags := db.skip_flags }
  match db.force_settlements.head? with
  | none => pure db
  | some first =>
    settlement_loop eng cfg fuel fuel ⟨db, first.settlement_asset_id, ⟨0, 0⟩⟩

/-! ## The payout rule of the specification and concrete markets -/

/-- The payout of a force-settlement request in the words of the specification:
`floor(B * P * (100% - f) / 100%)` for the balance `B`, the price `P` as a rational number and
the offset `f`, with `B * P` the exact rational conversion. -/
def settlement_payout_rule (cfg : chain_config) (B : Int) (P : ℚ) (f : Nat) : Int :=
  ⌊(B : ℚ) * P * ((cfg.GRAPHENE_100_PERCENT : ℚ) - (f : ℚ)) / (cfg.GRAPHENE_100_PERCENT : ℚ)⌋

/-- A stand-in for the matching of a request against a call order in the concrete evaluations:
it settles the smallest of the balance of the request, `max_settlement` and the debt of the call
order, which must be an amount of the asset of the request and not negative, throws
`black_swan_exception` when the call order cannot pay for it at the match price, takes the
amount off the request (which leaves the store when nothing is left) and off the call order,
and returns the amount. -/
def sample_match (cfg : chain_config) (db : database) (call : call_order_object)
    (order : force_settlement_object) (match_price : price) (max_settlement : asset) :
    Except exception (asset × database) := do
  let filled := min (min order.balance.amount max_settlement.amount) call.debt
  FC_ASSERT (order.balance.asset_id == max_settlement.asset_id)
  FC_ASSERT (decide (0 ≤ filled))
  let call_pays ← (⟨filled, order.balance.asset_id⟩ : asset).mul_price cfg match_price
  if call.collateral ≤ call_pays.amount then .error .black_swan_exception
  else
    pure (⟨filled, order.balance.asset_id⟩,
      { db with
        force_settlements :=
          (db.force_settlements.map (fun o =>
            if o.id = order.id then
              { o with balance := ⟨o.balance.amount - filled, o.balance.asset_id⟩ }
            else o)).filter (fun o => o.id ≠ order.id ∨ o.balance.amount ≠ 0)
        call_orders :=
          db.call_orders.map (fun c =>
            if c.id = call.id then
              { c with debt := c.debt - filled, collateral := c.collateral - call_pays.amount }
            else c) })

/-- A stand-in for the external engine in the concrete evaluations: `sample_match`, the volume
cap as the `maximum_force_settlement_volume` share of the supply, and a cancel operation that
removes the limit order. -/
def sample_engine : market_engine where
  match_ := sample_match default_config
  max_force_settlement_volume := fun b supply =>
    supply * (b.options.maximum_force_settlement_volume : Int) / 10000
  apply_operation := fun db op =>
    .ok { db with limit_orders := db.limit_orders.filter (fun o => o.id ≠ op.order) }

/-- A request to settle `amount` units of the asset 1, due at `settlement_date`. -/
def settle_request (id : Nat) (amount : Int) (settlement_date : Nat) : force_settlement_object :=
  { id := id, owner := 9, balance := ⟨amount, 1⟩, settlement_date := settlement_date }

/-- The bitasset data of `usd_asset` with the feed settlement price `feed`, the offset
`offset_percent`, the volume share `volume_percent` and `settled` units settled before. -/
def settling_bitasset (feed : price) (offset_percent volume_percent : Nat) (settled : Int) :
    asset_bitasset_data_object :=
  { id := 7
    options := { short_backing_asset := 0, force_settlement_offset_percent := offset_percent,
                 maximum_force_settlement_volume := volume_percent }
    current_feed := { settlement_price := feed }
    settlement_price := null_price
    force_settled_volume := settled }

/-- A state at head time 30 with the market of `usd_asset`: its bitasset data, its current
supply, the call orders and the force-settlement requests. -/
def settlement_state (bitasset : asset_bitasset_data_object) (supply : Int)
    (calls : List call_order_object) (requests : List force_settlement_object) : database :=
  { market_state bitasset calls [] with
    force_settlements := requests
    assets := [core_asset, usd_asset]
    asset_dynamic_data := [{ id := 0, current_supply := supply }] }

/-- A matching routine that settles nothing and changes nothing: it returns the amount 0, which
is at most `max_settlement`; the cap and the cancel operation are those of `sample_engine`. -/
def idle_engine : market_engine :=
  { sample_engine with
    match_ := fun db _call _order _match_price max_settlement =>
      .ok (⟨0, max_settlement.asset_id⟩, db) }

/-! # Properties -/

/-! ## Prices -/

theorem price.ge_eq_le (a b : price) : a.ge b = b.le a := by
  unfold price.ge price.le price.lt price.eq
  rcases lt_trichotomy a.base.asset_id b.base.asset_id with h1 | h1 | h1
  · have h1' : ¬ b.base.asset_id < a.base.asset_id := by omega
    have h1'' : a.base.asset_id ≠ b.base.asset_id := by omega
    simp [h1, h1', h1'', Ne.symm h1'']
  · rcases lt_trichotomy a.quote.asset_id b.quote.asset_id with h2 | h2 | h2
    · have h2' : ¬ b.quote.asset_id < a.quote.asset_id := by omega
      have h2'' : a.quote.asset_id ≠ b.quote.asset_id := by omega
      simp [h1, h2, h2', h2'', Ne.symm h2'']
    · simp only [h1, h2, lt_self_iff_false, if_false, ne_eq, not_true_eq_false, or_self]
      by_cases h : b.quote.amount * a.base.amount < a.quote.amount * b.base.amount
      · have h3 : ¬ a.quote.amount * b.base.amount = b.quote.amount * a.base.amount := by omega
        have h4 : ¬ a.quote.amount * b.base.amount < b.quote.amount * a.base.amount := by omega
        simp [h, h3, h4]
      · by_cases h3 : a.quote.amount * b.base.amount = b.quote.amount * a.base.amount
        · simp [h, h3]
        · have h4 : a.quote.amount * b.base.amount < b.quote.amount * a.base.amount := by omega
          simp [h, h3, h4]
    · have h2' : ¬ a.quote.asset_id < b.quote.asset_id := by omega
      have h2'' : a.quote.asset_id ≠ b.quote.asset_id := by omega
      simp [h1, h2, h2', h2'', Ne.symm h2'']
  · have h1' : ¬ a.base.asset_id < b.base.asset_id := by omega
    have h1'' : a.base.asset_id ≠ b.base.asset_id := by omega
    simp [h1, h1', h1'', Ne.symm h1'']

@[simp] theorem price.inv_inv (p : price) : p.inv.inv = p := rfl

/-! ## `check_for_blackswan` -/

theorem collateralization_eq_ok_iff (c : call_order_object) (LC : price) :
    c.collateralization = .ok LC ↔
      c.call_price.base.asset_id ≠ c.call_price.quote.asset_id ∧ LC = (swan_price c).inv := by
  by_cases h : c.call_price.base.asset_id = c.call_price.quote.asset_id
  · simp [call_order_object.collateralization, asset.div, FC_ASSERT, swan_price, price.inv,
      call_order_object.get_collateral, call_order_object.get_debt, h, bind, Except.bind]
  · simp [call_order_object.collateralization, asset.div, FC_ASSERT, swan_price, price.inv,
      call_order_object.get_collateral, call_order_object.get_debt, h, bind, Except.bind, pure,
      Except.pure, eq_comm]

/-- The value of `check_for_blackswan` past its early exits: with the first call order `c` of the
asset, its collateralization `LC` and the highest bid `HB`. -/
theorem check_for_blackswan_past_exits (cfg : chain_config)
    (gsa : database → asset_object → price → Except exception database)
    (db : database) (mia : asset_object) (bid : Nat) (bitasset : asset_bitasset_data_object)
    (c : call_order_object) (LC : price) (HB : Option limit_order_object) (enable : Bool)
    (hmia : mia.bitasset_data_id = some bid)
    (hbit : db.get_bitasset bid = .ok bitasset)
    (hset : bitasset.has_settlement = false)
    (hfeed : bitasset.current_feed.settlement_price.is_null = false)
    (hcall : first_call_order cfg db mia bitasset = .ok (some c))
    (hLC : c.collateralization = .ok LC)
    (hbid : highest_bid cfg db mia bitasset = .ok HB)
    (hsame : ∀ o, HB = some o →
      bitasset.current_feed.settlement_price.base.asset_id = o.sell_price.base.asset_id) :
    check_for_blackswan cfg gsa db mia enable =
      if LC.inv.ge (max_bid_or_feed HB bitasset.current_feed.settlement_price) then
        (if enable then (gsa db mia LC.inv).map (fun db' => (true, db'))
          else .error .assert_exception)
      else .ok (false, db) := by
  unfold first_call_order at hcall
  unfold highest_bid at hbid
  unfold check_for_blackswan
  simp only [hmia, hbit, hset, hfeed, bind, Except.bind, pure, Except.pure]
  simp only [price.max, price.min, assert, beq_self_eq_true, if_true] at *
  split at hcall
  · simp at hcall
  · rename_i hne
    simp only [hne, if_false]
    cases hd : deref db.call_orders
        (lower_bound price.lt (List.map (fun c => c.call_price) db.call_orders)
          ⟨⟨1, bitasset.options.short_backing_asset⟩, ⟨cfg.GRAPHENE_MAX_SHARE_SUPPLY, mia.id⟩⟩) with
    | error e => simp [hd, Except.map] at hcall
    | ok c' =>
      simp [hd, Except.map] at hcall
      subst hcall
      split at hbid
      · rename_i heq
        simp at hbid
        subst hbid
        cases enable <;> simp [heq, hLC, max_bid_or_feed, FC_ASSERT, Except.map]
      · rename_i hne2
        cases hl : deref db.limit_orders
            (lower_bound price.gt (List.map (fun o => o.sell_price) db.limit_orders)
              ⟨⟨cfg.GRAPHENE_MAX_SHARE_SUPPLY, mia.id⟩,
                ⟨1, bitasset.options.short_backing_asset⟩⟩) with
        | error e => simp [hl, Except.map] at hbid
        | ok o =>
          simp [hl, Except.map] at hbid
          subst hbid
          have hs := hsame o rfl
          cases enable <;> simp [hne2, hl, hs, hLC, max_bid_or_feed, FC_ASSERT, Except.map]

/-- C1: for a market-issued asset with no settlement price recorded, a non-null feed settlement
price `SP` and a first call order `c` in the index, `LC` is the swan price debt / collateral of
`c`, which is the inverse of its `collateralization()`, and `MAX` is `max(HB, SP)` when a limit
order `HB` is in the bid range, else `SP`. With `enable_black_swan = true` the function settles
the asset globally at `LC` and returns true when `MAX <= LC`, equality included, and otherwise
returns false with the state unchanged. -/
theorem check_for_blackswan_trigger_rule (cfg : chain_config)
    (gsa : database → asset_object → price → Except exception database)
    (db : database) (mia : asset_object) (bid : Nat) (bitasset : asset_bitasset_data_object)
    (c : call_order_object) (HB : Option limit_order_object)
    (hmia : mia.bitasset_data_id = some bid)
    (hbit : db.get_bitasset bid = .ok bitasset)
    (hset : bitasset.has_settlement = false)
    (hfeed : bitasset.current_feed.settlement_price.is_null = false)
    (hcall : first_call_order cfg db mia bitasset = .ok (some c))
    (hpair : c.call_price.base.asset_id ≠ c.call_price.quote.asset_id)
    (hbid : highest_bid cfg db mia bitasset = .ok HB)
    (hsame : ∀ o, HB = some o →
      bitasset.current_feed.settlement_price.base.asset_id = o.sell_price.base.asset_id) :
    c.collateralization = .ok (swan_price c).inv ∧
    check_for_blackswan cfg gsa db mia true =
      if (max_bid_or_feed HB bitasset.current_feed.settlement_price).le (swan_price c) then
        (gsa db mia (swan_price c)).map (fun db' => (true, db'))
      else .ok (false, db) := by
  have hLC : c.collateralization = .ok (swan_price c).inv :=
    (collateralization_eq_ok_iff c _).2 ⟨hpair, rfl⟩
  refine ⟨hLC, ?_⟩
  rw [check_for_blackswan_past_exits cfg gsa db mia bid bitasset c _ HB true hmia hbit hset hfeed
    hcall hLC hbid hsame]
  simp [price.ge_eq_le]

/-- C1, at the state of the scenario: feed settlement price 10, one short position of debt 10
against collateral 1, no limit orders; the asset is settled at the price 10. -/
theorem check_for_blackswan_trigger_rule_witness :
    ((short_position 10 1).collateralization = .ok (swan_price (short_position 10 1)).inv ∧
      check_for_blackswan default_config record_settlement
          (market_state (usd_bitasset (usd_per_core 10 1) null_price) [short_position 10 1] [])
          usd_asset true =
        if (max_bid_or_feed none (usd_per_core 10 1)).le (swan_price (short_position 10 1)) then
          (record_settlement
            (market_state (usd_bitasset (usd_per_core 10 1) null_price) [short_position 10 1] [])
            usd_asset (swan_price (short_position 10 1))).map (fun db' => (true, db'))
        else .ok (false,
          market_state (usd_bitasset (usd_per_core 10 1) null_price) [short_position 10 1] [])) ∧
    check_for_blackswan default_config record_settlement
        (market_state (usd_bitasset (usd_per_core 10 1) null_price) [short_position 10 1] [])
        usd_asset true =
      .ok (true, market_state (usd_bitasset (usd_per_core 10 1) (usd_per_core 10 1))
        [short_position 10 1] []) :=
  ⟨check_for_blackswan_trigger_rule default_config record_settlement
      (market_state (usd_bitasset (usd_per_core 10 1) null_price) [short_position 10 1] [])
      usd_asset 7 (usd_bitasset (usd_per_core 10 1) null_price) (short_position 10 1) none
      rfl rfl rfl rfl rfl (by decide) rfl (by simp),
    by decide⟩

/-- C2, as stated, fails: with feed price 10 and no limit orders, a short position of debt 5
against collateral 1 has the inverse of its collateralization, 5, less than or equal to
`MAX = 10`, and the function does not trigger for either flag; a short position of debt 11
against collateral 1 has the inverse, 11, not less than or equal to `MAX = 10`, and the function
triggers: it settles the asset at 11, and fails when the trigger is disabled. -/
theorem blackswan_inverse_le_max_counterexample :
    ((short_position 5 1).collateralization = .ok (usd_per_core 5 1).inv ∧
      (usd_per_core 5 1).inv.inv.le (max_bid_or_feed none (usd_per_core 10 1)) = true ∧
      check_for_blackswan default_config record_settlement
          (market_state (usd_bitasset (usd_per_core 10 1) null_price) [short_position 5 1] [])
          usd_asset true =
        .ok (false,
          market_state (usd_bitasset (usd_per_core 10 1) null_price) [short_position 5 1] []) ∧
      check_for_blackswan default_config record_settlement
          (market_state (usd_bitasset (usd_per_core 10 1) null_price) [short_position 5 1] [])
          usd_asset false =
        .ok (false,
          market_state (usd_bitasset (usd_per_core 10 1) null_price) [short_position 5 1] [])) ∧
    ((short_position 11 1).collateralization = .ok (usd_per_core 11 1).inv ∧
      (usd_per_core 11 1).inv.inv.le (max_bid_or_feed none (usd_per_core 10 1)) = false ∧
      check_for_blackswan default_config record_settlement
          (market_state (usd_bitasset (usd_per_core 10 1) null_price) [short_position 11 1] [])
          usd_asset true =
        .ok (true, market_state (usd_bitasset (usd_per_core 10 1) (usd_per_core 11 1))
          [short_position 11 1] []) ∧
      check_for_blackswan default_config record_settlement
          (market_state (usd_bitasset (usd_per_core 10 1) null_price) [short_position 11 1] [])
          usd_asset false =
        .error .assert_exception) := by
  decide

/-- C2, amended: with `LC` the collateralization ratio of the first call order of the asset and
`MAX = max(HB, SP)` when `HB` is defined, else `SP`, the function triggers exactly when `MAX` is
less than or equal to the inverse of `LC`: then it settles the asset at the inverse of `LC` and
returns true when the trigger is enabled and fails when it is disabled; when `MAX` is not less
than or equal to the inverse of `LC` it returns false and leaves the state unchanged, for
either flag. -/
theorem check_for_blackswan_triggers_iff_max_le_inverse (cfg : chain_config)
    (gsa : database → asset_object → price → Except exception database)
    (db : database) (mia : asset_object) (bid : Nat) (bitasset : asset_bitasset_data_object)
    (c : call_order_object) (LC : price) (HB : Option limit_order_object)
    (hmia : mia.bitasset_data_id = some bid)
    (hbit : db.get_bitasset bid = .ok bitasset)
    (hset : bitasset.has_settlement = false)
    (hfeed : bitasset.current_feed.settlement_price.is_null = false)
    (hcall : first_call_order cfg db mia bitasset = .ok (some c))
    (hLC : c.collateralization = .ok LC)
    (hbid : highest_bid cfg db mia bitasset = .ok HB)
    (hsame : ∀ o, HB = some o →
      bitasset.current_feed.settlement_price.base.asset_id = o.sell_price.base.asset_id) :
    ((max_bid_or_feed HB bitasset.current_feed.settlement_price).le LC.inv = true →
      check_for_blackswan cfg gsa db mia true =
          (gsa db mia LC.inv).map (fun db' => (true, db')) ∧
        check_for_blackswan cfg gsa db mia false = .error .assert_exception) ∧
    ((max_bid_or_feed HB bitasset.current_feed.settlement_price).le LC.inv = false →
      ∀ enable, check_for_blackswan cfg gsa db mia enable = .ok (false, db)) := by
  have key := fun enable => check_for_blackswan_past_exits cfg gsa db mia bid bitasset c LC HB
    enable hmia hbit hset hfeed hcall hLC hbid hsame
  constructor
  · intro h
    rw [← price.ge_eq_le] at h
    constructor
    · rw [key true]; simp [h]
    · rw [key false]; simp [h]
  · intro h enable
    rw [← price.ge_eq_le] at h
    rw [key enable]; simp [h]

/-- C2, amended, at a state with a bid: feed price 10, a limit order at 12, a short position of
debt 12 against collateral 1: `MAX = 12` is less than or equal to the inverse 12 of the
collateralization, and the asset is settled at 12. -/
theorem check_for_blackswan_triggers_iff_max_le_inverse_witness :
    (max_bid_or_feed (some (bid_order 12 1)) (usd_per_core 10 1)).le
        (usd_per_core 12 1).inv.inv = true ∧
    check_for_blackswan default_config record_settlement
        (market_state (usd_bitasset (usd_per_core 10 1) null_price) [short_position 12 1]
          [bid_order 12 1])
        usd_asset true =
      .ok (true, market_state (usd_bitasset (usd_per_core 10 1) (usd_per_core 12 1))
        [short_position 12 1] [bid_order 12 1]) ∧
    check_for_blackswan default_config record_settlement
        (market_state (usd_bitasset (usd_per_core 10 1) null_price) [short_position 12 1]
          [bid_order 12 1])
        usd_asset false =
      .error .assert_exception :=
  ⟨by decide,
    ((check_for_blackswan_triggers_iff_max_le_inverse default_config record_settlement
      (market_state (usd_bitasset (usd_per_core 10 1) null_price) [short_position 12 1]
        [bid_order 12 1])
      usd_asset 7 (usd_bitasset (usd_per_core 10 1) null_price) (short_position 12 1)
      (usd_per_core 12 1).inv (some (bid_order 12 1)) rfl rfl rfl rfl rfl rfl rfl
      (by intro o ho; cases ho; rfl)).1 (by decide))⟩

/-- C3: with `enable_black_swan = false` the function returns false with the state unchanged, or
returns true with the state unchanged and then the asset has a settlement price recorded, or
fails; and its result does not depend on the global settlement routine, which is not reached. -/
theorem check_for_blackswan_disabled_no_mutation (cfg : chain_config)
    (gsa : database → asset_object → price → Except exception database)
    (db : database) (mia : asset_object) :
    (check_for_blackswan cfg gsa db mia false = .ok (false, db) ∨
      (check_for_blackswan cfg gsa db mia false = .ok (true, db) ∧
        ∃ bid bitasset, mia.bitasset_data_id = some bid ∧ db.get_bitasset bid = .ok bitasset ∧
          bitasset.has_settlement = true) ∨
      ∃ e, check_for_blackswan cfg gsa db mia false = .error e) ∧
    (∀ gsa2 : database → asset_object → price → Except exception database,
      check_for_blackswan cfg gsa2 db mia false = check_for_blackswan cfg gsa db mia false) := by
  cases hm : mia.bitasset_data_id with
  | none => simp [check_for_blackswan, hm]
  | some bid =>
    cases hb : db.get_bitasset bid with
    | error e => simp [check_for_blackswan, hm, hb, bind, Except.bind]
    | ok bitasset =>
      simp only [check_for_blackswan, hm, hb, bind, Except.bind, pure, Except.pure, FC_ASSERT]
      by_cases hs : bitasset.has_settlement = true
      · simp [hs, hb]
      · simp only [hs, if_false]
        constructor
        · repeat' split
          all_goals simp_all
        · intro gsa2
          repeat' split
          all_goals simp_all

theorem call_range_empty_of_no_call (cfg : chain_config) (backing mia_id : Nat)
    (keys : List price)
    (h : ∀ p ∈ keys, ¬ (p.base.asset_id = backing ∧ p.quote.asset_id = mia_id)) :
    lower_bound price.lt keys (price.min cfg backing mia_id) =
      upper_bound price.lt keys (price.max cfg backing mia_id) := by
  unfold lower_bound upper_bound
  congr 1
  induction keys with
  | nil => rfl
  | cons p ps ih =>
    have hp := h p (List.mem_cons_self _ _)
    have hps : ∀ q ∈ ps, ¬ (q.base.asset_id = backing ∧ q.quote.asset_id = mia_id) :=
      fun q hq => h q (List.mem_cons_of_mem _ hq)
    have hpt : price.lt p (price.min cfg backing mia_id) =
        !(price.lt (price.max cfg backing mia_id) p) := by
      simp only [price.lt, price.min, price.max]
      rcases lt_trichotomy p.base.asset_id backing with h1 | h1 | h1
      · have : ¬ backing < p.base.asset_id := by omega
        simp [h1, this]
      · rcases lt_trichotomy p.quote.asset_id mia_id with h2 | h2 | h2
        · have : ¬ mia_id < p.quote.asset_id := by omega
          simp [h1, h2, this]
        · exact absurd ⟨h1, h2⟩ hp
        · have : ¬ p.quote.asset_id < mia_id := by omega
          simp [h1, h2, this]
      · have : ¬ p.base.asset_id < backing := by omega
        simp [h1, this]
    simp only [List.takeWhile_cons, hpt, ih hps]

/-- C4: the early exits, for either value of `enable_black_swan` and with the state unchanged:
false for an asset that is not market-issued; true for an asset with a settlement price
recorded; false for an asset without settlement whose feed settlement price is null; false for
an asset without settlement that no call order borrows against its backing asset, whatever the
feed and the limit orders are. -/
theorem check_for_blackswan_early_exits (cfg : chain_config)
    (gsa : database → asset_object → price → Except exception database)
    (db : database) (mia : asset_object) (enable : Bool) :
    (mia.is_market_issued = false →
      check_for_blackswan cfg gsa db mia enable = .ok (false, db)) ∧
    (∀ bid bitasset, mia.bitasset_data_id = some bid → db.get_bitasset bid = .ok bitasset →
      (bitasset.has_settlement = true →
        check_for_blackswan cfg gsa db mia enable = .ok (true, db)) ∧
      (bitasset.has_settlement = false →
        bitasset.current_feed.settlement_price.is_null = true →
        check_for_blackswan cfg gsa db mia enable = .ok (false, db)) ∧
      (bitasset.has_settlement = false →
        (∀ c ∈ db.call_orders,
          ¬ (c.call_price.base.asset_id = bitasset.options.short_backing_asset ∧
            c.call_price.quote.asset_id = mia.id)) →
        check_for_blackswan cfg gsa db mia enable = .ok (false, db))) := by
  refine ⟨?_, ?_⟩
  · intro h
    cases hm : mia.bitasset_data_id with
    | none => simp [check_for_blackswan, hm]
    | some bid => simp [asset_object.is_market_issued, hm] at h
  · intro bid bitasset hm hb
    refine ⟨?_, ?_, ?_⟩
    · intro hs
      simp [check_for_blackswan, hm, hb, hs, bind, Except.bind]
    · intro hs hn
      simp [check_for_blackswan, hm, hb, hs, hn, bind, Except.bind]
    · intro hs hc
      have hr := call_range_empty_of_no_call cfg bitasset.options.short_backing_asset mia.id
        (db.call_orders.map (fun c => c.call_price))
        (by
          intro p hp
          obtain ⟨c, hcm, rfl⟩ := List.mem_map.1 hp
          exact hc c hcm)
      by_cases hn : bitasset.current_feed.settlement_price.is_null = true
      · simp [check_for_blackswan, hm, hb, hs, hn, bind, Except.bind]
      · simp only [price.max, price.min] at hr
        simp [check_for_blackswan, hm, hb, hs, hn, hr, bind, Except.bind, assert, price.max,
          price.min]

/-- C4, at concrete states: the core asset; the asset after the settlement of the scenario, for
which a second call returns true and changes nothing; a null feed; no call order, with a feed
and a limit order. -/
theorem check_for_blackswan_early_exits_witness :
    check_for_blackswan default_config record_settlement
        (market_state (usd_bitasset (usd_per_core 10 1) null_price) [short_position 10 1] [])
        core_asset true =
      .ok (false,
        market_state (usd_bitasset (usd_per_core 10 1) null_price) [short_position 10 1] []) ∧
    check_for_blackswan default_config record_settlement
        (market_state (usd_bitasset (usd_per_core 10 1) (usd_per_core 10 1))
          [short_position 10 1] [])
        usd_asset false =
      .ok (true, market_state (usd_bitasset (usd_per_core 10 1) (usd_per_core 10 1))
        [short_position 10 1] []) ∧
    check_for_blackswan default_config record_settlement
        (market_state (usd_bitasset null_price null_price) [short_position 10 1] [])
        usd_asset true =
      .ok (false, market_state (usd_bitasset null_price null_price) [short_position 10 1] []) ∧
    check_for_blackswan default_config record_settlement
        (market_state (usd_bitasset (usd_per_core 10 1) null_price) [] [bid_order 12 1])
        usd_asset true =
      .ok (false,
        market_state (usd_bitasset (usd_per_core 10 1) null_price) [] [bid_order 12 1]) :=
  ⟨(check_for_blackswan_early_exits default_config record_settlement
      (market_state (usd_bitasset (usd_per_core 10 1) null_price) [short_position 10 1] [])
      core_asset true).1 rfl,
    ((check_for_blackswan_early_exits default_config record_settlement
      (market_state (usd_bitasset (usd_per_core 10 1) (usd_per_core 10 1))
        [short_position 10 1] [])
      usd_asset false).2 7 (usd_bitasset (usd_per_core 10 1) (usd_per_core 10 1)) rfl rfl).1 rfl,
    ((check_for_blackswan_early_exits default_config record_settlement
      (market_state (usd_bitasset null_price null_price) [short_position 10 1] [])
      usd_asset true).2 7 (usd_bitasset null_price null_price) rfl rfl).2.1 rfl rfl,
    ((check_for_blackswan_early_exits default_config record_settlement
      (market_state (usd_bitasset (usd_per_core 10 1) null_price) [] [bid_order 12 1])
      usd_asset true).2 7 (usd_bitasset (usd_per_core 10 1) null_price) rfl rfl).2.2 rfl
      (by intro c hc; cases hc)⟩

/-! ## `update_global_dynamic_data` -/

theorem update_missed_witnesses_frame (o : schedule_oracle) (b : signed_block) :
    ∀ (slots : List Nat) (db db1 : database),
      update_missed_witnesses o b slots db = .ok db1 →
      db1 = { db with witnesses := db1.witnesses } := by
  intro slots
  induction slots with
  | nil =>
    intro db db1 h
    simp only [update_missed_witnesses, Except.ok.injEq] at h
    subst h
    rfl
  | cons i rest ih =>
    intro db db1 h
    simp only [update_missed_witnesses, bind, Except.bind] at h
    cases hw : db.get_witness (o.get_scheduled_witness (i + 1)) with
    | error e => simp [hw] at h
    | ok w =>
      simp only [hw] at h
      have := ih _ _ h
      rw [this]
      split <;> rfl

theorem update_global_dynamic_data_eval (cfg : chain_config) (o : schedule_oracle)
    (db db1 : database) (b : signed_block)
    (hslot : o.get_slot_at_time b.timestamp % 2 ^ 32 ≠ 0)
    (hloop : update_missed_witnesses o b
      (List.range (o.get_slot_at_time b.timestamp % 2 ^ 32 - 1)) db = .ok db1) :
    update_global_dynamic_data cfg o db b =
      if db.skip_flags &&& cfg.skip_undo_history_check = 0 ∧
          ¬ uint32_sub b.block_num db.dgp.last_irreversible_block_num
            < cfg.GRAPHENE_MAX_UNDO_HISTORY then
        .error .undo_database_exception
      else
        .ok { db1 with
          dgp := update_dgp cfg db.checkpoints b (o.get_slot_at_time b.timestamp % 2 ^ 32 - 1)
            db.dgp
          undo_db_max_size :=
            (uint32_sub b.block_num db.dgp.last_irreversible_block_num + 1) % 2 ^ 32
          fork_db_max_size :=
            (uint32_sub b.block_num db.dgp.last_irreversible_block_num + 1) % 2 ^ 32 } := by
  have hf := update_missed_witnesses_frame o b _ _ _ hloop
  unfold update_global_dynamic_data
  simp only [assert, hslot, ne_eq, not_false_eq_true, decide_True, if_true, bind, Except.bind,
    hloop, pure, Except.pure]
  rw [hf]
  simp only [database.modify_dgp, update_dgp]
  by_cases h1 : db.skip_flags &&& cfg.skip_undo_history_check = 0
  · by_cases h2 : uint32_sub b.block_num db.dgp.last_irreversible_block_num
        < cfg.GRAPHENE_MAX_UNDO_HISTORY
    · simp [h1, h2]
    · simp [h1, h2, throw, throwThe, MonadExceptOf.throw]
  · simp [h1]

theorem update_global_dynamic_data_ok_iff (cfg : chain_config) (o : schedule_oracle)
    (db db2 : database) (b : signed_block) :
    update_global_dynamic_data cfg o db b = .ok db2 ↔
      o.get_slot_at_time b.timestamp % 2 ^ 32 ≠ 0 ∧
      ∃ db1, update_missed_witnesses o b
          (List.range (o.get_slot_at_time b.timestamp % 2 ^ 32 - 1)) db = .ok db1 ∧
        ¬ (db.skip_flags &&& cfg.skip_undo_history_check = 0 ∧
          ¬ uint32_sub b.block_num db.dgp.last_irreversible_block_num
            < cfg.GRAPHENE_MAX_UNDO_HISTORY) ∧
        db2 = { db1 with
          dgp := update_dgp cfg db.checkpoints b (o.get_slot_at_time b.timestamp % 2 ^ 32 - 1)
            db.dgp
          undo_db_max_size :=
            (uint32_sub b.block_num db.dgp.last_irreversible_block_num + 1) % 2 ^ 32
          fork_db_max_size :=
            (uint32_sub b.block_num db.dgp.last_irreversible_block_num + 1) % 2 ^ 32 } := by
  by_cases hslot : o.get_slot_at_time b.timestamp % 2 ^ 32 = 0
  · have hslot2 := hslot
    norm_num at hslot2
    simp [update_global_dynamic_data, assert, hslot2, bind, Except.bind]
  · cases hloop : update_missed_witnesses o b
        (List.range (o.get_slot_at_time b.timestamp % 2 ^ 32 - 1)) db with
    | error e =>
      have hslot2 := hslot
      have hloop2 := hloop
      norm_num at hslot2 hloop2
      simp [update_global_dynamic_data, assert, hslot2, hloop2, bind, Except.bind]
    | ok db1 =>
      rw [update_global_dynamic_data_eval cfg o db db1 b hslot hloop]
      split
      · rename_i h
        simp [hslot, h]
      · rename_i h
        simp only [Except.ok.injEq, ne_eq, hslot, not_false_eq_true, true_and, exists_eq_left',
          h]
        exact eq_comm

theorem le_getLast_of_sorted :
    ∀ (l : List (Nat × Nat)), (l.map Prod.fst).Pairwise (· ≤ ·) → ∀ cp ∈ l,
      ∃ last, l.getLast? = some last ∧ cp.1 ≤ last.1 := by
  intro l
  induction l with
  | nil => intro _ cp h; cases h
  | cons x xs ih =>
    intro hs cp hcp
    simp only [List.map_cons, List.pairwise_cons] at hs
    cases xs with
    | nil =>
      simp only [List.mem_singleton] at hcp
      subst hcp
      exact ⟨cp, rfl, le_refl _⟩
    | cons y ys =>
      have hlast : (x :: y :: ys).getLast? = (y :: ys).getLast? := by
        simp [List.getLast?_cons_cons]
      rw [hlast]
      rcases List.mem_cons.1 hcp with h | h
      · subst h
        obtain ⟨last, hl, _⟩ := ih hs.2 y (List.mem_cons_self _ _)
        refine ⟨last, hl, ?_⟩
        apply hs.1
        apply List.mem_map_of_mem
        exact List.mem_of_getLast?_eq_some hl
      · exact ih hs.2 cp h

theorem checkpoint_test_iff (checkpoints : List (Nat × Nat)) (block_num : Nat)
    (hsorted : (checkpoints.map Prod.fst).Pairwise (· ≤ ·)) :
    ((checkpoints.length != 0 &&
      (match checkpoints.getLast? with
        | some cp => decide (cp.1 ≥ block_num)
        | none => false)) = true) ↔ ∃ cp ∈ checkpoints, block_num ≤ cp.1 := by
  constructor
  · intro h
    simp only [Bool.and_eq_true] at h
    cases hl : checkpoints.getLast? with
    | none => simp [hl] at h
    | some last =>
      simp only [hl, ge_iff_le, decide_eq_true_eq] at h
      exact ⟨last, List.mem_of_getLast?_eq_some hl, h.2⟩
  · rintro ⟨cp, hcp, hle⟩
    obtain ⟨last, hl, hlast⟩ := le_getLast_of_sorted checkpoints hsorted cp hcp
    have hne : checkpoints ≠ [] := List.ne_nil_of_mem hcp
    simp [hl, hne]
    omega

theorem new_recently_missed_count_eq_rule (cfg : chain_config) (checkpoints : List (Nat × Nat))
    (block_num missed_blocks prior : Nat)
    (hsorted : (checkpoints.map Prod.fst).Pairwise (· ≤ ·))
    (hprior : prior < 2 ^ 32)
    (hdec : cfg.GRAPHENE_RECENTLY_MISSED_COUNT_DECREMENT
      ≤ cfg.GRAPHENE_RECENTLY_MISSED_COUNT_INCREMENT + 1) :
    new_recently_missed_count cfg checkpoints block_num missed_blocks prior =
      recently_missed_count_rule cfg checkpoints block_num missed_blocks prior % 2 ^ 32 := by
  unfold new_recently_missed_count recently_missed_count_rule
  rw [if_congr (Iff.rfl) rfl (if_congr (checkpoint_test_iff checkpoints block_num hsorted) rfl rfl)]
  norm_num at hprior ⊢
  split_ifs <;> (try simp only [uint32_sub]) <;> (try norm_num) <;> omega

/-- C8: the undo-history check of `update_global_dynamic_data`, in 32-bit unsigned arithmetic,
for a call that passes its slot assertion and its loop over the missed slots. With the skip
flag not set the call fails with `undo_database_exception` exactly when the new head block
number minus the last irreversible block number is at least `GRAPHENE_MAX_UNDO_HISTORY`; a call
that succeeds leaves that difference below the maximum and sets the undo and fork windows to
the difference plus one; the call succeeds when the difference is below the maximum. With the
flag set the call succeeds. -/
theorem undo_history_check_fails_iff (cfg : chain_config) (o : schedule_oracle) (db db1 : database)
    (b : signed_block)
    (hmax : cfg.GRAPHENE_MAX_UNDO_HISTORY < 2 ^ 32)
    (hslot : o.get_slot_at_time b.timestamp % 2 ^ 32 ≠ 0)
    (hloop : update_missed_witnesses o b
      (List.range (o.get_slot_at_time b.timestamp % 2 ^ 32 - 1)) db = .ok db1) :
    (db.skip_flags &&& cfg.skip_undo_history_check = 0 →
      (update_global_dynamic_data cfg o db b = .error .undo_database_exception ↔
        cfg.GRAPHENE_MAX_UNDO_HISTORY
          ≤ uint32_sub b.block_num db.dgp.last_irreversible_block_num)) ∧
    (db.skip_flags &&& cfg.skip_undo_history_check = 0 →
      ∀ db2, update_global_dynamic_data cfg o db b = .ok db2 →
        db2.dgp.head_block_number = b.block_num ∧
        db2.dgp.last_irreversible_block_num = db.dgp.last_irreversible_block_num ∧
        uint32_sub db2.dgp.head_block_number db2.dgp.last_irreversible_block_num
          < cfg.GRAPHENE_MAX_UNDO_HISTORY ∧
        db2.undo_db_max_size =
          uint32_sub db2.dgp.head_block_number db2.dgp.last_irreversible_block_num + 1 ∧
        db2.fork_db_max_size =
          uint32_sub db2.dgp.head_block_number db2.dgp.last_irreversible_block_num + 1) ∧
    (db.skip_flags &&& cfg.skip_undo_history_check = 0 →
      uint32_sub b.block_num db.dgp.last_irreversible_block_num
        < cfg.GRAPHENE_MAX_UNDO_HISTORY →
      ∃ db2, update_global_dynamic_data cfg o db b = .ok db2) ∧
    (db.skip_flags &&& cfg.skip_undo_history_check ≠ 0 →
      ∃ db2, update_global_dynamic_data cfg o db b = .ok db2) := by
  have key := update_global_dynamic_data_eval cfg o db db1 b hslot hloop
  refine ⟨?_, ?_, ?_, ?_⟩
  · intro hflag
    rw [key]
    by_cases h : uint32_sub b.block_num db.dgp.last_irreversible_block_num
        < cfg.GRAPHENE_MAX_UNDO_HISTORY
    · simp [hflag, h]
    · simp [hflag, h]
      omega
  · intro hflag db2 hok
    rw [key] at hok
    by_cases h : uint32_sub b.block_num db.dgp.last_irreversible_block_num
        < cfg.GRAPHENE_MAX_UNDO_HISTORY
    · simp only [hflag, h, not_true_eq_false, and_false, if_false, Except.ok.injEq] at hok
      subst hok
      have hwrap : (uint32_sub b.block_num db.dgp.last_irreversible_block_num + 1) % 2 ^ 32 =
          uint32_sub b.block_num db.dgp.last_irreversible_block_num + 1 := by
        apply Nat.mod_eq_of_lt
        omega
      exact ⟨rfl, rfl, h, hwrap, hwrap⟩
    · simp [hflag, h] at hok
  · intro hflag h
    rw [key]
    simp [hflag, h]
  · intro hflag
    rw [key]
    simp [hflag]

/-- C8, at concrete states: head 10 and last irreversible block 5, block 11 in the next slot:
the call succeeds and sets both windows to 7; with the last irreversible block 5 and a block
numbered 1005 the call fails with `undo_database_exception`. -/
theorem undo_history_check_fails_iff_witness :
    (∀ db2, update_global_dynamic_data default_config sample_oracle
        (chain_state sample_dgp [] 0) (block_11 33) = .ok db2 →
      db2.dgp.head_block_number = 11 ∧
      db2.dgp.last_irreversible_block_num = 5 ∧
      uint32_sub db2.dgp.head_block_number db2.dgp.last_irreversible_block_num < 1000 ∧
      db2.undo_db_max_size =
        uint32_sub db2.dgp.head_block_number db2.dgp.last_irreversible_block_num + 1 ∧
      db2.fork_db_max_size =
        uint32_sub db2.dgp.head_block_number db2.dgp.last_irreversible_block_num + 1) ∧
    (∃ db2, update_global_dynamic_data default_config sample_oracle
        (chain_state sample_dgp [] 0) (block_11 33) = .ok db2) ∧
    update_global_dynamic_data default_config sample_oracle (chain_state sample_dgp [] 0)
        { block_num := 1005, id := 7, timestamp := 33, witness := 2 } =
      .error .undo_database_exception :=
  ⟨(undo_history_check_fails_iff default_config sample_oracle (chain_state sample_dgp [] 0)
      (chain_state sample_dgp [] 0) (block_11 33) (by decide) (by decide) rfl).2.1 rfl,
    (undo_history_check_fails_iff default_config sample_oracle (chain_state sample_dgp [] 0)
      (chain_state sample_dgp [] 0) (block_11 33) (by decide) (by decide) rfl).2.2.1 rfl
      (by decide),
    ((undo_history_check_fails_iff default_config sample_oracle (chain_state sample_dgp [] 0)
      (chain_state sample_dgp [] 0)
      { block_num := 1005, id := 7, timestamp := 33, witness := 2 }
      (by decide) (by decide) rfl).1 rfl).2 (by decide)⟩

/-- C10: `recently_missed_count` after `update_global_dynamic_data` follows the priority-ordered
rule, first match wins, from the block number, the checkpoints, the missed blocks and the value
before: the stored 32-bit value is the value of the rule modulo 2^32, and is the value of the
rule itself when that fits in 32 bits; a block at or below a checkpoint gets 0 also when blocks
were missed; and the call succeeds when its slot assertion, its loop over the missed slots and
its undo-history check pass. -/
theorem recently_missed_count_follows_rule (cfg : chain_config) (o : schedule_oracle)
    (db : database) (b : signed_block)
    (hsorted : (db.checkpoints.map Prod.fst).Pairwise (· ≤ ·))
    (hprior : db.dgp.recently_missed_count < 2 ^ 32)
    (hdec : cfg.GRAPHENE_RECENTLY_MISSED_COUNT_DECREMENT
      ≤ cfg.GRAPHENE_RECENTLY_MISSED_COUNT_INCREMENT + 1) :
    (∀ db2, update_global_dynamic_data cfg o db b = .ok db2 →
      db2.dgp.recently_missed_count =
        recently_missed_count_rule cfg db.checkpoints b.block_num
          (o.get_slot_at_time b.timestamp % 2 ^ 32 - 1) db.dgp.recently_missed_count % 2 ^ 32 ∧
      (recently_missed_count_rule cfg db.checkpoints b.block_num
          (o.get_slot_at_time b.timestamp % 2 ^ 32 - 1) db.dgp.recently_missed_count < 2 ^ 32 →
        db2.dgp.recently_missed_count =
          recently_missed_count_rule cfg db.checkpoints b.block_num
            (o.get_slot_at_time b.timestamp % 2 ^ 32 - 1) db.dgp.recently_missed_count) ∧
      ((∃ cp ∈ db.checkpoints, b.block_num ≤ cp.1) → db2.dgp.recently_missed_count = 0)) ∧
    (o.get_slot_at_time b.timestamp % 2 ^ 32 ≠ 0 →
      (∃ db1, update_missed_witnesses o b
        (List.range (o.get_slot_at_time b.timestamp % 2 ^ 32 - 1)) db = .ok db1) →
      (db.skip_flags &&& cfg.skip_undo_history_check ≠ 0 ∨
        uint32_sub b.block_num db.dgp.last_irreversible_block_num
          < cfg.GRAPHENE_MAX_UNDO_HISTORY) →
      ∃ db2, update_global_dynamic_data cfg o db b = .ok db2) := by
  constructor
  · intro db2 hok
    obtain ⟨_, db1, _, _, hdb2⟩ := (update_global_dynamic_data_ok_iff cfg o db db2 b).1 hok
    have hval : db2.dgp.recently_missed_count =
        recently_missed_count_rule cfg db.checkpoints b.block_num
          (o.get_slot_at_time b.timestamp % 2 ^ 32 - 1) db.dgp.recently_missed_count % 2 ^ 32 := by
      rw [hdb2]
      exact new_recently_missed_count_eq_rule cfg db.checkpoints b.block_num _ _ hsorted hprior
        hdec
    refine ⟨hval, ?_, ?_⟩
    · intro hlt
      rw [hval, Nat.mod_eq_of_lt hlt]
    · intro hcp
      rw [hval]
      unfold recently_missed_count_rule
      split_ifs <;> rfl
  · rintro hslot ⟨db1, hloop⟩ hundo
    rw [update_global_dynamic_data_eval cfg o db db1 b hslot hloop]
    rcases hundo with h | h
    · simp [h]
    · simp [h]

/-- C10, at concrete states with two missed blocks (block 11 arrives in the third slot): with
no checkpoint the count 0 becomes 0 + 4 * 2 = 8; with a checkpoint at height 20 it is reset to 0
instead. -/
theorem recently_missed_count_follows_rule_witness :
    (∀ db2, update_global_dynamic_data default_config sample_oracle
        (chain_state sample_dgp [] 0) (block_11 39) = .ok db2 →
      db2.dgp.recently_missed_count = 8) ∧
    (∀ db2, update_global_dynamic_data default_config sample_oracle
        (chain_state sample_dgp [(5, 55), (20, 77)] 0) (block_11 39) = .ok db2 →
      db2.dgp.recently_missed_count = 0) ∧
    (∃ db2, update_global_dynamic_data default_config sample_oracle
        (chain_state sample_dgp [] 0) (block_11 39) = .ok db2) :=
  ⟨fun db2 h =>
      ((recently_missed_count_follows_rule default_config sample_oracle
        (chain_state sample_dgp [] 0) (block_11 39) (by decide) (by decide) (by decide)).1
        db2 h).1,
    fun db2 h =>
      ((recently_missed_count_follows_rule default_config sample_oracle
        (chain_state sample_dgp [(5, 55), (20, 77)] 0) (block_11 39) (by decide) (by decide)
        (by decide)).1 db2 h).2.2 (by decide),
    (recently_missed_count_follows_rule default_config sample_oracle
      (chain_state sample_dgp [] 0) (block_11 39) (by decide) (by decide) (by decide)).2
      (by decide) ⟨_, rfl⟩ (Or.inr (by decide))⟩

/-! ## `update_signing_witness` -/

/-- C9: the pay of `update_signing_witness` is `min(witness_pay_per_block, witness_budget)`,
which never exceeds the configured pay per block; after a call that succeeds that amount has
been deposited to the signer, the budget has been debited by exactly that amount, and a budget
that was not negative is not negative; and the call succeeds when the debited budget fits the
64-bit share type. -/
theorem witness_pay_min_and_exact_debit (o : schedule_oracle) (db : database)
    (signing_witness : witness_object) (new_block : signed_block) :
    min db.gpo.parameters.witness_pay_per_block db.dgp.witness_budget
      ≤ db.gpo.parameters.witness_pay_per_block ∧
    (∀ db2, update_signing_witness o db signing_witness new_block = .ok db2 →
      db2.witness_pay_deposits =
        (signing_witness.id, min db.gpo.parameters.witness_pay_per_block db.dgp.witness_budget)
          :: db.witness_pay_deposits ∧
      db2.dgp.witness_budget
          + min db.gpo.parameters.witness_pay_per_block db.dgp.witness_budget
        = db.dgp.witness_budget ∧
      (0 ≤ db.dgp.witness_budget → 0 ≤ db2.dgp.witness_budget)) ∧
    (db.dgp.witness_budget - min db.gpo.parameters.witness_pay_per_block db.dgp.witness_budget
        ≤ 2 ^ 63 - 1 →
      ∃ db2, update_signing_witness o db signing_witness new_block = .ok db2) := by
  have hmin : min db.gpo.parameters.witness_pay_per_block db.dgp.witness_budget
      ≤ db.dgp.witness_budget := min_le_right _ _
  refine ⟨min_le_left _ _, ?_, ?_⟩
  · intro db2 hok
    simp only [update_signing_witness, bind, Except.bind, pure, Except.pure] at hok
    cases hs : safe_sub db.dgp.witness_budget
        (min db.gpo.parameters.witness_pay_per_block db.dgp.witness_budget) with
    | error e => simp [hs] at hok
    | ok budget =>
      simp only [hs, Except.ok.injEq] at hok
      have hb : budget = db.dgp.witness_budget
          - min db.gpo.parameters.witness_pay_per_block db.dgp.witness_budget := by
        unfold safe_sub at hs
        split_ifs at hs
        simp only [Except.ok.injEq] at hs
        exact hs.symm
      subst hok
      refine ⟨rfl, ?_, ?_⟩
      · show budget + min db.gpo.parameters.witness_pay_per_block db.dgp.witness_budget
          = db.dgp.witness_budget
        rw [hb]; ring
      · intro _
        show 0 ≤ budget
        rw [hb]
        omega
  · intro hfit
    have hs : safe_sub db.dgp.witness_budget
        (min db.gpo.parameters.witness_pay_per_block db.dgp.witness_budget) =
        .ok (db.dgp.witness_budget
          - min db.gpo.parameters.witness_pay_per_block db.dgp.witness_budget) := by
      unfold safe_sub
      rw [if_neg (by omega), if_neg (by omega)]
    simp [update_signing_witness, bind, Except.bind, pure, Except.pure, hs]

/-- C9, at concrete states: with pay per block 3 and budget 100 the signer receives 3 and the
budget becomes 97; with budget 2 the signer receives 2 and the budget becomes 0. -/
theorem witness_pay_min_and_exact_debit_witness :
    (∀ db2, update_signing_witness sample_oracle (chain_state sample_dgp [] 0)
        { id := 2, witness_account := 12, total_missed := 0, last_aslot := 9,
          last_confirmed_block_num := 9 } (block_11 33) = .ok db2 →
      db2.witness_pay_deposits = [(2, 3)] ∧ db2.dgp.witness_budget + 3 = 100 ∧
        (0 ≤ (100 : Int) → 0 ≤ db2.dgp.witness_budget)) ∧
    (∃ db2, update_signing_witness sample_oracle (chain_state sample_dgp [] 0)
        { id := 2, witness_account := 12, total_missed := 0, last_aslot := 9,
          last_confirmed_block_num := 9 } (block_11 33) = .ok db2) ∧
    (∀ db2, update_signing_witness sample_oracle
        (chain_state { sample_dgp with witness_budget := 2 } [] 0)
        { id := 2, witness_account := 12, total_missed := 0, last_aslot := 9,
          last_confirmed_block_num := 9 } (block_11 33) = .ok db2 →
      db2.witness_pay_deposits = [(2, 2)] ∧ db2.dgp.witness_budget + 2 = 2 ∧
        (0 ≤ (2 : Int) → 0 ≤ db2.dgp.witness_budget)) :=
  ⟨(witness_pay_min_and_exact_debit sample_oracle (chain_state sample_dgp [] 0)
      { id := 2, witness_account := 12, total_missed := 0, last_aslot := 9,
        last_confirmed_block_num := 9 } (block_11 33)).2.1,
    (witness_pay_min_and_exact_debit sample_oracle (chain_state sample_dgp [] 0)
      { id := 2, witness_account := 12, total_missed := 0, last_aslot := 9,
        last_confirmed_block_num := 9 } (block_11 33)).2.2 (by decide),
    (witness_pay_min_and_exact_debit sample_oracle
      (chain_state { sample_dgp with witness_budget := 2 } [] 0)
      { id := 2, witness_account := 12, total_missed := 0, last_aslot := 9,
        last_confirmed_block_num := 9 } (block_11 33)).2.1⟩

/-! ## `update_last_irreversible_block` -/

/-- The full sort is a rearrangement `std::nth_element` may make. -/
theorem nth_element_post_nth_element (wit_objs : List witness_object) (n : Nat) :
    nth_element_post wit_objs (nth_element wit_objs n) n := by
  refine ⟨List.perm_insertionSort _ _, ?_⟩
  intro i j hi hj hin hnj
  exact (List.sorted_insertionSort not_after wit_objs).rel_get_of_le
    (show (⟨i, hi⟩ : Fin _) ≤ ⟨j, hj⟩ from Nat.le_trans hin hnj)
theorem mem_take_le_of_partitioned (ks : List Nat) (n : Nat) (hn : n < ks.length)
    (hlo : ∀ (i : Nat) (hi : i < ks.length), i ≤ n → ks[i] ≤ ks[n]) :
    ∀ a ∈ ks.take n, a ≤ ks[n] := by
  intro a ha
  obtain ⟨i, hi, rfl⟩ := List.getElem_of_mem ha
  rw [List.length_take] at hi
  rw [List.getElem_take]
  exact hlo i (by omega) (by omega)

theorem mem_drop_ge_of_partitioned (ks : List Nat) (n : Nat) (hn : n < ks.length)
    (hhi : ∀ (j : Nat) (hj : j < ks.length), n ≤ j → ks[n] ≤ ks[j]) :
    ∀ b ∈ ks.drop n, ks[n] ≤ b := by
  intro b hb
  obtain ⟨j, hj, rfl⟩ := List.getElem_of_mem hb
  rw [List.length_drop] at hj
  rw [List.getElem_drop]
  exact hhi (n + j) (by omega) (by omega)

theorem sorted_getElem_of_partitioned (ks : List Nat) (n : Nat) (hn : n < ks.length)
    (hlo : ∀ (i : Nat) (hi : i < ks.length), i ≤ n → ks[i] ≤ ks[n])
    (hhi : ∀ (j : Nat) (hj : j < ks.length), n ≤ j → ks[n] ≤ ks[j]) :
    (ks.insertionSort (· ≤ ·))[n]? = some ks[n] := by
  have hsplit : ks = ks.take n ++ ks[n] :: ks.drop (n + 1) := by
    rw [List.getElem_cons_drop, List.take_append_drop]
  have hA := mem_take_le_of_partitioned ks n hn hlo
  have hB : ∀ b ∈ ks.drop (n + 1), ks[n] ≤ b := by
    intro b hb
    apply mem_drop_ge_of_partitioned ks n hn hhi
    rw [← List.getElem_cons_drop (h := hn)]
    exact List.mem_cons_of_mem _ hb
  have hperm : ((ks.take n).insertionSort (· ≤ ·) ++
      ks[n] :: (ks.drop (n + 1)).insertionSort (· ≤ ·)).Perm (ks.insertionSort (· ≤ ·)) := by
    refine List.Perm.trans ?_ (List.perm_insertionSort _ ks).symm
    conv_rhs => rw [hsplit]
    exact List.Perm.append (List.perm_insertionSort _ _)
      (List.Perm.cons _ (List.perm_insertionSort _ _))
  have hsorted : ((ks.take n).insertionSort (· ≤ ·) ++
      ks[n] :: (ks.drop (n + 1)).insertionSort (· ≤ ·)).Sorted (· ≤ ·) := by
    unfold List.Sorted
    rw [List.pairwise_append]
    refine ⟨List.sorted_insertionSort _ _, ?_, ?_⟩
    · rw [List.pairwise_cons]
      refine ⟨?_, List.sorted_insertionSort _ _⟩
      intro b hb
      exact hB b ((List.perm_insertionSort _ _).mem_iff.1 hb)
    · intro a ha b hb
      have h1 := hA a ((List.perm_insertionSort _ _).mem_iff.1 ha)
      rcases List.mem_cons.1 hb with h | h
      · rw [h]; exact h1
      · exact le_trans h1 (hB b ((List.perm_insertionSort _ _).mem_iff.1 h))
  have heq := List.eq_of_perm_of_sorted hperm hsorted (List.sorted_insertionSort _ ks)
  rw [← heq]
  have hlen : ((ks.take n).insertionSort (· ≤ ·)).length = n := by
    rw [List.length_insertionSort, List.length_take]
    omega
  rw [List.getElem?_append_right (by omega), hlen]
  simp

theorem irreversible_offset_eq (cfg : chain_config) (n : Nat)
    (hT : cfg.GRAPHENE_IRREVERSIBLE_THRESHOLD ≤ cfg.GRAPHENE_100_PERCENT)
    (hn : 0 < n)
    (hsize : (cfg.GRAPHENE_100_PERCENT - cfg.GRAPHENE_IRREVERSIBLE_THRESHOLD) * n < 2 ^ 64) :
    irreversible_offset cfg n =
      (cfg.GRAPHENE_100_PERCENT - cfg.GRAPHENE_IRREVERSIBLE_THRESHOLD) * n
        / cfg.GRAPHENE_100_PERCENT := by
  unfold irreversible_offset
  have h1 : cfg.GRAPHENE_100_PERCENT - cfg.GRAPHENE_IRREVERSIBLE_THRESHOLD < 2 ^ 64 :=
    lt_of_le_of_lt (Nat.le_mul_of_pos_right _ hn) hsize
  have h2 : (cfg.GRAPHENE_100_PERCENT + 2 ^ 64 - cfg.GRAPHENE_IRREVERSIBLE_THRESHOLD) % 2 ^ 64 =
      cfg.GRAPHENE_100_PERCENT - cfg.GRAPHENE_IRREVERSIBLE_THRESHOLD := by
    have : cfg.GRAPHENE_100_PERCENT + 2 ^ 64 - cfg.GRAPHENE_IRREVERSIBLE_THRESHOLD =
        (cfg.GRAPHENE_100_PERCENT - cfg.GRAPHENE_IRREVERSIBLE_THRESHOLD) + 2 ^ 64 := by omega
    rw [this, Nat.add_mod_right, Nat.mod_eq_of_lt h1]
  rw [h2, Nat.mod_eq_of_lt hsize]

theorem irreversible_offset_lt (cfg : chain_config) (n : Nat)
    (hT0 : 0 < cfg.GRAPHENE_IRREVERSIBLE_THRESHOLD)
    (hT : cfg.GRAPHENE_IRREVERSIBLE_THRESHOLD ≤ cfg.GRAPHENE_100_PERCENT)
    (hn : 0 < n)
    (hsize : (cfg.GRAPHENE_100_PERCENT - cfg.GRAPHENE_IRREVERSIBLE_THRESHOLD) * n < 2 ^ 64) :
    irreversible_offset cfg n < n := by
  rw [irreversible_offset_eq cfg n hT hn hsize]
  have hH : 0 < cfg.GRAPHENE_100_PERCENT := lt_of_lt_of_le hT0 hT
  rw [Nat.div_lt_iff_lt_mul hH]
  have : cfg.GRAPHENE_100_PERCENT - cfg.GRAPHENE_IRREVERSIBLE_THRESHOLD
      < cfg.GRAPHENE_100_PERCENT := by omega
  calc (cfg.GRAPHENE_100_PERCENT - cfg.GRAPHENE_IRREVERSIBLE_THRESHOLD) * n
      < cfg.GRAPHENE_100_PERCENT * n := Nat.mul_lt_mul_of_pos_right this hn
    _ = n * cfg.GRAPHENE_100_PERCENT := Nat.mul_comm _ _

/-- What `update_last_irreversible_block` does once it has selected the witness `w`. -/
theorem update_last_irreversible_block_with_eval
    (nth : List witness_object → Nat → List witness_object) (cfg : chain_config)
    (db : database) (wit_objs : List witness_object) (w : witness_object)
    (hw : get_witnesses db db.gpo.active_witnesses = .ok wit_objs)
    (hsel : deref (nth wit_objs (irreversible_offset cfg wit_objs.length))
      (irreversible_offset cfg wit_objs.length) = .ok w) :
    update_last_irreversible_block_with nth cfg db =
      .ok (if w.last_confirmed_block_num > db.dgp.last_irreversible_block_num then
        db.modify_dgp (fun d =>
          { d with last_irreversible_block_num := w.last_confirmed_block_num })
        else db) := by
  unfold update_last_irreversible_block_with
  simp only [hw, hsel, bind, Except.bind, pure, Except.pure]
  split <;> rfl

/-- The element `std::nth_element` leaves at position `n` has the key that the ascending list
of keys has at position `n`. -/
theorem selected_key_eq_sorted (input output : List witness_object) (n : Nat)
    (hn : n < input.length) (hpost : nth_element_post input output n) :
    ∃ w, deref output n = .ok w ∧
      ((input.map (fun x => x.last_confirmed_block_num)).insertionSort (· ≤ ·))[n]? =
        some w.last_confirmed_block_num ∧
      ∀ x ∈ output.drop n, w.last_confirmed_block_num ≤ x.last_confirmed_block_num := by
  obtain ⟨hperm, hpart⟩ := hpost
  have hlen : output.length = input.length := hperm.length_eq
  have hno : n < output.length := by omega
  refine ⟨output[n], ?_, ?_, ?_⟩
  · simp [deref, List.getElem?_eq_getElem hno]
  · have hks : n < (output.map (fun x => x.last_confirmed_block_num)).length := by
      rw [List.length_map]; exact hno
    have key := sorted_getElem_of_partitioned
      (output.map (fun x => x.last_confirmed_block_num)) n hks
      (by
        intro i hi hin
        rw [List.length_map] at hi
        simp only [List.getElem_map]
        exact hpart i n hi hno hin (le_refl n))
      (by
        intro j hj hnj
        rw [List.length_map] at hj
        simp only [List.getElem_map]
        exact hpart n j hno hj (le_refl n) hnj)
    have hsame : (output.map (fun x => x.last_confirmed_block_num)).insertionSort (· ≤ ·) =
        (input.map (fun x => x.last_confirmed_block_num)).insertionSort (· ≤ ·) := by
      apply List.eq_of_perm_of_sorted (r := (· ≤ ·))
      · exact ((List.perm_insertionSort _ _).trans (hperm.map _)).trans
          (List.perm_insertionSort _ _).symm
      · exact List.sorted_insertionSort _ _
      · exact List.sorted_insertionSort _ _
    rw [← hsame, key]
    simp
  · intro x hx
    obtain ⟨j, hj, rfl⟩ := List.getElem_of_mem hx
    rw [List.length_drop] at hj
    rw [List.getElem_drop]
    exact hpart n (n + j) hno (by omega) (le_refl n) (by omega)

/-- C6: for a non-empty list of active producers, whatever rearrangement `std::nth_element`
makes within what the standard promises, the candidate height that
`update_last_irreversible_block` selects is the element at index
`floor((100% - threshold) * n / 100%)` of the ascending list of the producers'
`last_confirmed_block_num` values, and that element is the same for every order in which the
producers are listed. -/
theorem irreversible_candidate_is_order_statistic
    (nth : List witness_object → Nat → List witness_object) (cfg : chain_config)
    (db : database) (wit_objs : List witness_object)
    (hT0 : 0 < cfg.GRAPHENE_IRREVERSIBLE_THRESHOLD)
    (hT : cfg.GRAPHENE_IRREVERSIBLE_THRESHOLD ≤ cfg.GRAPHENE_100_PERCENT)
    (hw : get_witnesses db db.gpo.active_witnesses = .ok wit_objs)
    (hne : wit_objs ≠ [])
    (hsize : (cfg.GRAPHENE_100_PERCENT - cfg.GRAPHENE_IRREVERSIBLE_THRESHOLD) * wit_objs.length
      < 2 ^ 64)
    (hnth : nth_element_post wit_objs
      (nth wit_objs (irreversible_offset cfg wit_objs.length))
      (irreversible_offset cfg wit_objs.length)) :
    ∃ v,
      ((wit_objs.map (fun x => x.last_confirmed_block_num)).insertionSort (· ≤ ·))[
          (cfg.GRAPHENE_100_PERCENT - cfg.GRAPHENE_IRREVERSIBLE_THRESHOLD) * wit_objs.length
            / cfg.GRAPHENE_100_PERCENT]? = some v ∧
      update_last_irreversible_block_with nth cfg db =
        .ok (if v > db.dgp.last_irreversible_block_num then
          db.modify_dgp (fun d => { d with last_irreversible_block_num := v })
          else db) ∧
      ∀ wit_objs2 : List witness_object, wit_objs2.Perm wit_objs →
        ((wit_objs2.map (fun x => x.last_confirmed_block_num)).insertionSort (· ≤ ·))[
            (cfg.GRAPHENE_100_PERCENT - cfg.GRAPHENE_IRREVERSIBLE_THRESHOLD) * wit_objs2.length
              / cfg.GRAPHENE_100_PERCENT]? = some v := by
  have hn : 0 < wit_objs.length := List.length_pos.2 hne
  have hoff := irreversible_offset_eq cfg wit_objs.length hT hn hsize
  have hlt := irreversible_offset_lt cfg wit_objs.length hT0 hT hn hsize
  obtain ⟨w, hsel, hsorted, _⟩ := selected_key_eq_sorted wit_objs _ _ hlt hnth
  refine ⟨w.last_confirmed_block_num, ?_, ?_, ?_⟩
  · rw [← hoff]; exact hsorted
  · exact update_last_irreversible_block_with_eval nth cfg db wit_objs w hw hsel
  · intro wit_objs2 hperm
    have hsame : (wit_objs2.map (fun x => x.last_confirmed_block_num)).insertionSort (· ≤ ·) =
        (wit_objs.map (fun x => x.last_confirmed_block_num)).insertionSort (· ≤ ·) := by
      apply List.eq_of_perm_of_sorted (r := (· ≤ ·))
      · exact ((List.perm_insertionSort _ _).trans (hperm.map _)).trans
          (List.perm_insertionSort _ _).symm
      · exact List.sorted_insertionSort _ _
      · exact List.sorted_insertionSort _ _
    rw [hsame, hperm.length_eq, ← hoff]
    exact hsorted

/-- C6, at the three lists of the comment in the code, with the 70% threshold and the full
sort as rearrangement: 1 1 1 2 2 2 2 2 2 2 gives 2, 1 1 1 1 1 1 1 2 2 2 gives 1 and ten 3s
give 3; the first list in another order gives 2 as well. -/
theorem irreversible_candidate_is_order_statistic_witness :
    (∃ v,
      (((witnesses_confirming [1, 1, 1, 2, 2, 2, 2, 2, 2, 2]).map
          (fun x => x.last_confirmed_block_num)).insertionSort (· ≤ ·))[
          (default_config.GRAPHENE_100_PERCENT - default_config.GRAPHENE_IRREVERSIBLE_THRESHOLD)
            * (witnesses_confirming [1, 1, 1, 2, 2, 2, 2, 2, 2, 2]).length
            / default_config.GRAPHENE_100_PERCENT]? = some v ∧
      update_last_irreversible_block_with nth_element default_config
          (producer_state [1, 1, 1, 2, 2, 2, 2, 2, 2, 2] 0) =
        .ok (if v > (producer_state [1, 1, 1, 2, 2, 2, 2, 2, 2, 2] 0).dgp.last_irreversible_block_num
          then (producer_state [1, 1, 1, 2, 2, 2, 2, 2, 2, 2] 0).modify_dgp
            (fun d => { d with last_irreversible_block_num := v })
          else producer_state [1, 1, 1, 2, 2, 2, 2, 2, 2, 2] 0) ∧
      ∀ wit_objs2 : List witness_object,
        wit_objs2.Perm (witnesses_confirming [1, 1, 1, 2, 2, 2, 2, 2, 2, 2]) →
        ((wit_objs2.map (fun x => x.last_confirmed_block_num)).insertionSort (· ≤ ·))[
            (default_config.GRAPHENE_100_PERCENT
                - default_config.GRAPHENE_IRREVERSIBLE_THRESHOLD) * wit_objs2.length
              / default_config.GRAPHENE_100_PERCENT]? = some v) ∧
    update_last_irreversible_block default_config
        (producer_state [1, 1, 1, 2, 2, 2, 2, 2, 2, 2] 0) =
      .ok (producer_state [1, 1, 1, 2, 2, 2, 2, 2, 2, 2] 2) ∧
    update_last_irreversible_block default_config
        (producer_state [2, 1, 2, 2, 1, 2, 2, 1, 2, 2] 0) =
      .ok (producer_state [2, 1, 2, 2, 1, 2, 2, 1, 2, 2] 2) ∧
    update_last_irreversible_block default_config
        (producer_state [1, 1, 1, 1, 1, 1, 1, 2, 2, 2] 0) =
      .ok (producer_state [1, 1, 1, 1, 1, 1, 1, 2, 2, 2] 1) ∧
    update_last_irreversible_block default_config
        (producer_state [3, 3, 3, 3, 3, 3, 3, 3, 3, 3] 0) =
      .ok (producer_state [3, 3, 3, 3, 3, 3, 3, 3, 3, 3] 3) :=
  ⟨irreversible_candidate_is_order_statistic nth_element default_config
      (producer_state [1, 1, 1, 2, 2, 2, 2, 2, 2, 2] 0)
      (witnesses_confirming [1, 1, 1, 2, 2, 2, 2, 2, 2, 2])
      (by decide) (by decide) (by decide) (by decide) (by decide)
      (nth_element_post_nth_element _ _),
    by decide, by decide, by decide, by decide⟩

theorem count_mul_ge_threshold (cfg : chain_config) (n count : Nat)
    (hT : cfg.GRAPHENE_IRREVERSIBLE_THRESHOLD ≤ cfg.GRAPHENE_100_PERCENT)
    (hcount : n - (cfg.GRAPHENE_100_PERCENT - cfg.GRAPHENE_IRREVERSIBLE_THRESHOLD) * n
      / cfg.GRAPHENE_100_PERCENT ≤ count) :
    cfg.GRAPHENE_IRREVERSIBLE_THRESHOLD * n ≤ count * cfg.GRAPHENE_100_PERCENT := by
  have h1 : (cfg.GRAPHENE_100_PERCENT - cfg.GRAPHENE_IRREVERSIBLE_THRESHOLD) * n
      / cfg.GRAPHENE_100_PERCENT * cfg.GRAPHENE_100_PERCENT
      ≤ (cfg.GRAPHENE_100_PERCENT - cfg.GRAPHENE_IRREVERSIBLE_THRESHOLD) * n :=
    Nat.div_mul_le_self _ _
  have h2 : (cfg.GRAPHENE_100_PERCENT - cfg.GRAPHENE_IRREVERSIBLE_THRESHOLD) * n
      + cfg.GRAPHENE_IRREVERSIBLE_THRESHOLD * n = cfg.GRAPHENE_100_PERCENT * n := by
    rw [← Nat.add_mul, Nat.sub_add_cancel hT]
  have h3 : (n - (cfg.GRAPHENE_100_PERCENT - cfg.GRAPHENE_IRREVERSIBLE_THRESHOLD) * n
      / cfg.GRAPHENE_100_PERCENT) * cfg.GRAPHENE_100_PERCENT
      ≤ count * cfg.GRAPHENE_100_PERCENT := Nat.mul_le_mul_right _ hcount
  rw [Nat.sub_mul] at h3
  have h4 : n * cfg.GRAPHENE_100_PERCENT = cfg.GRAPHENE_100_PERCENT * n := Nat.mul_comm _ _
  omega

/-- C7: for a non-empty set of `n` active producers and a threshold `T` with `0 < T <= 100%`,
whatever rearrangement `std::nth_element` makes within what the standard promises, the number
of active producers whose `last_confirmed_block_num` is at least the height that
`update_last_irreversible_block` selects, multiplied by 100%, is at least `T * n`. -/
theorem irreversible_candidate_confirmed_by_threshold
    (nth : List witness_object → Nat → List witness_object) (cfg : chain_config)
    (db : database) (wit_objs : List witness_object)
    (hT0 : 0 < cfg.GRAPHENE_IRREVERSIBLE_THRESHOLD)
    (hT : cfg.GRAPHENE_IRREVERSIBLE_THRESHOLD ≤ cfg.GRAPHENE_100_PERCENT)
    (hw : get_witnesses db db.gpo.active_witnesses = .ok wit_objs)
    (hne : wit_objs ≠ [])
    (hsize : (cfg.GRAPHENE_100_PERCENT - cfg.GRAPHENE_IRREVERSIBLE_THRESHOLD) * wit_objs.length
      < 2 ^ 64)
    (hnth : nth_element_post wit_objs
      (nth wit_objs (irreversible_offset cfg wit_objs.length))
      (irreversible_offset cfg wit_objs.length)) :
    ∃ w,
      deref (nth wit_objs (irreversible_offset cfg wit_objs.length))
        (irreversible_offset cfg wit_objs.length) = .ok w ∧
      update_last_irreversible_block_with nth cfg db =
        .ok (if w.last_confirmed_block_num > db.dgp.last_irreversible_block_num then
          db.modify_dgp (fun d =>
            { d with last_irreversible_block_num := w.last_confirmed_block_num })
          else db) ∧
      cfg.GRAPHENE_IRREVERSIBLE_THRESHOLD * wit_objs.length ≤
        wit_objs.countP
            (fun x => decide (w.last_confirmed_block_num ≤ x.last_confirmed_block_num))
          * cfg.GRAPHENE_100_PERCENT := by
  have hn : 0 < wit_objs.length := List.length_pos.2 hne
  have hoff := irreversible_offset_eq cfg wit_objs.length hT hn hsize
  have hlt := irreversible_offset_lt cfg wit_objs.length hT0 hT hn hsize
  obtain ⟨w, hsel, _, hdrop⟩ := selected_key_eq_sorted wit_objs _ _ hlt hnth
  refine ⟨w, hsel, update_last_irreversible_block_with_eval nth cfg db wit_objs w hw hsel, ?_⟩
  apply count_mul_ge_threshold cfg _ _ hT
  rw [← hoff, ← hnth.1.countP_eq]
  have hsplit := List.take_append_drop (irreversible_offset cfg wit_objs.length)
    (nth wit_objs (irreversible_offset cfg wit_objs.length))
  have hcd : List.countP
      (fun x => decide (w.last_confirmed_block_num ≤ x.last_confirmed_block_num))
      (List.drop (irreversible_offset cfg wit_objs.length)
        (nth wit_objs (irreversible_offset cfg wit_objs.length))) =
      (List.drop (irreversible_offset cfg wit_objs.length)
        (nth wit_objs (irreversible_offset cfg wit_objs.length))).length := by
    rw [List.countP_eq_length]
    intro x hx
    simpa using hdrop x hx
  have hc : List.countP
      (fun x => decide (w.last_confirmed_block_num ≤ x.last_confirmed_block_num))
      (nth wit_objs (irreversible_offset cfg wit_objs.length)) =
      List.countP (fun x => decide (w.last_confirmed_block_num ≤ x.last_confirmed_block_num))
        (List.take (irreversible_offset cfg wit_objs.length)
          (nth wit_objs (irreversible_offset cfg wit_objs.length))) +
      (List.drop (irreversible_offset cfg wit_objs.length)
        (nth wit_objs (irreversible_offset cfg wit_objs.length))).length := by
    conv_lhs => rw [← hsplit]
    rw [List.countP_append, hcd]
  rw [hc, List.length_drop, hnth.1.length_eq]
  omega

/-- C7, at the first list of the comment in the code: of the ten producers confirming
1 1 1 2 2 2 2 2 2 2, seven confirm the selected height 2, and 7 * 100% is at least 70% * 10. -/
theorem irreversible_candidate_confirmed_by_threshold_witness :
    (∃ w,
      deref (nth_element (witnesses_confirming [1, 1, 1, 2, 2, 2, 2, 2, 2, 2])
          (irreversible_offset default_config
            (witnesses_confirming [1, 1, 1, 2, 2, 2, 2, 2, 2, 2]).length))
        (irreversible_offset default_config
          (witnesses_confirming [1, 1, 1, 2, 2, 2, 2, 2, 2, 2]).length) = .ok w ∧
      update_last_irreversible_block_with nth_element default_config
          (producer_state [1, 1, 1, 2, 2, 2, 2, 2, 2, 2] 0) =
        .ok (if w.last_confirmed_block_num >
            (producer_state [1, 1, 1, 2, 2, 2, 2, 2, 2, 2] 0).dgp.last_irreversible_block_num
          then (producer_state [1, 1, 1, 2, 2, 2, 2, 2, 2, 2] 0).modify_dgp (fun d =>
            { d with last_irreversible_block_num := w.last_confirmed_block_num })
          else producer_state [1, 1, 1, 2, 2, 2, 2, 2, 2, 2] 0) ∧
      default_config.GRAPHENE_IRREVERSIBLE_THRESHOLD
          * (witnesses_confirming [1, 1, 1, 2, 2, 2, 2, 2, 2, 2]).length ≤
        (witnesses_confirming [1, 1, 1, 2, 2, 2, 2, 2, 2, 2]).countP
            (fun x => decide (w.last_confirmed_block_num ≤ x.last_confirmed_block_num))
          * default_config.GRAPHENE_100_PERCENT) ∧
    (witnesses_confirming [1, 1, 1, 2, 2, 2, 2, 2, 2, 2]).countP
        (fun x => decide (2 ≤ x.last_confirmed_block_num)) = 7 :=
  ⟨irreversible_candidate_confirmed_by_threshold nth_element default_config
      (producer_state [1, 1, 1, 2, 2, 2, 2, 2, 2, 2] 0)
      (witnesses_confirming [1, 1, 1, 2, 2, 2, 2, 2, 2, 2])
      (by decide) (by decide) (by decide) (by decide) (by decide)
      (nth_element_post_nth_element _ _),
    by decide⟩

/-! ## Sequences of operations -/

theorem update_global_dynamic_data_keeps_last_irreversible (cfg : chain_config)
    (o : schedule_oracle) (db db2 : database) (b : signed_block)
    (hok : update_global_dynamic_data cfg o db b = .ok db2) :
    db2.dgp.last_irreversible_block_num = db.dgp.last_irreversible_block_num := by
  obtain ⟨_, db1, _, _, hdb2⟩ := (update_global_dynamic_data_ok_iff cfg o db db2 b).1 hok
  rw [hdb2]
  rfl

theorem update_signing_witness_keeps_last_irreversible (o : schedule_oracle)
    (db db2 : database) (signing_witness : witness_object) (new_block : signed_block)
    (hok : update_signing_witness o db signing_witness new_block = .ok db2) :
    db2.dgp.last_irreversible_block_num = db.dgp.last_irreversible_block_num := by
  simp only [update_signing_witness, bind, Except.bind, pure, Except.pure] at hok
  cases hs : safe_sub db.dgp.witness_budget
      (min db.gpo.parameters.witness_pay_per_block db.dgp.witness_budget) with
  | error e => simp [hs] at hok
  | ok budget =>
    simp only [hs, Except.ok.injEq] at hok
    subst hok
    rfl

theorem update_last_irreversible_block_writes_greater
    (nth : List witness_object → Nat → List witness_object) (cfg : chain_config)
    (db db2 : database) (hok : update_last_irreversible_block_with nth cfg db = .ok db2) :
    db2 = db ∨
      (db.dgp.last_irreversible_block_num < db2.dgp.last_irreversible_block_num ∧
        db2 = db.modify_dgp (fun d =>
          { d with last_irreversible_block_num := db2.dgp.last_irreversible_block_num })) := by
  simp only [update_last_irreversible_block_with, bind, Except.bind, pure, Except.pure] at hok
  cases hw : get_witnesses db db.gpo.active_witnesses with
  | error e => simp [hw] at hok
  | ok wit_objs =>
    simp only [hw] at hok
    cases hsel : deref (nth wit_objs (irreversible_offset cfg wit_objs.length))
        (irreversible_offset cfg wit_objs.length) with
    | error e => simp [hsel] at hok
    | ok w =>
      simp only [hsel] at hok
      split at hok
      · rename_i hgt
        simp only [Except.ok.injEq] at hok
        subst hok
        exact Or.inr ⟨hgt, rfl⟩
      · simp only [Except.ok.injEq] at hok
        exact Or.inl hok.symm

theorem operation_apply_monotone (nth : List witness_object → Nat → List witness_object)
    (cfg : chain_config) (op : operation) (db db2 : database)
    (hok : op.apply nth cfg db = .ok db2) :
    db.dgp.last_irreversible_block_num ≤ db2.dgp.last_irreversible_block_num := by
  cases op with
  | update_global_dynamic_data o b =>
    exact le_of_eq (update_global_dynamic_data_keeps_last_irreversible cfg o db db2 b hok).symm
  | update_signing_witness o w b =>
    exact le_of_eq (update_signing_witness_keeps_last_irreversible o db db2 w b hok).symm
  | update_last_irreversible_block =>
    rcases update_last_irreversible_block_writes_greater nth cfg db db2 hok with h | h
    · rw [h]
    · exact le_of_lt h.1
  | update_maintenance_flag f =>
    simp only [operation.apply, Except.ok.injEq] at hok
    subst hok
    exact le_refl _

theorem run_operations_pairwise (nth : List witness_object → Nat → List witness_object)
    (cfg : chain_config) (ops : List operation) :
    ∀ db : database,
      List.Pairwise
        (fun a b : database =>
          a.dgp.last_irreversible_block_num ≤ b.dgp.last_irreversible_block_num)
        (db :: run_operations nth cfg db ops) := by
  induction ops with
  | nil => intro db; simp [run_operations]
  | cons op ops ih =>
    intro db
    cases hop : op.apply nth cfg db with
    | error e => simp [run_operations, hop]
    | ok db2 =>
      have hstep := operation_apply_monotone nth cfg op db db2 hop
      have hrest := ih db2
      simp only [run_operations, hop]
      rw [List.pairwise_cons]
      refine ⟨?_, hrest⟩
      intro x hx
      rcases List.mem_cons.1 hx with h | h
      · rw [h]; exact hstep
      · exact le_trans hstep ((List.pairwise_cons.1 hrest).1 x h)

/-- C5: along every sequence of the operations `update_global_dynamic_data`,
`update_signing_witness`, `update_last_irreversible_block` and `update_maintenance_flag`, for
every rearrangement `std::nth_element` makes, `last_irreversible_block_num` never decreases from
a state to a later one; `update_last_irreversible_block` leaves the state as it is or writes a
strictly greater value, and nothing else; the other three leave the value unchanged. -/
theorem last_irreversible_block_num_non_decreasing
    (nth : List witness_object → Nat → List witness_object) (cfg : chain_config)
    (db : database) (ops : List operation) :
    List.Pairwise
      (fun a b : database =>
        a.dgp.last_irreversible_block_num ≤ b.dgp.last_irreversible_block_num)
      (db :: run_operations nth cfg db ops) ∧
    (∀ db2, update_last_irreversible_block_with nth cfg db = .ok db2 →
      db2 = db ∨
        (db.dgp.last_irreversible_block_num < db2.dgp.last_irreversible_block_num ∧
          db2 = db.modify_dgp (fun d =>
            { d with last_irreversible_block_num := db2.dgp.last_irreversible_block_num }))) ∧
    (∀ o b db2, update_global_dynamic_data cfg o db b = .ok db2 →
      db2.dgp.last_irreversible_block_num = db.dgp.last_irreversible_block_num) ∧
    (∀ o signing_witness new_block db2,
      update_signing_witness o db signing_witness new_block = .ok db2 →
      db2.dgp.last_irreversible_block_num = db.dgp.last_irreversible_block_num) ∧
    (∀ new_maintenance_flag,
      (update_maintenance_flag cfg db new_maintenance_flag).dgp.last_irreversible_block_num =
        db.dgp.last_irreversible_block_num) :=
  ⟨run_operations_pairwise nth cfg ops db,
    fun db2 h => update_last_irreversible_block_writes_greater nth cfg db db2 h,
    fun o b db2 h => update_global_dynamic_data_keeps_last_irreversible cfg o db db2 b h,
    fun o w b db2 h => update_signing_witness_keeps_last_irreversible o db db2 w b h,
    fun _ => rfl⟩

/-- C5, at a concrete sequence: from last irreversible block 5 with confirmed heights 7, 8, 9
the value becomes 7 and stays 7 through a block, the pay of its signer, the maintenance flag;
then with the active set shrunk to one producer that confirmed height 6 the value stays 7. -/
theorem last_irreversible_block_num_non_decreasing_witness :
    List.Pairwise
      (fun a b : database =>
        a.dgp.last_irreversible_block_num ≤ b.dgp.last_irreversible_block_num)
      (producer_state [7, 8, 9] 5 :: run_operations nth_element default_config
        (producer_state [7, 8, 9] 5)
        [.update_last_irreversible_block,
          .update_global_dynamic_data sample_oracle (block_11 33),
          .update_signing_witness sample_oracle
            { id := 2, witness_account := 12, total_missed := 0, last_aslot := 0,
              last_confirmed_block_num := 8 } (block_11 33),
          .update_maintenance_flag true,
          .update_last_irreversible_block]) ∧
    (run_operations nth_element default_config (producer_state [7, 8, 9] 5)
        [.update_last_irreversible_block,
          .update_global_dynamic_data sample_oracle (block_11 33),
          .update_signing_witness sample_oracle
            { id := 2, witness_account := 12, total_missed := 0, last_aslot := 0,
              last_confirmed_block_num := 8 } (block_11 33),
          .update_maintenance_flag true,
          .update_last_irreversible_block]).map
        (fun d => d.dgp.last_irreversible_block_num) = [7, 7, 7, 7, 7] ∧
    update_last_irreversible_block default_config (producer_state [6] 7) =
      .ok (producer_state [6] 7) :=
  ⟨(last_irreversible_block_num_non_decreasing nth_element default_config
      (producer_state [7, 8, 9] 5) _).1,
    by decide, by decide⟩

/-! ## Missed-block accounting -/
theorem count_step_penalized (sched : Nat → Nat) (signer i wid : Nat) (rest : List Nat)
    (hwid : wid = sched (i + 1)) (hsig : ¬ wid = signer) (x : witness_object) :
    (fun w : witness_object =>
        if w.id = signer then w
        else { w with total_missed := w.total_missed +
                        List.countP (fun j => decide (sched (j + 1) = w.id)) rest })
      (if x.id = wid then { x with total_missed := x.total_missed + 1 } else x) =
    (fun w : witness_object =>
        if w.id = signer then w
        else { w with total_missed := w.total_missed +
                        List.countP (fun j => decide (sched (j + 1) = w.id)) (i :: rest) }) x := by
  obtain ⟨xid, xacc, xtm, xas, xlc⟩ := x
  by_cases hxw : xid = wid
  · have hx : ¬ xid = signer := by rw [hxw]; exact hsig
    have he : sched (i + 1) = xid := by rw [hxw, hwid]
    simp only [if_pos hxw, if_neg hx, List.countP_cons, he, decide_True, if_true]
    simp only [witness_object.mk.injEq, true_and, and_true]
    omega
  · simp only [if_neg hxw]
    by_cases hx : xid = signer
    · simp only [if_pos hx]
    · have hne : ¬ sched (i + 1) = xid := by
        rw [← hwid]; exact fun h => hxw h.symm
      simp only [if_neg hx, List.countP_cons, hne, decide_False, Bool.false_eq_true, if_false,
        Nat.add_zero]

theorem count_step_signer (sched : Nat → Nat) (signer i : Nat) (rest : List Nat)
    (hsig : sched (i + 1) = signer) (x : witness_object) :
    (fun w : witness_object =>
        if w.id = signer then w
        else { w with total_missed := w.total_missed +
                        List.countP (fun j => decide (sched (j + 1) = w.id)) rest }) x =
    (fun w : witness_object =>
        if w.id = signer then w
        else { w with total_missed := w.total_missed +
                        List.countP (fun j => decide (sched (j + 1) = w.id)) (i :: rest) }) x := by
  obtain ⟨xid, xacc, xtm, xas, xlc⟩ := x
  by_cases hx : xid = signer
  · simp only [if_pos hx]
  · have hne : ¬ sched (i + 1) = xid := by
      rw [hsig]; exact fun h => hx h.symm
    simp only [if_neg hx, List.countP_cons, hne, decide_False, Bool.false_eq_true, if_false,
      Nat.add_zero]

theorem get_witness_of_mem_ids (db : database) (id : Nat)
    (h : ∃ w ∈ db.witnesses, w.id = id) :
    ∃ w, db.get_witness id = .ok w ∧ w.id = id := by
  unfold database.get_witness
  cases hf : db.witnesses.find? (fun w => w.id == id) with
  | none =>
    obtain ⟨w, hw, hid⟩ := h
    have := List.find?_eq_none.1 hf w hw
    simp [hid] at this
  | some w =>
    refine ⟨w, rfl, ?_⟩
    have := List.find?_some hf
    simpa using this

/-- The witness table after the loop over the missed slots `slots`: every witness other than the
signer has `total_missed` increased by the number of slots of the list it was scheduled for. -/
theorem update_missed_witnesses_eval (o : schedule_oracle) (b : signed_block) :
    ∀ (slots : List Nat) (db : database),
      (∀ i ∈ slots, ∃ w ∈ db.witnesses, w.id = o.get_scheduled_witness (i + 1)) →
      ∃ db1, update_missed_witnesses o b slots db = .ok db1 ∧
        db1.witnesses = db.witnesses.map (fun w =>
          if w.id = b.witness then w
          else { w with total_missed := w.total_missed +
                          List.countP (fun i => decide (o.get_scheduled_witness (i + 1) = w.id))
                            slots }) := by
  intro slots
  induction slots with
  | nil =>
    intro db _
    refine ⟨db, rfl, ?_⟩
    simp
  | cons i rest ih =>
    intro db hsched
    obtain ⟨w, hw, hwid⟩ := get_witness_of_mem_ids db _ (hsched i (List.mem_cons_self _ _))
    by_cases hsig : w.id = b.witness
    · have hrest : ∀ j ∈ rest, ∃ x ∈ db.witnesses, x.id = o.get_scheduled_witness (j + 1) :=
        fun j hj => hsched j (List.mem_cons_of_mem _ hj)
      obtain ⟨db1, h1, h2⟩ := ih db hrest
      refine ⟨db1, ?_, ?_⟩
      · simp only [update_missed_witnesses, hw, bind, Except.bind, hsig, ne_eq,
          not_true_eq_false, if_false]
        exact h1
      · rw [h2]
        apply List.map_congr_left
        intro x _
        exact count_step_signer o.get_scheduled_witness b.witness i rest (hwid ▸ hsig) x
    · have hrest : ∀ j ∈ rest, ∃ x ∈ (db.modify_witness w
          (fun w => { w with total_missed := w.total_missed + 1 })).witnesses,
          x.id = o.get_scheduled_witness (j + 1) := by
        intro j hj
        obtain ⟨x, hx, hxid⟩ := hsched j (List.mem_cons_of_mem _ hj)
        refine ⟨if x.id = w.id then { x with total_missed := x.total_missed + 1 } else x, ?_, ?_⟩
        · simp only [database.modify_witness]
          exact List.mem_map.2 ⟨x, hx, rfl⟩
        · split <;> exact hxid
      obtain ⟨db1, h1, h2⟩ := ih _ hrest
      refine ⟨db1, ?_, ?_⟩
      · simp only [update_missed_witnesses, hw, bind, Except.bind, hsig, ne_eq,
          not_false_eq_true, if_true]
        exact h1
      · rw [h2]
        simp only [database.modify_witness, List.map_map]
        apply List.map_congr_left
        intro x _
        exact count_step_penalized o.get_scheduled_witness b.witness i w.id rest hwid hsig x

/-- C11: with `missed_blocks = get_slot_at_time(b.timestamp) - 1` for a slot count of at least 1
and every witness scheduled for the missed slots present in the witness table, the loop of
`update_global_dynamic_data` succeeds; after it, and after every successful call of
`update_global_dynamic_data`, every witness other than the signer of the block has `total_missed`
increased by exactly the number of slot indices `i` in `1..missed_blocks` whose scheduled
producer it is, and the signer is unchanged, also when it was scheduled for some of those
slots. -/
theorem total_missed_counts_missed_slots (cfg : chain_config) (o : schedule_oracle)
    (db : database) (b : signed_block)
    (hsched : ∀ i ∈ List.range (o.get_slot_at_time b.timestamp % 2 ^ 32 - 1),
      ∃ w ∈ db.witnesses, w.id = o.get_scheduled_witness (i + 1)) :
    (∃ db1, update_missed_witnesses o b
        (List.range (o.get_slot_at_time b.timestamp % 2 ^ 32 - 1)) db = .ok db1) ∧
    (∀ db2, update_global_dynamic_data cfg o db b = .ok db2 →
      db2.witnesses = db.witnesses.map (fun w =>
        if w.id = b.witness then w
        else { w with total_missed := w.total_missed +
                        List.countP (fun i => decide (o.get_scheduled_witness (i + 1) = w.id))
                          (List.range (o.get_slot_at_time b.timestamp % 2 ^ 32 - 1)) })) ∧
    (o.get_slot_at_time b.timestamp % 2 ^ 32 ≠ 0 →
      (db.skip_flags &&& cfg.skip_undo_history_check ≠ 0 ∨
        uint32_sub b.block_num db.dgp.last_irreversible_block_num
          < cfg.GRAPHENE_MAX_UNDO_HISTORY) →
      ∃ db2, update_global_dynamic_data cfg o db b = .ok db2) := by
  obtain ⟨db1, hloop, hwit⟩ := update_missed_witnesses_eval o b _ db hsched
  refine ⟨⟨db1, hloop⟩, ?_, ?_⟩
  · intro db2 hok
    obtain ⟨_, db1', hloop', _, hdb2⟩ := (update_global_dynamic_data_ok_iff cfg o db db2 b).1 hok
    rw [hloop] at hloop'
    cases hloop'
    rw [hdb2]
    exact hwit
  · intro hslot hundo
    rw [update_global_dynamic_data_eval cfg o db db1 b hslot hloop]
    rcases hundo with h | h
    · simp [h]
    · simp [h]

/-- C11, at concrete schedules with two missed slots: with the witnesses 1, 2, 3 in rotation
and the block signed by 2, the slots 1 and 2 were scheduled for 2 and 3 and only the witness 3
is charged; with the witness 2 scheduled for every slot and signing the block nobody is
charged. -/
theorem total_missed_counts_missed_slots_witness :
    (∀ db2, update_global_dynamic_data default_config sample_oracle
        (chain_state sample_dgp [] 0) (block_11 39) = .ok db2 →
      db2.witnesses.map (fun w => (w.id, w.total_missed)) = [(1, 0), (2, 0), (3, 1)]) ∧
    (∃ db2, update_global_dynamic_data default_config sample_oracle
        (chain_state sample_dgp [] 0) (block_11 39) = .ok db2) ∧
    (∀ db2, update_global_dynamic_data default_config
        { get_slot_at_time := fun t => (t - 30) / 3, get_scheduled_witness := fun _ => 2 }
        (chain_state sample_dgp [] 0) (block_11 39) = .ok db2 →
      db2.witnesses.map (fun w => (w.id, w.total_missed)) = [(1, 0), (2, 0), (3, 0)]) :=
  ⟨fun db2 h => by
      rw [(total_missed_counts_missed_slots default_config sample_oracle
        (chain_state sample_dgp [] 0) (block_11 39) (by decide)).2.1 db2 h]
      decide,
    (total_missed_counts_missed_slots default_config sample_oracle
      (chain_state sample_dgp [] 0) (block_11 39) (by decide)).2.2 (by decide)
      (Or.inr (by decide)),
    fun db2 h => by
      rw [(total_missed_counts_missed_slots default_config
        { get_slot_at_time := fun t => (t - 30) / 3, get_scheduled_witness := fun _ => 2 }
        (chain_state sample_dgp [] 0) (block_11 39) (by decide)).2.1 db2 h]
      decide⟩

/-! ## `recent_slots_filled` and `current_aslot` -/

theorem shift_one_mod (old : Nat) : (old * 2) % 2 ^ 128 = 2 ^ 1 * (old % 2 ^ 127) := by
  have h : (2 : Nat) ^ 128 = 2 * 2 ^ 127 := by norm_num
  rw [h, Nat.mul_comm old 2, Nat.mul_mod_mul_left]
  norm_num

theorem shifted_plus_one_lt (old : Nat) : (old * 2) % 2 ^ 128 + 1 < 2 ^ 128 := by
  rw [shift_one_mod]
  have : old % 2 ^ 127 < 2 ^ 127 := Nat.mod_lt _ (by norm_num)
  norm_num at this ⊢
  omega

/-- The value `update_global_dynamic_data` writes to `recent_slots_filled` is the value of the
sequence of the specification. -/
theorem recent_slots_filled_eq_rule (old missed_blocks : Nat) :
    (((old * 2) % 2 ^ 128 + 1) % 2 ^ 128 * 2 ^ missed_blocks) % 2 ^ 128 =
      recent_slots_filled_rule old missed_blocks := by
  unfold recent_slots_filled_rule
  rw [Nat.mod_eq_of_lt (shifted_plus_one_lt old), Nat.shiftLeft_eq, Nat.shiftLeft_eq, pow_one,
    shift_one_mod, ← Nat.mul_add_lt_is_or (by norm_num : 1 < 2 ^ 1)]

/-- The bits of the value `update_global_dynamic_data` writes to `recent_slots_filled`. -/
theorem recent_slots_filled_testBit (old missed_blocks j : Nat) :
    ((((old * 2) % 2 ^ 128 + 1) % 2 ^ 128 * 2 ^ missed_blocks) % 2 ^ 128).testBit j =
      (decide (j < 128) && decide (missed_blocks ≤ j) &&
        (decide (j = missed_blocks) || old.testBit (j - missed_blocks - 1))) := by
  rw [Nat.mod_eq_of_lt (shifted_plus_one_lt old), shift_one_mod, Nat.testBit_mod_two_pow,
    Nat.mul_comm _ (2 ^ missed_blocks), Nat.testBit_mul_pow_two,
    Nat.testBit_mul_pow_two_add _ (by norm_num : 1 < 2 ^ 1), Nat.testBit_mod_two_pow]
  by_cases h1 : j < 128
  · by_cases h2 : missed_blocks ≤ j
    · by_cases h3 : j = missed_blocks
      · subst h3
        simp [h1]
      · have h4 : ¬ j - missed_blocks < 1 := by omega
        have h5 : j - missed_blocks - 1 < 127 := by omega
        simp [h1, h2, h3, h4, h5]
    · simp [h1, h2]
  · simp [h1]

/-- C12: for every prior value and every `missed_blocks` the value written to
`recent_slots_filled`, `((old << 1) + 1) << missed_blocks` in the 128-bit unsigned type, is the
value of the sequence of the specification (shift left by one, set the low bit, shift left by
`missed_blocks`), adding 1 and setting the low bit being the same after the first shift; and
after a successful call `current_aslot` is the value before plus `missed_blocks + 1` (in the
64-bit unsigned type, and exactly so when that sum fits in it). The call succeeds when its slot
assertion, its loop over the missed slots and its undo-history check pass. -/
theorem recent_slots_filled_and_aslot_update (cfg : chain_config) (o : schedule_oracle)
    (db : database) (b : signed_block) :
    (∀ old missed_blocks : Nat,
      (((old * 2) % 2 ^ 128 + 1) % 2 ^ 128 * 2 ^ missed_blocks) % 2 ^ 128 =
        recent_slots_filled_rule old missed_blocks) ∧
    (∀ old : Nat, ((old <<< 1) % 2 ^ 128) ||| 1 = (old <<< 1) % 2 ^ 128 + 1) ∧
    (∀ db2, update_global_dynamic_data cfg o db b = .ok db2 →
      db2.dgp.recent_slots_filled =
        recent_slots_filled_rule db.dgp.recent_slots_filled
          (o.get_slot_at_time b.timestamp % 2 ^ 32 - 1) ∧
      db2.dgp.current_aslot =
        (db.dgp.current_aslot + ((o.get_slot_at_time b.timestamp % 2 ^ 32 - 1) + 1)) % 2 ^ 64 ∧
      (db.dgp.current_aslot + ((o.get_slot_at_time b.timestamp % 2 ^ 32 - 1) + 1) < 2 ^ 64 →
        db2.dgp.current_aslot =
          db.dgp.current_aslot + ((o.get_slot_at_time b.timestamp % 2 ^ 32 - 1) + 1))) ∧
    (o.get_slot_at_time b.timestamp % 2 ^ 32 ≠ 0 →
      (∃ db1, update_missed_witnesses o b
        (List.range (o.get_slot_at_time b.timestamp % 2 ^ 32 - 1)) db = .ok db1) →
      (db.skip_flags &&& cfg.skip_undo_history_check ≠ 0 ∨
        uint32_sub b.block_num db.dgp.last_irreversible_block_num
          < cfg.GRAPHENE_MAX_UNDO_HISTORY) →
      ∃ db2, update_global_dynamic_data cfg o db b = .ok db2) := by
  refine ⟨recent_slots_filled_eq_rule, ?_, ?_, ?_⟩
  · intro old
    rw [Nat.shiftLeft_eq, pow_one, shift_one_mod,
      ← Nat.mul_add_lt_is_or (by norm_num : 1 < 2 ^ 1)]
  · intro db2 hok
    obtain ⟨hslot, db1, _, _, hdb2⟩ := (update_global_dynamic_data_ok_iff cfg o db db2 b).1 hok
    have hlt : o.get_slot_at_time b.timestamp % 2 ^ 32 < 2 ^ 32 := Nat.mod_lt _ (by norm_num)
    have hm : ((o.get_slot_at_time b.timestamp % 2 ^ 32 - 1) + 1) % 2 ^ 32 =
        (o.get_slot_at_time b.timestamp % 2 ^ 32 - 1) + 1 := by
      apply Nat.mod_eq_of_lt
      omega
    have haslot : db2.dgp.current_aslot =
        (db.dgp.current_aslot + ((o.get_slot_at_time b.timestamp % 2 ^ 32 - 1) + 1)) % 2 ^ 64 := by
      rw [hdb2]
      show (db.dgp.current_aslot + ((o.get_slot_at_time b.timestamp % 2 ^ 32 - 1) + 1) % 2 ^ 32)
        % 2 ^ 64 = _
      rw [hm]
    refine ⟨?_, haslot, ?_⟩
    · rw [hdb2]
      exact recent_slots_filled_eq_rule _ _
    · intro hfit
      rw [haslot, Nat.mod_eq_of_lt hfit]
  · rintro hslot ⟨db1, hloop⟩ hundo
    rw [update_global_dynamic_data_eval cfg o db db1 b hslot hloop]
    rcases hundo with h | h
    · simp [h]
    · simp [h]

/-- C12, at a concrete state: from the history 1023 and the slot counter 10, a block with two
missed slots writes the history (1023 * 2 + 1) * 4 = 8188 and the slot counter 13. -/
theorem recent_slots_filled_and_aslot_update_witness :
    (∀ db2, update_global_dynamic_data default_config sample_oracle
        (chain_state sample_dgp [] 0) (block_11 39) = .ok db2 →
      db2.dgp.recent_slots_filled = 8188 ∧ db2.dgp.current_aslot = 13) ∧
    (∃ db2, update_global_dynamic_data default_config sample_oracle
        (chain_state sample_dgp [] 0) (block_11 39) = .ok db2) :=
  ⟨fun db2 h =>
      have key := (recent_slots_filled_and_aslot_update default_config sample_oracle
        (chain_state sample_dgp [] 0) (block_11 39)).2.2.1 db2 h
      ⟨key.1.trans (by decide), key.2.2 (by decide)⟩,
    (recent_slots_filled_and_aslot_update default_config sample_oracle
      (chain_state sample_dgp [] 0) (block_11 39)).2.2.2 (by decide) ⟨_, rfl⟩
      (Or.inr (by decide))⟩

/-- C13, as stated, fails: from the history 1023 a block with one missed slot writes
4094 = (1023 * 2 + 1) * 2, whose bit 0 is 0 and whose bit 1 is 1: the low-order position holds
the missed slot and the applied block is recorded above it. -/
theorem recent_slots_filled_low_bit_counterexample :
    (update_global_dynamic_data default_config sample_oracle (chain_state sample_dgp [] 0)
        (block_11 36)).map (fun d => d.dgp.recent_slots_filled) = .ok 4094 ∧
    Nat.testBit 4094 0 = false ∧ Nat.testBit 4094 1 = true := by
  decide

/-- C13, amended: after `update_global_dynamic_data` applies a block with `missed_blocks`
missed slots, the bit of `recent_slots_filled` at position `missed_blocks` is 1 (the slot the
applied block filled) when that position is within the 128 bits, the positions
`0..missed_blocks-1` below it are 0 (the missed slots), so that bit 0 is 1 exactly when no slot
was missed, and the bits of the history before follow at the positions above, moved up by
`missed_blocks + 1`. The call succeeds when its slot assertion, its loop over the missed slots
and its undo-history check pass. -/
theorem recent_slots_filled_bit_positions (cfg : chain_config) (o : schedule_oracle)
    (db : database) (b : signed_block) :
    (∀ db2, update_global_dynamic_data cfg o db b = .ok db2 →
      (o.get_slot_at_time b.timestamp % 2 ^ 32 - 1 < 128 →
        db2.dgp.recent_slots_filled.testBit (o.get_slot_at_time b.timestamp % 2 ^ 32 - 1)
          = true) ∧
      (∀ i, i < o.get_slot_at_time b.timestamp % 2 ^ 32 - 1 →
        db2.dgp.recent_slots_filled.testBit i = false) ∧
      (db2.dgp.recent_slots_filled.testBit 0 = true ↔
        o.get_slot_at_time b.timestamp % 2 ^ 32 - 1 = 0) ∧
      (∀ i, o.get_slot_at_time b.timestamp % 2 ^ 32 - 1 < i → i < 128 →
        db2.dgp.recent_slots_filled.testBit i =
          db.dgp.recent_slots_filled.testBit
            (i - (o.get_slot_at_time b.timestamp % 2 ^ 32 - 1) - 1))) ∧
    (o.get_slot_at_time b.timestamp % 2 ^ 32 ≠ 0 →
      (∃ db1, update_missed_witnesses o b
        (List.range (o.get_slot_at_time b.timestamp % 2 ^ 32 - 1)) db = .ok db1) →
      (db.skip_flags &&& cfg.skip_undo_history_check ≠ 0 ∨
        uint32_sub b.block_num db.dgp.last_irreversible_block_num
          < cfg.GRAPHENE_MAX_UNDO_HISTORY) →
      ∃ db2, update_global_dynamic_data cfg o db b = .ok db2) := by
  constructor
  · intro db2 hok
    obtain ⟨_, db1, _, _, hdb2⟩ := (update_global_dynamic_data_ok_iff cfg o db db2 b).1 hok
    have hbit : ∀ j, db2.dgp.recent_slots_filled.testBit j =
        (decide (j < 128) && decide (o.get_slot_at_time b.timestamp % 2 ^ 32 - 1 ≤ j) &&
          (decide (j = o.get_slot_at_time b.timestamp % 2 ^ 32 - 1) ||
            db.dgp.recent_slots_filled.testBit
              (j - (o.get_slot_at_time b.timestamp % 2 ^ 32 - 1) - 1))) := by
      intro j
      rw [hdb2]
      exact recent_slots_filled_testBit _ _ j
    clear hdb2 hok
    generalize o.get_slot_at_time b.timestamp % 2 ^ 32 - 1 = m at hbit ⊢
    refine ⟨?_, ?_, ?_, ?_⟩
    · intro h
      rw [hbit]
      simp [h]
    · intro i hi
      rw [hbit]
      have : ¬ m ≤ i := by omega
      simp [this]
    · rw [hbit]
      constructor
      · intro h
        simp only [Bool.and_eq_true, decide_eq_true_eq] at h
        omega
      · intro h
        simp [h]
    · intro i hlt h128
      rw [hbit]
      have h1 : m ≤ i := by omega
      have h2 : ¬ i = m := by omega
      simp [h128, h1, h2]
  · rintro hslot ⟨db1, hloop⟩ hundo
    rw [update_global_dynamic_data_eval cfg o db db1 b hslot hloop]
    rcases hundo with h | h
    · simp [h]
    · simp [h]

/-- C13, amended, at a concrete state: from the history 1023 a block with two missed slots
writes a history whose bits 0 and 1 are 0 and whose bit 2 is 1. -/
theorem recent_slots_filled_bit_positions_witness :
    (∀ db2, update_global_dynamic_data default_config sample_oracle
        (chain_state sample_dgp [] 0) (block_11 39) = .ok db2 →
      db2.dgp.recent_slots_filled.testBit 2 = true ∧
      db2.dgp.recent_slots_filled.testBit 0 = false ∧
      db2.dgp.recent_slots_filled.testBit 1 = false) ∧
    (∃ db2, update_global_dynamic_data default_config sample_oracle
        (chain_state sample_dgp [] 0) (block_11 39) = .ok db2) :=
  ⟨fun db2 h =>
      have key := (recent_slots_filled_bit_positions default_config sample_oracle
        (chain_state sample_dgp [] 0) (block_11 39)).1 db2 h
      ⟨key.1 (by decide), key.2.1 0 (by decide), key.2.1 1 (by decide)⟩,
    (recent_slots_filled_bit_positions default_config sample_oracle
      (chain_state sample_dgp [] 0) (block_11 39)).2 (by decide) ⟨_, rfl⟩
      (Or.inr (by decide))⟩

/-! ## The expiration sweeps -/

theorem clear_expired_transactions_loop_eq (head_block_time : Nat) :
    ∀ (fuel : Nat) (idx : List transaction_object), idx.length ≤ fuel →
      clear_expired_transactions_loop head_block_time fuel idx =
        idx.rdropWhile (fun t => decide (head_block_time > t.expiration)) := by
  intro fuel
  induction fuel with
  | zero =>
    intro idx h
    have : idx = [] := List.length_eq_zero.1 (Nat.le_zero.1 h)
    subst this
    simp [clear_expired_transactions_loop]
  | succ n ih =>
    intro idx h
    rcases List.eq_nil_or_concat idx with rfl | ⟨init, last, rfl⟩
    · simp [clear_expired_transactions_loop]
    · rw [List.concat_eq_append] at h ⊢
      have hlen : init.length ≤ n := by
        rw [List.length_append] at h
        simp at h
        omega
      simp only [clear_expired_transactions_loop, List.getLast?_concat, List.dropLast_concat]
      rw [List.rdropWhile_concat]
      by_cases hp : head_block_time > last.expiration
      · simp [hp, ih init hlen]
      · simp [hp]

theorem clear_expired_transactions_eq (db : database) :
    clear_expired_transactions db =
      { db with transactions :=
          db.transactions.rdropWhile (fun t => decide (db.dgp.time > t.expiration)) } := by
  unfold clear_expired_transactions
  rw [clear_expired_transactions_loop_eq _ _ _ (le_refl _)]

theorem update_withdraw_permissions_loop_eq (head_block_time : Nat) :
    ∀ idx : List withdraw_permission_object,
      update_withdraw_permissions_loop head_block_time idx =
        idx.dropWhile (fun p => decide (p.expiration ≤ head_block_time)) := by
  intro idx
  induction idx with
  | nil => rfl
  | cons first rest ih =>
    by_cases hp : first.expiration ≤ head_block_time
    · simp [update_withdraw_permissions_loop, hp, ih]
    · simp [update_withdraw_permissions_loop, hp]

theorem dropWhile_eq_filter_of_sorted (head_block_time : Nat) :
    ∀ idx : List withdraw_permission_object,
      (idx.map (fun p => p.expiration)).Pairwise (· ≤ ·) →
      idx.dropWhile (fun p => decide (p.expiration ≤ head_block_time)) =
        idx.filter (fun p => decide (head_block_time < p.expiration)) := by
  intro idx
  induction idx with
  | nil => intro _; rfl
  | cons first rest ih =>
    intro hs
    simp only [List.map_cons, List.pairwise_cons] at hs
    by_cases hp : first.expiration ≤ head_block_time
    · have hn : ¬ head_block_time < first.expiration := by omega
      simp [hp, hn, ih hs.2]
    · have hn : head_block_time < first.expiration := by omega
      have hall : ∀ a ∈ rest, decide (head_block_time < a.expiration) = true := by
        intro a ha
        have := hs.1 a.expiration (List.mem_map_of_mem _ ha)
        simp
        omega
      simp [hp, hn, List.filter_eq_self.2 hall]

/-- C16: the dedup sweep at a concrete index: at head time 30 the index holds a record that
expired at 10 and a record that expires at 40; the sweep tests the last record only, which has
not expired, and removes nothing, so the expired record remains. -/
theorem clear_expired_transactions_keeps_expired :
    clear_expired_transactions (sweep_state [⟨1, 10⟩, ⟨2, 40⟩] []) =
      sweep_state [⟨1, 10⟩, ⟨2, 40⟩] [] ∧
    (sweep_state [⟨1, 10⟩, ⟨2, 40⟩] []).dgp.time = 30 := by
  decide

/-- C17: `clear_expired_transactions` and `update_withdraw_permissions` are idempotent and
leave a state with an empty index as it is; `update_withdraw_permissions` changes the
withdraw-permission index only, and on an index in ascending order of expiration it removes
exactly the permissions with `expiration <= head_block_time`. -/
theorem expiration_sweeps_idempotent (db : database) :
    clear_expired_transactions (clear_expired_transactions db) = clear_expired_transactions db ∧
    (db.transactions = [] → clear_expired_transactions db = db) ∧
    update_withdraw_permissions (update_withdraw_permissions db) =
      update_withdraw_permissions db ∧
    (db.withdraw_permissions = [] → update_withdraw_permissions db = db) ∧
    update_withdraw_permissions db =
      { db with withdraw_permissions := (update_withdraw_permissions db).withdraw_permissions } ∧
    ((db.withdraw_permissions.map (fun p => p.expiration)).Pairwise (· ≤ ·) →
      (update_withdraw_permissions db).withdraw_permissions =
        db.withdraw_permissions.filter (fun p => decide (db.dgp.time < p.expiration))) := by
  refine ⟨?_, ?_, ?_, ?_, rfl, ?_⟩
  · rw [clear_expired_transactions_eq db, clear_expired_transactions_eq]
    simp only [List.rdropWhile_idempotent]
  · intro h
    rw [clear_expired_transactions_eq, h]
    cases db
    simp_all
  · simp only [update_withdraw_permissions, update_withdraw_permissions_loop_eq,
      List.dropWhile_idempotent]
  · intro h
    simp only [update_withdraw_permissions, h, update_withdraw_permissions_loop]
    cases db
    simp_all
  · intro hs
    simp only [update_withdraw_permissions, update_withdraw_permissions_loop_eq]
    exact dropWhile_eq_filter_of_sorted _ _ hs

/-- C17, at a concrete state at head time 30: of the permissions expiring at 10, 30 and 40 the
first two are removed, and a second sweep changes nothing. -/
theorem expiration_sweeps_idempotent_witness :
    (update_withdraw_permissions (sweep_state [] [⟨1, 10⟩, ⟨2, 30⟩, ⟨3, 40⟩])).withdraw_permissions
      = [⟨3, 40⟩] ∧
    update_withdraw_permissions
        (update_withdraw_permissions (sweep_state [] [⟨1, 10⟩, ⟨2, 30⟩, ⟨3, 40⟩])) =
      update_withdraw_permissions (sweep_state [] [⟨1, 10⟩, ⟨2, 30⟩, ⟨3, 40⟩]) ∧
    clear_expired_transactions (sweep_state [] []) = sweep_state [] [] :=
  ⟨((expiration_sweeps_idempotent (sweep_state [] [⟨1, 10⟩, ⟨2, 30⟩, ⟨3, 40⟩])).2.2.2.2.2
      (by decide)).trans (by decide),
    (expiration_sweeps_idempotent (sweep_state [] [⟨1, 10⟩, ⟨2, 30⟩, ⟨3, 40⟩])).2.2.1,
    (expiration_sweeps_idempotent (sweep_state [] [])).2.1 rfl⟩

/-- The half of C16 that holds: the dedup sweep keeps every record whose expiration is at or
after the head block time. -/
theorem clear_expired_transactions_keeps_unexpired (db : database) (t : transaction_object)
    (ht : t ∈ db.transactions) (hexp : db.dgp.time ≤ t.expiration) :
    t ∈ (clear_expired_transactions db).transactions := by
  rw [clear_expired_transactions_eq]
  show t ∈ db.transactions.rdropWhile (fun t => decide (db.dgp.time > t.expiration))
  generalize db.transactions = l at ht
  induction l using List.reverseRecOn with
  | nil => cases ht
  | append_singleton init last ih =>
    rw [List.rdropWhile_concat]
    by_cases hp : db.dgp.time > last.expiration
    · simp only [hp, decide_True, if_true]
      rcases List.mem_append.1 ht with h | h
      · exact ih h
      · simp only [List.mem_singleton] at h
        subst h
        omega
    · simp only [hp, decide_False, Bool.false_eq_true, if_false]
      exact ht

/-! ## `check_for_blackswan` without bids -/

/-- C18, as stated, fails: with feed settlement price 10, no limit order at all and a short
position of debt 10 against collateral 1 there is no bid, and the function settles the asset at
the price 10 and returns true. -/
theorem blackswan_without_bids_counterexample :
    highest_bid default_config
        (market_state (usd_bitasset (usd_per_core 10 1) null_price) [short_position 10 1] [])
        usd_asset (usd_bitasset (usd_per_core 10 1) null_price) = .ok none ∧
    (usd_bitasset (usd_per_core 10 1) null_price).has_settlement = false ∧
    usd_asset.is_market_issued = true ∧
    check_for_blackswan default_config record_settlement
        (market_state (usd_bitasset (usd_per_core 10 1) null_price) [short_position 10 1] [])
        usd_asset true =
      .ok (true, market_state (usd_bitasset (usd_per_core 10 1) (usd_per_core 10 1))
        [short_position 10 1] []) := by
  decide

/-- C18, amended: for a market-issued asset with no settlement price recorded, if there is no
valid price feed then there is no black swan: the function returns false and leaves the state
unchanged, whatever the call orders and the flag are; if there are no bids the feed price
decides alone: with a first call order `c` the function, with the trigger enabled, settles the
asset at the swan price `LC` of `c` and returns true when `SP <= LC`, and otherwise returns
false and leaves the state unchanged. -/
theorem check_for_blackswan_no_feed_or_no_bids (cfg : chain_config)
    (gsa : database → asset_object → price → Except exception database)
    (db : database) (mia : asset_object) (bid : Nat) (bitasset : asset_bitasset_data_object)
    (hmia : mia.bitasset_data_id = some bid)
    (hbit : db.get_bitasset bid = .ok bitasset)
    (hset : bitasset.has_settlement = false) :
    (bitasset.current_feed.settlement_price.is_null = true →
      ∀ enable, check_for_blackswan cfg gsa db mia enable = .ok (false, db)) ∧
    (bitasset.current_feed.settlement_price.is_null = false →
      highest_bid cfg db mia bitasset = .ok none →
      ∀ c, first_call_order cfg db mia bitasset = .ok (some c) →
        c.call_price.base.asset_id ≠ c.call_price.quote.asset_id →
        check_for_blackswan cfg gsa db mia true =
          if bitasset.current_feed.settlement_price.le (swan_price c) then
            (gsa db mia (swan_price c)).map (fun db' => (true, db'))
          else .ok (false, db)) := by
  constructor
  · intro hn enable
    simp [check_for_blackswan, hmia, hbit, hset, hn, bind, Except.bind]
  · intro hfeed hbid c hcall hpair
    have hLC : c.collateralization = .ok (swan_price c).inv :=
      (collateralization_eq_ok_iff c _).2 ⟨hpair, rfl⟩
    rw [check_for_blackswan_past_exits cfg gsa db mia bid bitasset c _ none true hmia hbit hset
      hfeed hcall hLC hbid (by intro o ho; cases ho)]
    simp [price.ge_eq_le, max_bid_or_feed]

/-- C18, amended, at concrete states: with a null feed and an under-collateralized position the
function returns false; with feed 10, no bids and a position of debt 5 against collateral 1 it
returns false; with debt 10 against collateral 1 it settles at 10. -/
theorem check_for_blackswan_no_feed_or_no_bids_witness :
    check_for_blackswan default_config record_settlement
        (market_state (usd_bitasset null_price null_price) [short_position 11 1] [])
        usd_asset true =
      .ok (false, market_state (usd_bitasset null_price null_price) [short_position 11 1] []) ∧
    check_for_blackswan default_config record_settlement
        (market_state (usd_bitasset (usd_per_core 10 1) null_price) [short_position 5 1] [])
        usd_asset true =
      .ok (false,
        market_state (usd_bitasset (usd_per_core 10 1) null_price) [short_position 5 1] []) ∧
    check_for_blackswan default_config record_settlement
        (market_state (usd_bitasset (usd_per_core 10 1) null_price) [short_position 10 1] [])
        usd_asset true =
      .ok (true, market_state (usd_bitasset (usd_per_core 10 1) (usd_per_core 10 1))
        [short_position 10 1] []) :=
  ⟨(check_for_blackswan_no_feed_or_no_bids default_config record_settlement
      (market_state (usd_bitasset null_price null_price) [short_position 11 1] [])
      usd_asset 7 (usd_bitasset null_price null_price) rfl rfl rfl).1 rfl true,
    ((check_for_blackswan_no_feed_or_no_bids default_config record_settlement
      (market_state (usd_bitasset (usd_per_core 10 1) null_price) [short_position 5 1] [])
      usd_asset 7 (usd_bitasset (usd_per_core 10 1) null_price) rfl rfl rfl).2 rfl rfl
      (short_position 5 1) rfl (by decide)).trans (by decide),
    ((check_for_blackswan_no_feed_or_no_bids default_config record_settlement
      (market_state (usd_bitasset (usd_per_core 10 1) null_price) [short_position 10 1] [])
      usd_asset 7 (usd_bitasset (usd_per_core 10 1) null_price) rfl rfl rfl).2 rfl rfl
      (short_position 10 1) rfl (by decide)).trans (by decide)⟩

/-! ## The payout of a force settlement -/

set_option maxRecDepth 100000

theorem FC_ASSERT_bind {α : Type} (c : Bool) (f : Unit → Except exception α) :
    (FC_ASSERT c >>= f) = if c = true then f () else .error .assert_exception := by
  cases c <;> rfl

theorem assert_bind {α : Type} (c : Bool) (f : Unit → Except exception α) :
    (assert c >>= f) = if c = true then f () else .error .assertion_failed := by
  cases c <;> rfl

theorem to_uint128_natCast (n : Nat) (h : n < 2 ^ 128) : to_uint128 (n : Int) = n := by
  unfold to_uint128
  omega

theorem to_int64_natCast (n : Nat) (h : n < 2 ^ 63) : to_int64 n = (n : Int) := by
  unfold to_int64
  have h1 : n % 2 ^ 64 = n := Nat.mod_eq_of_lt (by omega)
  rw [h1, if_pos h]

/-- The conversion `a * p` with the assertions written as conditions. -/
theorem mul_price_eq (cfg : chain_config) (a : asset) (p : price) :
    a.mul_price cfg p =
      if a.asset_id = p.base.asset_id then
        if p.base.amount > 0 then
          if (to_uint128 a.amount * to_uint128 p.quote.amount) % 2 ^ 128
              / to_uint128 p.base.amount ≤ to_uint128 cfg.GRAPHENE_MAX_SHARE_SUPPLY then
            .ok ⟨to_int64 ((to_uint128 a.amount * to_uint128 p.quote.amount) % 2 ^ 128
              / to_uint128 p.base.amount), p.quote.asset_id⟩
          else .error .assert_exception
        else .error .assert_exception
      else if a.asset_id = p.quote.asset_id then
        if p.quote.amount > 0 then
          if (to_uint128 a.amount * to_uint128 p.base.amount) % 2 ^ 128
              / to_uint128 p.quote.amount ≤ to_uint128 cfg.GRAPHENE_MAX_SHARE_SUPPLY then
            .ok ⟨to_int64 ((to_uint128 a.amount * to_uint128 p.base.amount) % 2 ^ 128
              / to_uint128 p.quote.amount), p.base.asset_id⟩
          else .error .assert_exception
        else .error .assert_exception
      else .error .assert_exception := by
  simp only [asset.mul_price, FC_ASSERT_bind, decide_eq_true_eq, pure, Except.pure]

/-- A conversion `a * p` that succeeds gives an amount between 0 and the maximum share supply,
when that maximum is a 64-bit share amount. -/
theorem mul_price_ok_range (cfg : chain_config) (a : asset) (p : price) (r : asset)
    (hmax0 : 0 ≤ cfg.GRAPHENE_MAX_SHARE_SUPPLY) (hmax : cfg.GRAPHENE_MAX_SHARE_SUPPLY < 2 ^ 63)
    (h : a.mul_price cfg p = .ok r) :
    0 ≤ r.amount ∧ r.amount ≤ cfg.GRAPHENE_MAX_SHARE_SUPPLY ∧
      (r.asset_id = p.quote.asset_id ∨ r.asset_id = p.base.asset_id) := by
  obtain ⟨M, hM⟩ := Int.eq_ofNat_of_zero_le hmax0
  have hM63 : M < 2 ^ 63 := by omega
  have key : ∀ n : Nat, n ≤ to_uint128 cfg.GRAPHENE_MAX_SHARE_SUPPLY →
      0 ≤ to_int64 n ∧ to_int64 n ≤ cfg.GRAPHENE_MAX_SHARE_SUPPLY := by
    intro n hn
    rw [hM, to_uint128_natCast M (by omega)] at hn
    rw [to_int64_natCast n (by omega), hM]
    omega
  rw [mul_price_eq] at h
  split at h
  · split at h
    · split at h
      · rename_i hle
        cases h
        exact ⟨(key _ hle).1, (key _ hle).2, Or.inl rfl⟩
      · cases h
    · cases h
  · split at h
    · split at h
      · split at h
        · rename_i hle
          cases h
          exact ⟨(key _ hle).1, (key _ hle).2, Or.inr rfl⟩
        · cases h
      · cases h
    · cases h

/-- The payout when the conversion of the balance succeeds. -/
theorem settlement_payout_of_converted (cfg : chain_config) (order : force_settlement_object)
    (mia : asset_bitasset_data_object) (converted : asset)
    (hconv : order.balance.mul_price cfg mia.current_feed.settlement_price = .ok converted) :
    settlement_payout cfg order mia =
      (do
        let within ← asset.le ⟨offset_receives cfg mia converted.amount, converted.asset_id⟩
          converted
        assert within
        let settlement_price ← asset.div order.balance
          ⟨offset_receives cfg mia converted.amount, converted.asset_id⟩
        pure (order.balance, ⟨offset_receives cfg mia converted.amount, converted.asset_id⟩,
          settlement_price)) := by
  simp only [settlement_payout, hconv, bind, Except.bind]

/-- The amount after the offset for a converted amount between 0 and 2^63 and an offset of at
most 100%: nothing wraps in 128 bits, nothing is lost in 64 bits. -/
theorem offset_receives_eval (cfg : chain_config) (mia : asset_bitasset_data_object) (C : Nat)
    (hC : C < 2 ^ 63)
    (hf : mia.options.force_settlement_offset_percent ≤ cfg.GRAPHENE_100_PERCENT)
    (hH64 : cfg.GRAPHENE_100_PERCENT < 2 ^ 64) :
    to_uint128 (C : Int) * to_uint128 ((cfg.GRAPHENE_100_PERCENT : Int) -
        (mia.options.force_settlement_offset_percent : Int)) < 2 ^ 128 ∧
    C * (cfg.GRAPHENE_100_PERCENT - mia.options.force_settlement_offset_percent)
      / cfg.GRAPHENE_100_PERCENT < 2 ^ 63 ∧
    C * (cfg.GRAPHENE_100_PERCENT - mia.options.force_settlement_offset_percent)
      / cfg.GRAPHENE_100_PERCENT ≤ C ∧
    offset_receives cfg mia (C : Int) =
      ((C * (cfg.GRAPHENE_100_PERCENT - mia.options.force_settlement_offset_percent)
        / cfg.GRAPHENE_100_PERCENT : Nat) : Int) := by
  unfold offset_receives
  generalize cfg.GRAPHENE_100_PERCENT = H at *
  generalize mia.options.force_settlement_offset_percent = f at *
  have h1 : to_uint128 (C : Int) = C := to_uint128_natCast C (by omega)
  have h2 : to_uint128 ((H : Int) - (f : Int)) = H - f := by
    rw [← Nat.cast_sub hf]
    exact to_uint128_natCast _ (by omega)
  have h3 : to_uint128 (H : Int) = H := to_uint128_natCast H (by omega)
  have hprod : C * (H - f) < 2 ^ 128 := by
    calc C * (H - f) ≤ 2 ^ 63 * 2 ^ 64 :=
          Nat.mul_le_mul (Nat.le_of_lt hC) (by omega)
      _ < 2 ^ 128 := by norm_num
  have hle : C * (H - f) / H ≤ C := by
    rcases Nat.eq_zero_or_pos H with h0 | hpos
    · subst h0
      simp
    · apply Nat.div_le_of_le_mul
      rw [Nat.mul_comm H C]
      exact Nat.mul_le_mul_left C (Nat.sub_le H f)
  refine ⟨by rw [h1, h2]; exact hprod, by omega, hle, ?_⟩
  rw [h1, h2, h3, Nat.mod_eq_of_lt hprod]
  exact to_int64_natCast _ (by omega)

theorem mul_price_error (cfg : chain_config) (a : asset) (p : price) (e : exception)
    (h : a.mul_price cfg p = .error e) : e = .assert_exception := by
  rw [mul_price_eq] at h
  repeat' split at h
  all_goals (cases h <;> rfl)

/-- The conversion of an amount of the base asset of a price: `B * q / b`, rounded down. -/
theorem mul_price_base_eval (cfg : chain_config) (a : asset) (p : price) (B q b M : Nat)
    (hside : a.asset_id = p.base.asset_id)
    (hB : a.amount = (B : Int)) (hq : p.quote.amount = (q : Int))
    (hb : p.base.amount = (b : Int))
    (hB63 : B < 2 ^ 63) (hq63 : q < 2 ^ 63) (hb63 : b < 2 ^ 63) (hbpos : 0 < b)
    (hM : cfg.GRAPHENE_MAX_SHARE_SUPPLY = (M : Int)) (hM63 : M < 2 ^ 63)
    (hfit : B * q / b ≤ M) :
    a.mul_price cfg p = .ok ⟨((B * q / b : Nat) : Int), p.quote.asset_id⟩ := by
  have hprod : B * q < 2 ^ 128 := by
    calc B * q ≤ 2 ^ 63 * 2 ^ 63 := Nat.mul_le_mul (Nat.le_of_lt hB63) (Nat.le_of_lt hq63)
      _ < 2 ^ 128 := by norm_num
  rw [mul_price_eq, if_pos hside, hB, hq, hb, hM, to_uint128_natCast B (by omega),
    to_uint128_natCast q (by omega), to_uint128_natCast b (by omega),
    to_uint128_natCast M (by omega), Nat.mod_eq_of_lt hprod,
    if_pos (by exact_mod_cast hbpos), if_pos hfit, to_int64_natCast _ (by omega)]

theorem asset_le_of_amount_le (a b : asset) (hid : a.asset_id = b.asset_id)
    (h : a.amount ≤ b.amount) : a.le b = .ok true := by
  unfold asset.le
  by_cases hab : a = b
  · rw [if_pos hab]
    rfl
  · rw [if_neg hab]
    have hlt : a.amount < b.amount := by
      rcases lt_or_eq_of_le h with h1 | h1
      · exact h1
      · exfalso
        apply hab
        cases a
        cases b
        simp_all
    simp [asset.lt, FC_ASSERT_bind, hid, hlt, pure, Except.pure]

/-- C20: the assertion `receives <= order.balance * settlement_price` of `clear_expired_orders`
cannot fail. For an offset of at most 100%, a percentage base below 2^64 and a maximum share
supply that is a 64-bit share amount, the payout never ends in a failed assertion, and for
every balance and feed price whose conversion `order.balance * settlement_price` succeeds: the
product with `100% - offset` does not wrap in the 128-bit intermediate, the quotient is below
2^64 so that `to_uint64()` loses nothing, the amount stored is that quotient, it is between 0
and the un-offset conversion, and the comparison of the assertion is true. -/
theorem settlement_assertion_cannot_fail (cfg : chain_config) (order : force_settlement_object)
    (mia : asset_bitasset_data_object)
    (hf : mia.options.force_settlement_offset_percent ≤ cfg.GRAPHENE_100_PERCENT)
    (hH64 : cfg.GRAPHENE_100_PERCENT < 2 ^ 64)
    (hmax0 : 0 ≤ cfg.GRAPHENE_MAX_SHARE_SUPPLY)
    (hmax : cfg.GRAPHENE_MAX_SHARE_SUPPLY < 2 ^ 63) :
    settlement_payout cfg order mia ≠ .error .assertion_failed ∧
    ∀ converted, order.balance.mul_price cfg mia.current_feed.settlement_price = .ok converted →
      to_uint128 converted.amount * to_uint128 ((cfg.GRAPHENE_100_PERCENT : Int) -
        (mia.options.force_settlement_offset_percent : Int)) < 2 ^ 128 ∧
      (to_uint128 converted.amount * to_uint128 ((cfg.GRAPHENE_100_PERCENT : Int) -
        (mia.options.force_settlement_offset_percent : Int))) % 2 ^ 128
          / to_uint128 (cfg.GRAPHENE_100_PERCENT : Int) < 2 ^ 64 ∧
      offset_receives cfg mia converted.amount =
        (((to_uint128 converted.amount * to_uint128 ((cfg.GRAPHENE_100_PERCENT : Int) -
          (mia.options.force_settlement_offset_percent : Int))) % 2 ^ 128
            / to_uint128 (cfg.GRAPHENE_100_PERCENT : Int) : Nat) : Int) ∧
      0 ≤ offset_receives cfg mia converted.amount ∧
      offset_receives cfg mia converted.amount ≤ converted.amount ∧
      asset.le ⟨offset_receives cfg mia converted.amount, converted.asset_id⟩ converted
        = .ok true := by
  have main : ∀ converted,
      order.balance.mul_price cfg mia.current_feed.settlement_price = .ok converted →
      to_uint128 converted.amount * to_uint128 ((cfg.GRAPHENE_100_PERCENT : Int) -
        (mia.options.force_settlement_offset_percent : Int)) < 2 ^ 128 ∧
      (to_uint128 converted.amount * to_uint128 ((cfg.GRAPHENE_100_PERCENT : Int) -
        (mia.options.force_settlement_offset_percent : Int))) % 2 ^ 128
          / to_uint128 (cfg.GRAPHENE_100_PERCENT : Int) < 2 ^ 64 ∧
      offset_receives cfg mia converted.amount =
        (((to_uint128 converted.amount * to_uint128 ((cfg.GRAPHENE_100_PERCENT : Int) -
          (mia.options.force_settlement_offset_percent : Int))) % 2 ^ 128
            / to_uint128 (cfg.GRAPHENE_100_PERCENT : Int) : Nat) : Int) ∧
      0 ≤ offset_receives cfg mia converted.amount ∧
      offset_receives cfg mia converted.amount ≤ converted.amount ∧
      asset.le ⟨offset_receives cfg mia converted.amount, converted.asset_id⟩ converted
        = .ok true := by
    intro converted hconv
    obtain ⟨h0, hle, -⟩ := mul_price_ok_range cfg _ _ _ hmax0 hmax hconv
    obtain ⟨C, hC⟩ := Int.eq_ofNat_of_zero_le h0
    have hC63 : C < 2 ^ 63 := by omega
    obtain ⟨e1, e2, e3, e4⟩ := offset_receives_eval cfg mia C hC63 hf hH64
    have hH : to_uint128 (cfg.GRAPHENE_100_PERCENT : Int) = cfg.GRAPHENE_100_PERCENT :=
      to_uint128_natCast _ (by omega)
    have hHf : to_uint128 ((cfg.GRAPHENE_100_PERCENT : Int) -
        (mia.options.force_settlement_offset_percent : Int)) =
        cfg.GRAPHENE_100_PERCENT - mia.options.force_settlement_offset_percent := by
      rw [← Nat.cast_sub hf]
      exact to_uint128_natCast _ (by omega)
    have hCu : to_uint128 (C : Int) = C := to_uint128_natCast C (by omega)
    rw [hC]
    rw [hCu, hHf] at e1
    refine ⟨by rw [hCu, hHf]; exact e1, ?_, ?_, ?_, ?_, ?_⟩
    · rw [hCu, hHf, hH, Nat.mod_eq_of_lt e1]
      omega
    · rw [hCu, hHf, hH, Nat.mod_eq_of_lt e1]
      exact e4
    · rw [e4]
      exact Int.natCast_nonneg _
    · rw [e4]
      exact_mod_cast e3
    · apply asset_le_of_amount_le
      · rfl
      · show offset_receives cfg mia (C : Int) ≤ converted.amount
        rw [hC, e4]
        exact_mod_cast e3
  refine ⟨?_, main⟩
  cases hconv : order.balance.mul_price cfg mia.current_feed.settlement_price with
  | error e =>
    have he := mul_price_error cfg _ _ _ hconv
    subst he
    simp [settlement_payout, hconv, bind, Except.bind]
  | ok converted =>
    rw [settlement_payout_of_converted cfg order mia converted hconv,
      (main converted hconv).2.2.2.2.2]
    by_cases hid : order.balance.asset_id = converted.asset_id <;>
      simp [bind, Except.bind, assert, asset.div, FC_ASSERT, pure, Except.pure, hid]

/-- C20, at the scenario of the specification: the conversion of 1000 units at the price 2.0
is 2000 units, the amount after the offset of 1% is 1980 units, at most the conversion, and the
payout does not end in a failed assertion. -/
theorem settlement_assertion_cannot_fail_witness :
    asset.mul_price default_config (settle_request 1 1000 20).balance (usd_per_core 1 2)
      = .ok ⟨2000, 0⟩ ∧
    offset_receives default_config (settling_bitasset (usd_per_core 1 2) 100 500 0) 2000
      ≤ 2000 ∧
    settlement_payout default_config (settle_request 1 1000 20)
      (settling_bitasset (usd_per_core 1 2) 100 500 0) ≠ .error .assertion_failed :=
  ⟨by decide,
    ((settlement_assertion_cannot_fail default_config (settle_request 1 1000 20)
      (settling_bitasset (usd_per_core 1 2) 100 500 0) (by decide) (by decide) (by decide)
      (by decide)).2 ⟨2000, 0⟩ (by decide)).2.2.2.2.1,
    (settlement_assertion_cannot_fail default_config (settle_request 1 1000 20)
      (settling_bitasset (usd_per_core 1 2) 100 500 0) (by decide) (by decide) (by decide)
      (by decide)).1⟩

/-- The integer quotient of naturals is the floor of the rational quotient. -/
theorem natCast_div_eq_floor (n d : Nat) : ((n / d : Nat) : Int) = ⌊(n : ℚ) / (d : ℚ)⌋ := by
  have h := Rat.floor_intCast_div_natCast (n : Int) d
  rw [Int.cast_natCast] at h
  rw [h]
  norm_cast

/-- Rounding the conversion down before the offset loses at most one unit of the payout. -/
theorem floor_floor_mul_bounds (x n d : ℚ) (hr0 : 0 ≤ n / d) (hr1 : n / d ≤ 1) :
    ⌊(⌊x⌋ : ℚ) * n / d⌋ ≤ ⌊x * n / d⌋ ∧ ⌊x * n / d⌋ - 1 ≤ ⌊(⌊x⌋ : ℚ) * n / d⌋ := by
  rw [mul_div_assoc, mul_div_assoc]
  constructor
  · apply Int.floor_le_floor
    exact mul_le_mul_of_nonneg_right (Int.floor_le x) hr0
  · rw [← Int.floor_sub_one]
    apply Int.floor_le_floor
    have h1 : x - 1 ≤ (⌊x⌋ : ℚ) := le_of_lt (Int.sub_one_lt_floor x)
    have h2 : (x - 1) * (n / d) ≤ (⌊x⌋ : ℚ) * (n / d) := mul_le_mul_of_nonneg_right h1 hr0
    nlinarith

/-- An iteration of the force-settlement loop on a due request of an asset without global
settlement, with a valid feed and a settled volume below the cap in force: the payout is
computed, the request is matched at the price of the payout, and the volume is persisted. -/
theorem settlement_iteration_matching (eng : market_engine) (cfg : chain_config) (fuel : Nat)
    (s : settlement_loop_state) (order : force_settlement_object) (mia_object : asset_object)
    (mia : asset_bitasset_data_object) (cap : asset)
    (hreq : current_request s = .ok (some (order, mia_object, mia)))
    (hns : mia.has_settlement = false)
    (hdue : ¬ order.settlement_date > s.db.dgp.time)
    (hfeed : mia.current_feed.settlement_price.is_null = false)
    (hcap : cap_in_force eng s.db s.max_settlement_volume order.settlement_asset_id mia_object
      mia = .ok cap)
    (hbelow : mia.force_settled_volume < cap.amount) :
    settlement_iteration eng cfg fuel s =
      (do
        let payout ← settlement_payout cfg order mia
        let result ← match_settlement_loop eng cfg mia_object order.id payout.2.2 cap fuel s.db
          (mia_object.amount mia.force_settled_volume)
        pure (.again ⟨result.1.modify_bitasset mia
            (fun b => { b with force_settled_volume := result.2.amount }),
          order.settlement_asset_id, cap⟩)) := by
  have hge : ¬ mia.force_settled_volume ≥ cap.amount := not_le.2 hbelow
  simp only [settlement_iteration, hreq, bind, Except.bind, hns, hfeed, hcap, if_neg hdue,
    if_neg hge, Bool.false_eq_true, if_false]

/-- C14, as stated, fails: a request for 2999 units at the feed price 1/1000 and the offset 1%
receives 1 unit: the conversion is rounded down to 2 units first and 2 * 9900 / 10000 is
rounded down again, while floor(2999 * (1/1000) * 9900 / 10000) = floor(2.96901) = 2. -/
theorem settlement_payout_rounds_twice_counterexample :
    settlement_payout default_config (settle_request 1 2999 20)
        (settling_bitasset (usd_per_core 1000 1) 100 500 0) =
      .ok (⟨2999, 1⟩, ⟨1, 0⟩, ⟨⟨2999, 1⟩, ⟨1, 0⟩⟩) ∧
    settlement_payout_rule default_config 2999 (1 / 1000) 100 = 2 := by
  constructor
  · decide
  · norm_num [settlement_payout_rule, default_config, Int.floor_eq_iff]

/-- C14, amended: for a request with balance `B` of the base asset of the feed settlement price
`P = q / b` and the offset `f <= 100%`, with the conversion within the maximum share supply,
`clear_expired_orders` computes `receives = floor(floor(B * P) * (100% - f) / 100%)`: the
conversion `order.balance * settlement_price` is rounded down to a whole amount before the
offset is applied. The result is the value `floor(B * P * (100% - f) / 100%)` of the
specification or one unit less, `pays` is the balance, and the price handed to the matching of
the request is `pays / receives`. -/
theorem settlement_payout_floors_conversion_first (cfg : chain_config)
    (order : force_settlement_object) (mia : asset_bitasset_data_object) (B q b M : Nat)
    (hside : order.balance.asset_id = mia.current_feed.settlement_price.base.asset_id)
    (hpair : mia.current_feed.settlement_price.base.asset_id ≠
      mia.current_feed.settlement_price.quote.asset_id)
    (hB : order.balance.amount = (B : Int))
    (hq : mia.current_feed.settlement_price.quote.amount = (q : Int))
    (hb : mia.current_feed.settlement_price.base.amount = (b : Int))
    (hB63 : B < 2 ^ 63) (hq63 : q < 2 ^ 63) (hb63 : b < 2 ^ 63) (hbpos : 0 < b)
    (hf : mia.options.force_settlement_offset_percent ≤ cfg.GRAPHENE_100_PERCENT)
    (hH64 : cfg.GRAPHENE_100_PERCENT < 2 ^ 64)
    (hM : cfg.GRAPHENE_MAX_SHARE_SUPPLY = (M : Int)) (hM63 : M < 2 ^ 63)
    (hfit : B * q / b ≤ M) :
    settlement_payout cfg order mia =
      .ok (order.balance,
        ⟨((B * q / b * (cfg.GRAPHENE_100_PERCENT - mia.options.force_settlement_offset_percent)
            / cfg.GRAPHENE_100_PERCENT : Nat) : Int),
          mia.current_feed.settlement_price.quote.asset_id⟩,
        ⟨order.balance,
          ⟨((B * q / b *
              (cfg.GRAPHENE_100_PERCENT - mia.options.force_settlement_offset_percent)
              / cfg.GRAPHENE_100_PERCENT : Nat) : Int),
            mia.current_feed.settlement_price.quote.asset_id⟩⟩) ∧
    ((B * q / b * (cfg.GRAPHENE_100_PERCENT - mia.options.force_settlement_offset_percent)
        / cfg.GRAPHENE_100_PERCENT : Nat) : Int) =
      ⌊((⌊(B : ℚ) * ((q : ℚ) / (b : ℚ))⌋ : Int) : ℚ) *
        ((cfg.GRAPHENE_100_PERCENT : ℚ) - (mia.options.force_settlement_offset_percent : ℚ))
          / (cfg.GRAPHENE_100_PERCENT : ℚ)⌋ ∧
    ((B * q / b * (cfg.GRAPHENE_100_PERCENT - mia.options.force_settlement_offset_percent)
        / cfg.GRAPHENE_100_PERCENT : Nat) : Int) ≤
      settlement_payout_rule cfg (B : Int) ((q : ℚ) / (b : ℚ))
        mia.options.force_settlement_offset_percent ∧
    settlement_payout_rule cfg (B : Int) ((q : ℚ) / (b : ℚ))
        mia.options.force_settlement_offset_percent - 1 ≤
      ((B * q / b * (cfg.GRAPHENE_100_PERCENT - mia.options.force_settlement_offset_percent)
        / cfg.GRAPHENE_100_PERCENT : Nat) : Int) ∧
    ∀ (eng : market_engine) (fuel : Nat) (s : settlement_loop_state)
      (mia_object : asset_object) (cap : asset),
      current_request s = .ok (some (order, mia_object, mia)) →
      mia.has_settlement = false →
      ¬ order.settlement_date > s.db.dgp.time →
      mia.current_feed.settlement_price.is_null = false →
      cap_in_force eng s.db s.max_settlement_volume order.settlement_asset_id mia_object mia
        = .ok cap →
      mia.force_settled_volume < cap.amount →
      settlement_iteration eng cfg fuel s =
        (do
          let result ← match_settlement_loop eng cfg mia_object order.id
            ⟨order.balance,
              ⟨((B * q / b *
                  (cfg.GRAPHENE_100_PERCENT - mia.options.force_settlement_offset_percent)
                  / cfg.GRAPHENE_100_PERCENT : Nat) : Int),
                mia.current_feed.settlement_price.quote.asset_id⟩⟩
            cap fuel s.db (mia_object.amount mia.force_settled_volume)
          pure (.again ⟨result.1.modify_bitasset mia
              (fun b => { b with force_settled_volume := result.2.amount }),
            order.settlement_asset_id, cap⟩)) := by
  have hconv := mul_price_base_eval cfg order.balance mia.current_feed.settlement_price
    B q b M hside hB hq hb hB63 hq63 hb63 hbpos hM hM63 hfit
  have hC63 : B * q / b < 2 ^ 63 := by omega
  obtain ⟨-, -, e3, e4⟩ := offset_receives_eval cfg mia (B * q / b) hC63 hf hH64
  have hpay : settlement_payout cfg order mia =
      .ok (order.balance,
        ⟨((B * q / b * (cfg.GRAPHENE_100_PERCENT - mia.options.force_settlement_offset_percent)
            / cfg.GRAPHENE_100_PERCENT : Nat) : Int),
          mia.current_feed.settlement_price.quote.asset_id⟩,
        ⟨order.balance,
          ⟨((B * q / b *
              (cfg.GRAPHENE_100_PERCENT - mia.options.force_settlement_offset_percent)
              / cfg.GRAPHENE_100_PERCENT : Nat) : Int),
            mia.current_feed.settlement_price.quote.asset_id⟩⟩) := by
    rw [settlement_payout_of_converted cfg order mia _ hconv]
    simp only [e4]
    have hle := asset_le_of_amount_le
      ⟨((B * q / b * (cfg.GRAPHENE_100_PERCENT - mia.options.force_settlement_offset_percent)
        / cfg.GRAPHENE_100_PERCENT : Nat) : Int),
        mia.current_feed.settlement_price.quote.asset_id⟩
      ⟨((B * q / b : Nat) : Int), mia.current_feed.settlement_price.quote.asset_id⟩ rfl
      (Int.ofNat_le.2 e3)
    rw [hle]
    have hid : order.balance.asset_id ≠ mia.current_feed.settlement_price.quote.asset_id := by
      rw [hside]
      exact hpair
    simp [bind, Except.bind, assert, asset.div, FC_ASSERT, pure, Except.pure, hid]
  have hc : ((B * q / b : Nat) : Int) = ⌊(B : ℚ) * ((q : ℚ) / (b : ℚ))⌋ := by
    rw [natCast_div_eq_floor, Nat.cast_mul, mul_div_assoc]
  have hcode : ((B * q / b *
      (cfg.GRAPHENE_100_PERCENT - mia.options.force_settlement_offset_percent)
        / cfg.GRAPHENE_100_PERCENT : Nat) : Int) =
      ⌊((⌊(B : ℚ) * ((q : ℚ) / (b : ℚ))⌋ : Int) : ℚ) *
        ((cfg.GRAPHENE_100_PERCENT : ℚ) - (mia.options.force_settlement_offset_percent : ℚ))
          / (cfg.GRAPHENE_100_PERCENT : ℚ)⌋ := by
    rw [natCast_div_eq_floor, Nat.cast_mul, Nat.cast_sub hf, ← hc, Int.cast_natCast]
  have hr0 : (0 : ℚ) ≤ ((cfg.GRAPHENE_100_PERCENT : ℚ) -
      (mia.options.force_settlement_offset_percent : ℚ)) / (cfg.GRAPHENE_100_PERCENT : ℚ) := by
    apply div_nonneg
    · rw [sub_nonneg]
      exact_mod_cast hf
    · exact Nat.cast_nonneg _
  have hr1 : ((cfg.GRAPHENE_100_PERCENT : ℚ) -
      (mia.options.force_settlement_offset_percent : ℚ)) / (cfg.GRAPHENE_100_PERCENT : ℚ)
        ≤ 1 := by
    apply div_le_one_of_le₀
    · linarith [(Nat.cast_nonneg mia.options.force_settlement_offset_percent : (0 : ℚ) ≤ _)]
    · exact Nat.cast_nonneg _
  have hbounds := floor_floor_mul_bounds ((B : ℚ) * ((q : ℚ) / (b : ℚ))) _ _ hr0 hr1
  rw [← hcode] at hbounds
  have hrule : settlement_payout_rule cfg (B : Int) ((q : ℚ) / (b : ℚ))
      mia.options.force_settlement_offset_percent =
      ⌊(B : ℚ) * ((q : ℚ) / (b : ℚ)) * ((cfg.GRAPHENE_100_PERCENT : ℚ) -
        (mia.options.force_settlement_offset_percent : ℚ)) / (cfg.GRAPHENE_100_PERCENT : ℚ)⌋ := by
    simp only [settlement_payout_rule, Int.cast_natCast]
  refine ⟨hpay, hcode, ?_, ?_, ?_⟩
  · rw [hrule]
    exact hbounds.1
  · rw [hrule]
    exact hbounds.2
  · intro eng fuel s mia_object cap hreq hns hdue hfeed hcap hbelow
    rw [settlement_iteration_matching eng cfg fuel s order mia_object mia cap hreq hns hdue
      hfeed hcap hbelow, hpay]
    rfl

/-- C14, amended, at the scenario of the specification: a request for 1000 units at the feed
price 2.0 with the offset 1% receives 1980 units, at the match price 1000 / 1980. -/
theorem settlement_payout_floors_conversion_first_witness :
    settlement_payout default_config (settle_request 1 1000 20)
        (settling_bitasset (usd_per_core 1 2) 100 500 0) =
      .ok (⟨1000, 1⟩, ⟨1980, 0⟩, ⟨⟨1000, 1⟩, ⟨1980, 0⟩⟩) :=
  (settlement_payout_floors_conversion_first default_config (settle_request 1 1000 20)
    (settling_bitasset (usd_per_core 1 2) 100 500 0) 1000 2 1 1000000000000000
    rfl (by decide) rfl rfl rfl (by decide) (by decide) (by decide) (by decide) (by decide)
    (by decide) rfl (by decide) (by decide)).1.trans (by decide)

/-! ## Index safety of `update_last_irreversible_block` -/

theorem get_witnesses_length (db : database) :
    ∀ (ids : List Nat) (wit_objs : List witness_object),
      get_witnesses db ids = .ok wit_objs → wit_objs.length = ids.length := by
  intro ids
  induction ids with
  | nil =>
    intro wit_objs h
    simp only [get_witnesses] at h
    injection h with h
    subst h
    rfl
  | cons wid rest ih =>
    intro wit_objs h
    simp only [get_witnesses, bind, Except.bind, pure, Except.pure] at h
    cases hwit : db.get_witness wid with
    | error e => simp [hwit] at h
    | ok w =>
      cases hrest : get_witnesses db rest with
      | error e => simp [hwit, hrest] at h
      | ok ws =>
        simp only [hwit, hrest] at h
        injection h with h
        subst h
        simp [ih ws hrest]

/-- The selection offset is below the number of witnesses of a non-empty list, whether or not
the 64-bit product wraps. -/
theorem irreversible_offset_lt_length (cfg : chain_config) (n : Nat)
    (hT0 : 0 < cfg.GRAPHENE_IRREVERSIBLE_THRESHOLD)
    (hT : cfg.GRAPHENE_IRREVERSIBLE_THRESHOLD ≤ cfg.GRAPHENE_100_PERCENT)
    (hH64 : cfg.GRAPHENE_100_PERCENT < 2 ^ 64)
    (hn : 0 < n) :
    irreversible_offset cfg n < n := by
  unfold irreversible_offset
  have h2 : (cfg.GRAPHENE_100_PERCENT + 2 ^ 64 - cfg.GRAPHENE_IRREVERSIBLE_THRESHOLD) % 2 ^ 64 =
      cfg.GRAPHENE_100_PERCENT - cfg.GRAPHENE_IRREVERSIBLE_THRESHOLD := by
    have : cfg.GRAPHENE_100_PERCENT + 2 ^ 64 - cfg.GRAPHENE_IRREVERSIBLE_THRESHOLD =
        (cfg.GRAPHENE_100_PERCENT - cfg.GRAPHENE_IRREVERSIBLE_THRESHOLD) + 2 ^ 64 := by omega
    rw [this, Nat.add_mod_right, Nat.mod_eq_of_lt (by omega)]
  have hH : 0 < cfg.GRAPHENE_100_PERCENT := lt_of_lt_of_le hT0 hT
  rw [h2, Nat.div_lt_iff_lt_mul hH]
  have hlt : cfg.GRAPHENE_100_PERCENT - cfg.GRAPHENE_IRREVERSIBLE_THRESHOLD
      < cfg.GRAPHENE_100_PERCENT := by omega
  calc (cfg.GRAPHENE_100_PERCENT - cfg.GRAPHENE_IRREVERSIBLE_THRESHOLD) * n % 2 ^ 64
      ≤ (cfg.GRAPHENE_100_PERCENT - cfg.GRAPHENE_IRREVERSIBLE_THRESHOLD) * n :=
        Nat.mod_le _ _
    _ < cfg.GRAPHENE_100_PERCENT * n := Nat.mul_lt_mul_of_pos_right hlt hn
    _ = n * cfg.GRAPHENE_100_PERCENT := Nat.mul_comm _ _

/-- C21: index safety of `update_last_irreversible_block`. The list `wit_objs` has one entry
for every active witness. When it is not empty and the threshold `T` satisfies
`0 < T <= 100%`, the offset `floor((100% - T) * n / 100%)` is below `n`, the offset the code
computes in 64-bit arithmetic is below `n` too and is that value when the product fits in 64
bits, and, whatever rearrangement `std::nth_element` makes within what the standard promises,
the read `wit_objs[offset]` finds an element and the function returns. When the list is
empty, the offset is 0, there is no element at position 0, and the read is out of range. -/
theorem irreversible_offset_index_safety
    (nth : List witness_object → Nat → List witness_object) (cfg : chain_config)
    (db : database) (wit_objs : List witness_object)
    (hT0 : 0 < cfg.GRAPHENE_IRREVERSIBLE_THRESHOLD)
    (hT : cfg.GRAPHENE_IRREVERSIBLE_THRESHOLD ≤ cfg.GRAPHENE_100_PERCENT)
    (hH64 : cfg.GRAPHENE_100_PERCENT < 2 ^ 64)
    (hw : get_witnesses db db.gpo.active_witnesses = .ok wit_objs)
    (hnth : nth_element_post wit_objs
      (nth wit_objs (irreversible_offset cfg wit_objs.length))
      (irreversible_offset cfg wit_objs.length)) :
    wit_objs.length = db.gpo.active_witnesses.length ∧
    (wit_objs ≠ [] →
      (cfg.GRAPHENE_100_PERCENT - cfg.GRAPHENE_IRREVERSIBLE_THRESHOLD) * wit_objs.length
        / cfg.GRAPHENE_100_PERCENT < wit_objs.length ∧
      irreversible_offset cfg wit_objs.length < wit_objs.length ∧
      ((cfg.GRAPHENE_100_PERCENT - cfg.GRAPHENE_IRREVERSIBLE_THRESHOLD) * wit_objs.length
          < 2 ^ 64 →
        irreversible_offset cfg wit_objs.length =
          (cfg.GRAPHENE_100_PERCENT - cfg.GRAPHENE_IRREVERSIBLE_THRESHOLD) * wit_objs.length
            / cfg.GRAPHENE_100_PERCENT) ∧
      ∃ w,
        deref (nth wit_objs (irreversible_offset cfg wit_objs.length))
          (irreversible_offset cfg wit_objs.length) = .ok w ∧
        update_last_irreversible_block_with nth cfg db =
          .ok (if w.last_confirmed_block_num > db.dgp.last_irreversible_block_num then
            db.modify_dgp (fun d =>
              { d with last_irreversible_block_num := w.last_confirmed_block_num })
            else db)) ∧
    (wit_objs = [] →
      irreversible_offset cfg wit_objs.length = 0 ∧
      (nth wit_objs (irreversible_offset cfg wit_objs.length))[0]? = none ∧
      deref (nth wit_objs (irreversible_offset cfg wit_objs.length))
        (irreversible_offset cfg wit_objs.length) = .error .invalid_access ∧
      update_last_irreversible_block_with nth cfg db = .error .invalid_access) := by
  have hlen : (nth wit_objs (irreversible_offset cfg wit_objs.length)).length
      = wit_objs.length := hnth.1.length_eq
  refine ⟨get_witnesses_length db _ _ hw, ?_, ?_⟩
  · intro hne
    have hn : 0 < wit_objs.length := List.length_pos.2 hne
    have hH : 0 < cfg.GRAPHENE_100_PERCENT := lt_of_lt_of_le hT0 hT
    have hlt := irreversible_offset_lt_length cfg wit_objs.length hT0 hT hH64 hn
    refine ⟨?_, hlt, fun hsize => irreversible_offset_eq cfg _ hT hn hsize, ?_⟩
    · rw [Nat.div_lt_iff_lt_mul hH]
      have hlt2 : cfg.GRAPHENE_100_PERCENT - cfg.GRAPHENE_IRREVERSIBLE_THRESHOLD
          < cfg.GRAPHENE_100_PERCENT := by omega
      calc (cfg.GRAPHENE_100_PERCENT - cfg.GRAPHENE_IRREVERSIBLE_THRESHOLD) * wit_objs.length
          < cfg.GRAPHENE_100_PERCENT * wit_objs.length :=
            Nat.mul_lt_mul_of_pos_right hlt2 hn
        _ = wit_objs.length * cfg.GRAPHENE_100_PERCENT := Nat.mul_comm _ _
    · have hin : irreversible_offset cfg wit_objs.length
          < (nth wit_objs (irreversible_offset cfg wit_objs.length)).length := by
        rw [hlen]
        exact hlt
      have hsel : deref (nth wit_objs (irreversible_offset cfg wit_objs.length))
          (irreversible_offset cfg wit_objs.length) =
          .ok ((nth wit_objs (irreversible_offset cfg wit_objs.length)).get ⟨_, hin⟩) := by
        simp [deref, List.getElem?_eq_getElem hin]
      exact ⟨_, hsel, update_last_irreversible_block_with_eval nth cfg db wit_objs _ hw hsel⟩
  · intro hnil
    subst hnil
    have hoff : irreversible_offset cfg ([] : List witness_object).length = 0 := by
      simp [irreversible_offset]
    have hempty : nth [] (irreversible_offset cfg ([] : List witness_object).length) = [] :=
      List.length_eq_zero.1 hlen
    have hderef : deref (nth [] (irreversible_offset cfg ([] : List witness_object).length))
        (irreversible_offset cfg ([] : List witness_object).length)
          = .error .invalid_access := by
      rw [hempty]
      simp [deref]
    refine ⟨hoff, by rw [hempty]; rfl, hderef, ?_⟩
    unfold update_last_irreversible_block_with
    simp only [hw, hderef, bind, Except.bind]

/-- C21, at concrete states with the 70% threshold: ten active witnesses give the offset 3,
which is below 10, and the function returns; without active witnesses the offset is 0 and the
read fails. -/
theorem irreversible_offset_index_safety_witness :
    irreversible_offset default_config
        (witnesses_confirming [1, 1, 1, 2, 2, 2, 2, 2, 2, 2]).length = 3 ∧
    irreversible_offset default_config
        (witnesses_confirming [1, 1, 1, 2, 2, 2, 2, 2, 2, 2]).length <
      (witnesses_confirming [1, 1, 1, 2, 2, 2, 2, 2, 2, 2]).length ∧
    update_last_irreversible_block_with nth_element default_config (producer_state [] 0)
      = .error .invalid_access :=
  ⟨by decide,
    ((irreversible_offset_index_safety nth_element default_config
      (producer_state [1, 1, 1, 2, 2, 2, 2, 2, 2, 2] 0)
      (witnesses_confirming [1, 1, 1, 2, 2, 2, 2, 2, 2, 2])
      (by decide) (by decide) (by decide) (by decide)
      (nth_element_post_nth_element _ _)).2.1 (by decide)).2.1,
    ((irreversible_offset_index_safety nth_element default_config (producer_state [] 0) []
      (by decide) (by decide) (by decide) (by decide)
      (nth_element_post_nth_element _ _)).2.2 rfl).2.2.2⟩

/-! ## The force-settlement loop -/

theorem asset_lt_eval (a b : asset) (hid : a.asset_id = b.asset_id) :
    a.lt b = .ok (decide (a.amount < b.amount)) := by
  simp [asset.lt, FC_ASSERT_bind, hid, pure, Except.pure]

theorem asset_lt_ok (a b : asset) (r : Bool) (h : a.lt b = .ok r) :
    a.asset_id = b.asset_id ∧ r = decide (a.amount < b.amount) := by
  by_cases hid : a.asset_id = b.asset_id
  · rw [asset_lt_eval a b hid] at h
    injection h with h
    exact ⟨hid, h.symm⟩
  · unfold asset.lt at h
    rw [FC_ASSERT_bind] at h
    simp [hid] at h

theorem safe_sub_ok (a b v : Int) (h : safe_sub a b = .ok v) : v = a - b := by
  unfold safe_sub at h
  split at h
  · cases h
  · split at h
    · cases h
    · injection h with h
      exact h.symm

theorem safe_add_ok (a b v : Int) (h : safe_add a b = .ok v) : v = a + b := by
  unfold safe_add at h
  split at h
  · cases h
  · split at h
    · cases h
    · injection h with h
      exact h.symm

theorem asset_sub_ok (a b r : asset) (h : a.sub b = .ok r) :
    a.asset_id = b.asset_id ∧ r.asset_id = a.asset_id ∧ r.amount = a.amount - b.amount := by
  unfold asset.sub at h
  rw [FC_ASSERT_bind] at h
  by_cases hid : a.asset_id = b.asset_id
  · cases hs : safe_sub a.amount b.amount with
    | error e => simp [hid, hs, bind, Except.bind] at h
    | ok v =>
      simp only [hid, beq_self_eq_true, if_true, hs, bind, Except.bind, pure, Except.pure] at h
      injection h with h
      subst h
      exact ⟨hid, hid.symm ▸ rfl, safe_sub_ok _ _ _ hs⟩
  · simp [hid] at h

theorem asset_add_ok (a b r : asset) (h : a.add b = .ok r) :
    a.asset_id = b.asset_id ∧ r.asset_id = a.asset_id ∧ r.amount = a.amount + b.amount := by
  unfold asset.add at h
  rw [FC_ASSERT_bind] at h
  by_cases hid : a.asset_id = b.asset_id
  · cases hs : safe_add a.amount b.amount with
    | error e => simp [hid, hs, bind, Except.bind] at h
    | ok v =>
      simp only [hid, beq_self_eq_true, if_true, hs, bind, Except.bind, pure, Except.pure] at h
      injection h with h
      subst h
      exact ⟨hid, hid.symm ▸ rfl, safe_add_ok _ _ _ hs⟩
  · simp [hid] at h

/-- What a successful run of the inner loop did in its first evaluation of the condition: it
left the loop because `settled` is not below the cap or the request is gone, or it matched the
request and went on, or the match threw `black_swan_exception` and the request was cancelled. -/
theorem match_settlement_loop_succ_ok (eng : market_engine) (cfg : chain_config)
    (mia_object : asset_object) (order_id : Nat) (settlement_price : price) (cap : asset)
    (fuel : Nat) (db : database) (settled : asset) (db2 : database) (settled2 : asset)
    (h : match_settlement_loop eng cfg mia_object order_id settlement_price cap (fuel + 1) db
      settled = .ok (db2, settled2)) :
    settled.asset_id = cap.asset_id ∧
    ((db2 = db ∧ settled2 = settled ∧
        (¬ settled.amount < cap.amount ∨ db.find_settlement order_id = none)) ∨
      (settled.amount < cap.amount ∧
        ∃ order call max_settlement,
          db.find_settlement order_id = some order ∧
          cap.sub settled = .ok max_settlement ∧
          ((∃ amount db1 settled1,
              eng.match_ db call order settlement_price max_settlement = .ok (amount, db1) ∧
              settled.add amount = .ok settled1 ∧
              match_settlement_loop eng cfg mia_object order_id settlement_price cap fuel db1
                settled1 = .ok (db2, settled2)) ∨
            (eng.match_ db call order settlement_price max_settlement
                = .error .black_swan_exception ∧
              db2 = cancel_order db order ∧ settled2 = settled)))) := by
  rw [match_settlement_loop] at h
  cases hlt : settled.lt cap with
  | error e => simp [hlt, bind, Except.bind] at h
  | ok below =>
    obtain ⟨hid, hbelow⟩ := asset_lt_ok _ _ _ hlt
    refine ⟨hid, ?_⟩
    simp only [hlt, bind, Except.bind] at h
    cases hb : below with
    | false =>
      left
      simp only [hb, Bool.false_eq_true, if_false, pure, Except.pure] at h
      injection h with h
      injection h with h1 h2
      refine ⟨h1.symm, h2.symm, Or.inl ?_⟩
      rw [hb] at hbelow
      exact of_decide_eq_false hbelow.symm
    | true =>
      rw [hb] at hbelow
      have hlt2 : settled.amount < cap.amount := of_decide_eq_true hbelow.symm
      simp only [hb, if_true] at h
      cases hfind : db.find_settlement order_id with
      | none =>
        left
        simp only [hfind, pure, Except.pure] at h
        injection h with h
        injection h with h1 h2
        exact ⟨h1.symm, h2.symm, Or.inr rfl⟩
      | some order =>
        right
        refine ⟨hlt2, order, ?_⟩
        simp only [hfind] at h
        cases hbit : mia_object.bitasset_data db with
        | error e => simp [hbit] at h
        | ok bitasset =>
          simp only [hbit] at h
          split at h
          · cases h
          · rename_i call hcall
            cases hdebt : (call.debt_type == mia_object.id) with
            | false => simp [hdebt, assert] at h
            | true =>
              simp only [hdebt, assert, if_true] at h
              cases hsub : cap.sub settled with
              | error e => simp [hsub] at h
              | ok max_settlement =>
                simp only [hsub] at h
                refine ⟨call, max_settlement, rfl, rfl, ?_⟩
                cases hm : eng.match_ db call order settlement_price max_settlement with
                | ok r =>
                  obtain ⟨amount, db1⟩ := r
                  left
                  simp only [hm] at h
                  cases hadd : settled.add amount with
                  | error e => simp [hadd] at h
                  | ok settled1 =>
                    simp only [hadd] at h
                    exact ⟨amount, db1, settled1, rfl, hadd, h⟩
                | error e =>
                  right
                  simp only [hm] at h
                  cases e <;> first
                    | (cases h; done)
                    | (cases h; exact ⟨rfl, rfl, rfl⟩)

theorem find_settlement_id (db : database) (order_id : Nat) (order : force_settlement_object)
    (h : db.find_settlement order_id = some order) :
    order.id = order_id ∧ order ∈ db.force_settlements := by
  unfold database.find_settlement at h
  exact ⟨by simpa using List.find?_some h, List.mem_of_find?_eq_some h⟩

theorem cancel_order_find_none (db : database) (order : force_settlement_object) :
    (cancel_order db order).find_settlement order.id = none := by
  unfold database.find_settlement cancel_order
  rw [List.find?_eq_none]
  intro x hx
  simp only [List.mem_filter, decide_eq_true_eq] at hx
  simpa using hx.2

theorem modify_bitasset_find_settlement (db : database) (mia : asset_bitasset_data_object)
    (f : asset_bitasset_data_object → asset_bitasset_data_object) (order_id : Nat) :
    (db.modify_bitasset mia f).find_settlement order_id = db.find_settlement order_id := rfl

theorem get_asset_ok (db : database) (id : Nat) (a : asset_object)
    (h : db.get_asset id = .ok a) : a.id = id ∧ a ∈ db.assets := by
  unfold database.get_asset at h
  split at h
  · rename_i x hx
    injection h with h
    subst h
    exact ⟨by simpa using List.find?_some hx, List.mem_of_find?_eq_some hx⟩
  · cases h

theorem get_bitasset_ok (db : database) (id : Nat) (b : asset_bitasset_data_object)
    (h : db.get_bitasset id = .ok b) : b.id = id ∧ b ∈ db.bitassets := by
  unfold database.get_bitasset at h
  split at h
  · rename_i x hx
    injection h with h
    subst h
    exact ⟨by simpa using List.find?_some hx, List.mem_of_find?_eq_some hx⟩
  · cases h

theorem bitasset_data_ok (db : database) (mia_object : asset_object)
    (mia : asset_bitasset_data_object) (h : mia_object.bitasset_data db = .ok mia) :
    mia_object.bitasset_data_id = some mia.id ∧ mia ∈ db.bitassets := by
  unfold asset_object.bitasset_data at h
  split at h
  · cases h
  · rename_i id hid
    obtain ⟨h1, h2⟩ := get_bitasset_ok db id mia h
    exact ⟨by rw [hid, h1], h2⟩

/-- What the head of an iteration found: a request of the store, its asset and the bitasset
data of that asset. -/
theorem current_request_ok (s : settlement_loop_state) (order : force_settlement_object)
    (mia_object : asset_object) (mia : asset_bitasset_data_object)
    (h : current_request s = .ok (some (order, mia_object, mia))) :
    order ∈ s.db.force_settlements ∧
    s.db.get_asset order.settlement_asset_id = .ok mia_object ∧
    mia_object.id = order.settlement_asset_id ∧
    mia_object.bitasset_data s.db = .ok mia ∧
    mia_object.bitasset_data_id = some mia.id ∧
    mia ∈ s.db.bitassets := by
  unfold current_request at h
  split at h
  · cases h
  · rename_i o ho
    cases hget : s.db.get_asset o.settlement_asset_id with
    | error e => simp [hget, bind, Except.bind] at h
    | ok a =>
      cases hbit : a.bitasset_data s.db with
      | error e => simp [hget, hbit, bind, Except.bind] at h
      | ok b =>
        simp only [hget, hbit, bind, Except.bind, pure, Except.pure] at h
        injection h with h
        injection h with h
        injection h with h1 h2
        injection h2 with h2 h3
        subst h1 h2 h3
        exact ⟨List.getElem?_mem ho, hget, (get_asset_ok _ _ _ hget).1, hbit,
          (bitasset_data_ok _ _ _ hbit).1, (bitasset_data_ok _ _ _ hbit).2⟩

/-- The inner loop ends with `settled` of the asset of the cap, and either not below the cap
or with the request gone from the store. -/
theorem match_settlement_loop_exit (eng : market_engine) (cfg : chain_config)
    (mia_object : asset_object) (order_id : Nat) (settlement_price : price) (cap : asset) :
    ∀ (fuel : Nat) (db : database) (settled : asset) (db2 : database) (settled2 : asset),
      match_settlement_loop eng cfg mia_object order_id settlement_price cap fuel db settled
        = .ok (db2, settled2) →
      settled2.asset_id = cap.asset_id ∧
      (¬ settled2.amount < cap.amount ∨ db2.find_settlement order_id = none) := by
  intro fuel
  induction fuel with
  | zero =>
    intro db settled db2 settled2 h
    simp [match_settlement_loop] at h
  | succ n ih =>
    intro db settled db2 settled2 h
    obtain ⟨hid, hcase⟩ := match_settlement_loop_succ_ok eng cfg mia_object order_id
      settlement_price cap n db settled db2 settled2 h
    rcases hcase with ⟨h1, h2, h3⟩ | ⟨_, order, call, max_settlement, hfind, _, hrest⟩
    · subst h1 h2
      exact ⟨hid, h3⟩
    · rcases hrest with ⟨amount, db1, settled1, _, _, hloop⟩ | ⟨_, h1, h2⟩
      · exact ih db1 settled1 db2 settled2 hloop
      · subst h1 h2
        refine ⟨hid, Or.inr ?_⟩
        rw [← (find_settlement_id db order_id order hfind).1]
        exact cancel_order_find_none db order

/-- With a match that returns an amount of the asset asked for, between 0 and
`max_settlement`, the inner loop never takes `settled` above the cap and never lowers it. -/
theorem match_settlement_loop_bounds (eng : market_engine) (cfg : chain_config)
    (mia_object : asset_object) (order_id : Nat) (settlement_price : price) (cap : asset)
    (hmatch : ∀ db call order p max_settlement amount db2,
      eng.match_ db call order p max_settlement = .ok (amount, db2) →
      amount.asset_id = max_settlement.asset_id ∧ 0 ≤ amount.amount ∧
        amount.amount ≤ max_settlement.amount) :
    ∀ (fuel : Nat) (db : database) (settled : asset) (db2 : database) (settled2 : asset),
      settled.amount ≤ cap.amount →
      match_settlement_loop eng cfg mia_object order_id settlement_price cap fuel db settled
        = .ok (db2, settled2) →
      settled.amount ≤ settled2.amount ∧ settled2.amount ≤ cap.amount := by
  intro fuel
  induction fuel with
  | zero =>
    intro db settled db2 settled2 _ h
    simp [match_settlement_loop] at h
  | succ n ih =>
    intro db settled db2 settled2 hle h
    obtain ⟨hid, hcase⟩ := match_settlement_loop_succ_ok eng cfg mia_object order_id
      settlement_price cap n db settled db2 settled2 h
    rcases hcase with ⟨_, h2, _⟩ | ⟨_, order, call, max_settlement, _, hsub, hrest⟩
    · subst h2
      exact ⟨le_refl _, hle⟩
    · rcases hrest with ⟨amount, db1, settled1, hm, hadd, hloop⟩ | ⟨_, _, h2⟩
      · obtain ⟨_, _, hmax⟩ := asset_sub_ok _ _ _ hsub
        obtain ⟨_, h0, hup⟩ := hmatch _ _ _ _ _ _ _ hm
        obtain ⟨_, _, hsum⟩ := asset_add_ok _ _ _ hadd
        have hle1 : settled1.amount ≤ cap.amount := by omega
        obtain ⟨h3, h4⟩ := ih db1 settled1 db2 settled2 hle1 hloop
        exact ⟨by omega, h4⟩
      · subst h2
        exact ⟨le_refl _, hle⟩

/-- With a match that leaves the bitasset data as they are, so does the inner loop. -/
theorem match_settlement_loop_frame (eng : market_engine) (cfg : chain_config)
    (mia_object : asset_object) (order_id : Nat) (settlement_price : price) (cap : asset)
    (hframe : ∀ db call order p max_settlement amount db2,
      eng.match_ db call order p max_settlement = .ok (amount, db2) →
      db2.bitassets = db.bitassets) :
    ∀ (fuel : Nat) (db : database) (settled : asset) (db2 : database) (settled2 : asset),
      match_settlement_loop eng cfg mia_object order_id settlement_price cap fuel db settled
        = .ok (db2, settled2) →
      db2.bitassets = db.bitassets := by
  intro fuel
  induction fuel with
  | zero =>
    intro db settled db2 settled2 h
    simp [match_settlement_loop] at h
  | succ n ih =>
    intro db settled db2 settled2 h
    obtain ⟨_, hcase⟩ := match_settlement_loop_succ_ok eng cfg mia_object order_id
      settlement_price cap n db settled db2 settled2 h
    rcases hcase with ⟨h1, _, _⟩ | ⟨_, order, call, max_settlement, _, _, hrest⟩
    · rw [h1]
    · rcases hrest with ⟨amount, db1, settled1, hm, _, hloop⟩ | ⟨_, h1, _⟩
      · rw [ih db1 settled1 db2 settled2 hloop, hframe _ _ _ _ _ _ _ hm]
      · rw [h1]
        rfl

/-- An iteration on a request of an asset with global settlement, or on a due request of an
asset without valid feed, cancels the request. -/
theorem settlement_iteration_cancel (eng : market_engine) (cfg : chain_config) (fuel : Nat)
    (s : settlement_loop_state) (order : force_settlement_object) (mia_object : asset_object)
    (mia : asset_bitasset_data_object)
    (hreq : current_request s = .ok (some (order, mia_object, mia)))
    (h : mia.has_settlement = true ∨
      (¬ order.settlement_date > s.db.dgp.time ∧
        mia.current_feed.settlement_price.is_null = true)) :
    settlement_iteration eng cfg fuel s =
      .ok (.again { s with db := cancel_order s.db order,
                           current_asset := order.settlement_asset_id }) := by
  rcases h with h | ⟨hdue, hnull⟩
  · simp only [settlement_iteration, hreq, bind, Except.bind, h, if_true, pure, Except.pure]
  · cases hs : mia.has_settlement with
    | true =>
      simp only [settlement_iteration, hreq, bind, Except.bind, hs, if_true, pure, Except.pure]
    | false =>
      simp only [settlement_iteration, hreq, bind, Except.bind, hs, hnull, if_neg hdue,
        Bool.false_eq_true, if_false, if_true, pure, Except.pure]

/-- An iteration on a request that is not due moves to the next asset, or ends the loop. -/
theorem settlement_iteration_not_due (eng : market_engine) (cfg : chain_config) (fuel : Nat)
    (s : settlement_loop_state) (order : force_settlement_object) (mia_object : asset_object)
    (mia : asset_bitasset_data_object)
    (hreq : current_request s = .ok (some (order, mia_object, mia)))
    (hns : mia.has_settlement = false)
    (hnd : order.settlement_date > s.db.dgp.time) :
    settlement_iteration eng cfg fuel s =
      match next_asset s.db order.settlement_asset_id with
      | some following => .ok (.again { s with current_asset := following })
      | none => .ok (.finished s.db) := by
  simp only [settlement_iteration, hreq, bind, Except.bind, hns, if_pos hnd,
    Bool.false_eq_true, if_false, pure, Except.pure]

/-- An iteration on a due request of an asset whose settled volume is at or above the cap in
force moves to the next asset, or ends the loop; nothing is matched and the state is unchanged. -/
theorem settlement_iteration_capped (eng : market_engine) (cfg : chain_config) (fuel : Nat)
    (s : settlement_loop_state) (order : force_settlement_object) (mia_object : asset_object)
    (mia : asset_bitasset_data_object) (cap : asset)
    (hreq : current_request s = .ok (some (order, mia_object, mia)))
    (hns : mia.has_settlement = false)
    (hdue : ¬ order.settlement_date > s.db.dgp.time)
    (hfeed : mia.current_feed.settlement_price.is_null = false)
    (hcap : cap_in_force eng s.db s.max_settlement_volume order.settlement_asset_id mia_object
      mia = .ok cap)
    (hge : mia.force_settled_volume ≥ cap.amount) :
    settlement_iteration eng cfg fuel s =
      match next_asset s.db order.settlement_asset_id with
      | some following => .ok (.again ⟨s.db, following, cap⟩)
      | none => .ok (.finished s.db) := by
  simp only [settlement_iteration, hreq, bind, Except.bind, hns, hfeed, hcap, if_neg hdue,
    if_pos hge, Bool.false_eq_true, if_false, pure, Except.pure]

/-- An iteration in which the cap cannot be computed fails. -/
theorem settlement_iteration_cap_error (eng : market_engine) (cfg : chain_config) (fuel : Nat)
    (s : settlement_loop_state) (order : force_settlement_object) (mia_object : asset_object)
    (mia : asset_bitasset_data_object) (e : exception)
    (hreq : current_request s = .ok (some (order, mia_object, mia)))
    (hns : mia.has_settlement = false)
    (hdue : ¬ order.settlement_date > s.db.dgp.time)
    (hfeed : mia.current_feed.settlement_price.is_null = false)
    (hcap : cap_in_force eng s.db s.max_settlement_volume order.settlement_asset_id mia_object
      mia = .error e) :
    settlement_iteration eng cfg fuel s = .error e := by
  simp only [settlement_iteration, hreq, bind, Except.bind, hns, hfeed, hcap, if_neg hdue,
    Bool.false_eq_true, if_false]

/-- The cap in force is the cached cap when that is a volume of the current asset, and is
computed from the current supply of the asset otherwise. -/
theorem cap_in_force_ok (eng : market_engine) (db : database) (cached : asset)
    (current_asset : Nat) (mia_object : asset_object) (mia : asset_bitasset_data_object)
    (cap : asset)
    (h : cap_in_force eng db cached current_asset mia_object mia = .ok cap) :
    (cached.asset_id = current_asset → cap = cached) ∧
    (cached.asset_id ≠ current_asset →
      ∃ dyn, mia_object.dynamic_data db = .ok dyn ∧
        cap = mia_object.amount (eng.max_force_settlement_volume mia dyn.current_supply)) := by
  unfold cap_in_force at h
  by_cases hid : cached.asset_id = current_asset
  · rw [if_neg (not_not.2 hid)] at h
    injection h with h
    exact ⟨fun _ => h.symm, fun hne => absurd hid hne⟩
  · rw [if_pos hid] at h
    refine ⟨fun heq => absurd heq hid, fun _ => ?_⟩
    cases hdyn : mia_object.dynamic_data db with
    | error e => simp [hdyn, bind, Except.bind] at h
    | ok dyn =>
      simp only [hdyn, bind, Except.bind, pure, Except.pure] at h
      injection h with h
      exact ⟨dyn, rfl, h.symm⟩

/-- What a matching iteration that goes on did: the payout and the inner loop succeeded, and
the volume the inner loop reached is persisted on the bitasset data of the asset. -/
theorem settlement_iteration_matching_ok (eng : market_engine) (cfg : chain_config)
    (fuel : Nat) (s : settlement_loop_state) (order : force_settlement_object)
    (mia_object : asset_object) (mia : asset_bitasset_data_object) (cap : asset)
    (hreq : current_request s = .ok (some (order, mia_object, mia)))
    (hns : mia.has_settlement = false)
    (hdue : ¬ order.settlement_date > s.db.dgp.time)
    (hfeed : mia.current_feed.settlement_price.is_null = false)
    (hcap : cap_in_force eng s.db s.max_settlement_volume order.settlement_asset_id mia_object
      mia = .ok cap)
    (hbelow : mia.force_settled_volume < cap.amount)
    (r : settlement_loop_step)
    (h : settlement_iteration eng cfg fuel s = .ok r) :
    ∃ payout db2 settled2,
      settlement_payout cfg order mia = .ok payout ∧
      match_settlement_loop eng cfg mia_object order.id payout.2.2 cap fuel s.db
        (mia_object.amount mia.force_settled_volume) = .ok (db2, settled2) ∧
      r = .again ⟨db2.modify_bitasset mia
          (fun b => { b with force_settled_volume := settled2.amount }),
        order.settlement_asset_id, cap⟩ := by
  rw [settlement_iteration_matching eng cfg fuel s order mia_object mia cap hreq hns hdue
    hfeed hcap hbelow] at h
  cases hpay : settlement_payout cfg order mia with
  | error e => simp [hpay, bind, Except.bind] at h
  | ok payout =>
    cases hloop : match_settlement_loop eng cfg mia_object order.id payout.2.2 cap fuel s.db
        (mia_object.amount mia.force_settled_volume) with
    | error e => simp [hpay, hloop, bind, Except.bind] at h
    | ok result =>
      obtain ⟨db2, settled2⟩ := result
      simp only [hpay, hloop, bind, Except.bind, pure, Except.pure] at h
      injection h with h
      exact ⟨payout, db2, settled2, rfl, hloop, h.symm⟩

/-- The volume cap within one iteration, for a match that returns an amount of the asset
asked for between 0 and `max_settlement`: the cap in force is the cached one or computed from
the current supply; at or above the cap nothing is matched and the loop moves on with the
state unchanged; below the cap the volume persisted after the request has not decreased and is
at most the cap. -/
theorem settlement_iteration_within_cap (eng : market_engine) (cfg : chain_config)
    (hmatch : ∀ db call order p max_settlement amount db2,
      eng.match_ db call order p max_settlement = .ok (amount, db2) →
      amount.asset_id = max_settlement.asset_id ∧ 0 ≤ amount.amount ∧
        amount.amount ≤ max_settlement.amount)
    (fuel : Nat) (s : settlement_loop_state) (order : force_settlement_object)
    (mia_object : asset_object) (mia : asset_bitasset_data_object) (cap : asset)
    (hreq : current_request s = .ok (some (order, mia_object, mia)))
    (hns : mia.has_settlement = false)
    (hdue : ¬ order.settlement_date > s.db.dgp.time)
    (hfeed : mia.current_feed.settlement_price.is_null = false)
    (hcap : cap_in_force eng s.db s.max_settlement_volume order.settlement_asset_id mia_object
      mia = .ok cap) :
    (s.max_settlement_volume.asset_id = order.settlement_asset_id →
      cap = s.max_settlement_volume) ∧
    (s.max_settlement_volume.asset_id ≠ order.settlement_asset_id →
      ∃ dyn, mia_object.dynamic_data s.db = .ok dyn ∧
        cap = mia_object.amount (eng.max_force_settlement_volume mia dyn.current_supply)) ∧
    (cap.amount ≤ mia.force_settled_volume →
      settlement_iteration eng cfg fuel s =
        match next_asset s.db order.settlement_asset_id with
        | some following => .ok (.again ⟨s.db, following, cap⟩)
        | none => .ok (.finished s.db)) ∧
    (mia.force_settled_volume < cap.amount →
      ∀ r, settlement_iteration eng cfg fuel s = .ok r →
        ∃ s2, r = .again s2 ∧ s2.max_settlement_volume = cap ∧
          s2.current_asset = order.settlement_asset_id ∧
          ∀ b ∈ s2.db.bitassets, b.id = mia.id →
            mia.force_settled_volume ≤ b.force_settled_volume ∧
              b.force_settled_volume ≤ cap.amount) := by
  obtain ⟨hc1, hc2⟩ := cap_in_force_ok eng s.db s.max_settlement_volume
    order.settlement_asset_id mia_object mia cap hcap
  refine ⟨hc1, hc2, fun hge => settlement_iteration_capped eng cfg fuel s order mia_object mia
    cap hreq hns hdue hfeed hcap hge, ?_⟩
  intro hbelow r hr
  obtain ⟨payout, db2, settled2, _, hloop, hres⟩ := settlement_iteration_matching_ok eng cfg
    fuel s order mia_object mia cap hreq hns hdue hfeed hcap hbelow r hr
  obtain ⟨hlo, hhi⟩ := match_settlement_loop_bounds eng cfg mia_object order.id payout.2.2 cap
    hmatch fuel s.db (mia_object.amount mia.force_settled_volume) db2 settled2
    (le_of_lt hbelow) hloop
  refine ⟨_, hres, rfl, rfl, ?_⟩
  intro b hb hbid
  simp only [database.modify_bitasset, List.mem_map] at hb
  obtain ⟨x, _, hx⟩ := hb
  by_cases hxid : x.id = mia.id
  · rw [if_pos hxid] at hx
    subst hx
    exact ⟨hlo, hhi⟩
  · rw [if_neg hxid] at hx
    subst hx
    exact absurd hbid hxid

/-- What one iteration does to the bitasset data, for a match that keeps to `max_settlement`
and leaves the bitasset data as they are: the loop ends with the state unchanged, or goes on
with the bitasset data unchanged, or goes on with a volume of at most the cap in force
persisted on the bitasset data of the asset of the request. -/
theorem settlement_iteration_bitassets (eng : market_engine) (cfg : chain_config)
    (hmatch : ∀ db call order p max_settlement amount db2,
      eng.match_ db call order p max_settlement = .ok (amount, db2) →
      amount.asset_id = max_settlement.asset_id ∧ 0 ≤ amount.amount ∧
        amount.amount ≤ max_settlement.amount)
    (hframe : ∀ db call order p max_settlement amount db2,
      eng.match_ db call order p max_settlement = .ok (amount, db2) →
      db2.bitassets = db.bitassets)
    (fuel : Nat) (s : settlement_loop_state) (r : settlement_loop_step)
    (h : settlement_iteration eng cfg fuel s = .ok r) :
    r = .finished s.db ∨
    ∃ s2, r = .again s2 ∧
      (s2.db.bitassets = s.db.bitassets ∨
        ∃ order mia_object mia cap v,
          current_request s = .ok (some (order, mia_object, mia)) ∧
          cap_in_force eng s.db s.max_settlement_volume order.settlement_asset_id mia_object
            mia = .ok cap ∧
          v ≤ cap.amount ∧
          s2.db.bitassets = s.db.bitassets.map (fun x =>
            if x.id = mia.id then { x with force_settled_volume := v } else x)) := by
  cases hreq : current_request s with
  | error e => simp [settlement_iteration, hreq, bind, Except.bind] at h
  | ok found =>
    cases found with
    | none =>
      simp only [settlement_iteration, hreq, bind, Except.bind, pure, Except.pure] at h
      injection h with h
      exact Or.inl h.symm
    | some req =>
      obtain ⟨order, mia_object, mia⟩ := req
      by_cases hs : mia.has_settlement = true
      · rw [settlement_iteration_cancel eng cfg fuel s order mia_object mia hreq (Or.inl hs)]
          at h
        injection h with h
        exact Or.inr ⟨_, h.symm, Or.inl rfl⟩
      · have hns : mia.has_settlement = false := by simpa using hs
        by_cases hnd : order.settlement_date > s.db.dgp.time
        · rw [settlement_iteration_not_due eng cfg fuel s order mia_object mia hreq hns hnd]
            at h
          split at h
          · injection h with h
            exact Or.inr ⟨_, h.symm, Or.inl rfl⟩
          · injection h with h
            exact Or.inl h.symm
        · by_cases hnull : mia.current_feed.settlement_price.is_null = true
          · rw [settlement_iteration_cancel eng cfg fuel s order mia_object mia hreq
              (Or.inr ⟨hnd, hnull⟩)] at h
            injection h with h
            exact Or.inr ⟨_, h.symm, Or.inl rfl⟩
          · have hfeed : mia.current_feed.settlement_price.is_null = false := by
              simpa using hnull
            cases hcap : cap_in_force eng s.db s.max_settlement_volume
                order.settlement_asset_id mia_object mia with
            | error e =>
              rw [settlement_iteration_cap_error eng cfg fuel s order mia_object mia e hreq
                hns hnd hfeed hcap] at h
              cases h
            | ok cap =>
              by_cases hge : mia.force_settled_volume ≥ cap.amount
              · rw [settlement_iteration_capped eng cfg fuel s order mia_object mia cap hreq
                  hns hnd hfeed hcap hge] at h
                split at h
                · injection h with h
                  exact Or.inr ⟨_, h.symm, Or.inl rfl⟩
                · injection h with h
                  exact Or.inl h.symm
              · have hbelow : mia.force_settled_volume < cap.amount := not_le.1 hge
                obtain ⟨payout, db2, settled2, _, hloop, hres⟩ :=
                  settlement_iteration_matching_ok eng cfg fuel s order mia_object mia cap
                    hreq hns hnd hfeed hcap hbelow r h
                obtain ⟨_, hhi⟩ := match_settlement_loop_bounds eng cfg mia_object order.id
                  payout.2.2 cap hmatch fuel s.db (mia_object.amount mia.force_settled_volume)
                  db2 settled2 (le_of_lt hbelow) hloop
                have hfr := match_settlement_loop_frame eng cfg mia_object order.id
                  payout.2.2 cap hframe fuel s.db _ db2 settled2 hloop
                refine Or.inr ⟨_, hres, Or.inr ⟨order, mia_object, mia, cap, settled2.amount,
                  rfl, hcap, hhi, ?_⟩⟩
                simp only [database.modify_bitasset, hfr]

/-- At the end of the force-settlement loop, for a match that keeps to `max_settlement` and
leaves the bitasset data as they are: every bitasset data object is as it was at the start of
the loop, or differs from it in `force_settled_volume` only, which is at most a cap that was
in force for that asset in an iteration of the loop. -/
theorem settlement_loop_volumes (eng : market_engine) (cfg : chain_config)
    (hmatch : ∀ db call order p max_settlement amount db2,
      eng.match_ db call order p max_settlement = .ok (amount, db2) →
      amount.asset_id = max_settlement.asset_id ∧ 0 ≤ amount.amount ∧
        amount.amount ≤ max_settlement.amount)
    (hframe : ∀ db call order p max_settlement amount db2,
      eng.match_ db call order p max_settlement = .ok (amount, db2) →
      db2.bitassets = db.bitassets)
    (inner_fuel : Nat) :
    ∀ (fuel : Nat) (s0 : settlement_loop_state) (db2 : database),
      settlement_loop eng cfg inner_fuel fuel s0 = .ok db2 →
      ∀ b ∈ db2.bitassets, ∃ b0 ∈ s0.db.bitassets,
        b = b0 ∨
        ∃ t ∈ settlement_trace eng cfg inner_fuel fuel s0,
          ∃ order mia_object mia cap,
            current_request t = .ok (some (order, mia_object, mia)) ∧
            mia.id = b0.id ∧
            cap_in_force eng t.db t.max_settlement_volume order.settlement_asset_id
              mia_object mia = .ok cap ∧
            b = { b0 with force_settled_volume := b.force_settled_volume } ∧
            b.force_settled_volume ≤ cap.amount := by
  intro fuel
  induction fuel with
  | zero =>
    intro s0 db2 h
    simp [settlement_loop] at h
  | succ n ih =>
    intro s0 db2 h b hb
    rw [settlement_loop] at h
    cases hit : settlement_iteration eng cfg inner_fuel s0 with
    | error e => simp [hit, bind, Except.bind] at h
    | ok r =>
      simp only [hit, bind, Except.bind] at h
      rcases settlement_iteration_bitassets eng cfg hmatch hframe inner_fuel s0 r hit with
        hfin | ⟨s1, hag, hstep⟩
      · subst hfin
        simp only [pure, Except.pure] at h
        injection h with h
        subst h
        exact ⟨b, hb, Or.inl rfl⟩
      · subst hag
        simp only at h
        have htrace : settlement_trace eng cfg inner_fuel (n + 1) s0 =
            s0 :: settlement_trace eng cfg inner_fuel n s1 := by
          simp only [settlement_trace, hit]
        obtain ⟨b1, hb1, hrel⟩ := ih s1 db2 h b hb
        rcases hstep with hsame | ⟨order0, mia_object0, mia0, cap0, v, hreq0, hcap0, hv, hmap⟩
        · rw [hsame] at hb1
          refine ⟨b1, hb1, ?_⟩
          rcases hrel with h1 | ⟨t, ht, rest⟩
          · exact Or.inl h1
          · exact Or.inr ⟨t, by rw [htrace]; exact List.mem_cons_of_mem _ ht, rest⟩
        · rw [hmap, List.mem_map] at hb1
          obtain ⟨x, hx, hxb⟩ := hb1
          refine ⟨x, hx, ?_⟩
          by_cases hxid : x.id = mia0.id
          · rw [if_pos hxid] at hxb
            right
            rcases hrel with h1 | ⟨t, ht, order, mia_object, mia, cap, hreq, hid, hcap, hb, hle⟩
            · refine ⟨s0, by rw [htrace]; exact List.mem_cons_self _ _, order0, mia_object0,
                mia0, cap0, hreq0, hxid.symm, hcap0, ?_, ?_⟩
              · rw [h1, ← hxb]
              · rw [h1, ← hxb]
                exact hv
            · refine ⟨t, by rw [htrace]; exact List.mem_cons_of_mem _ ht, order, mia_object,
                mia, cap, hreq, ?_, hcap, ?_, hle⟩
              · rw [hid, ← hxb]
              · rw [hb, ← hxb]
          · rw [if_neg hxid] at hxb
            subst hxb
            rcases hrel with h1 | ⟨t, ht, rest⟩
            · exact Or.inl h1
            · exact Or.inr ⟨t, by rw [htrace]; exact List.mem_cons_of_mem _ ht, rest⟩

theorem sample_match_ok (cfg : chain_config) (db : database) (call : call_order_object)
    (order : force_settlement_object) (p : price) (max_settlement amount : asset)
    (db2 : database)
    (h : sample_match cfg db call order p max_settlement = .ok (amount, db2)) :
    (amount.asset_id = max_settlement.asset_id ∧ 0 ≤ amount.amount ∧
      amount.amount ≤ max_settlement.amount) ∧ db2.bitassets = db.bitassets := by
  unfold sample_match at h
  rw [FC_ASSERT_bind] at h
  by_cases hid : order.balance.asset_id = max_settlement.asset_id
  · simp only [hid, beq_self_eq_true, if_true] at h
    rw [FC_ASSERT_bind] at h
    by_cases h0 : 0 ≤ min (min order.balance.amount max_settlement.amount) call.debt
    · simp only [h0, decide_True, if_true] at h
      cases hpay : asset.mul_price cfg
          ⟨min (min order.balance.amount max_settlement.amount) call.debt,
            max_settlement.asset_id⟩ p with
      | error e => simp [hpay, bind, Except.bind] at h
      | ok call_pays =>
        simp only [hpay, bind, Except.bind, pure, Except.pure] at h
        split at h
        · cases h
        · injection h with h
          injection h with h1 h2
          subst h1 h2
          exact ⟨⟨rfl, h0, le_trans (min_le_left _ _) (min_le_right _ _)⟩, rfl⟩
    · simp [h0] at h
  · simp [hid] at h

/-- C15: the force-settlement volume cap, for a match that returns an amount of the asset
asked for between 0 and `max_settlement` and leaves the bitasset data as they are. In every
iteration on a due request of an asset without global settlement and with a valid feed, the
cap in force is the cached cap of the asset or is computed from its current supply; when the
persisted volume is at or above the cap nothing is matched and the loop moves to the next
asset or ends with the state unchanged; when it is below, the volume persisted after the
request has not decreased and is at most the cap. At the end of a pass of
`clear_expired_orders` every bitasset data object is as it was after the limit orders were
cancelled, or differs in `force_settled_volume` only, which is at most a cap that was in force
for the asset in the pass; a volume that starts at 0 therefore ends at 0 or at most at such a
cap. -/
theorem force_settled_volume_within_cap (eng : market_engine) (cfg : chain_config)
    (hmatch : ∀ db call order p max_settlement amount db2,
      eng.match_ db call order p max_settlement = .ok (amount, db2) →
      amount.asset_id = max_settlement.asset_id ∧ 0 ≤ amount.amount ∧
        amount.amount ≤ max_settlement.amount)
    (hframe : ∀ db call order p max_settlement amount db2,
      eng.match_ db call order p max_settlement = .ok (amount, db2) →
      db2.bitassets = db.bitassets) :
    (∀ (fuel : Nat) (s : settlement_loop_state) (order : force_settlement_object)
        (mia_object : asset_object) (mia : asset_bitasset_data_object) (cap : asset),
      current_request s = .ok (some (order, mia_object, mia)) →
      mia.has_settlement = false →
      ¬ order.settlement_date > s.db.dgp.time →
      mia.current_feed.settlement_price.is_null = false →
      cap_in_force eng s.db s.max_settlement_volume order.settlement_asset_id mia_object mia
        = .ok cap →
      (s.max_settlement_volume.asset_id = order.settlement_asset_id →
        cap = s.max_settlement_volume) ∧
      (s.max_settlement_volume.asset_id ≠ order.settlement_asset_id →
        ∃ dyn, mia_object.dynamic_data s.db = .ok dyn ∧
          cap = mia_object.amount (eng.max_force_settlement_volume mia dyn.current_supply)) ∧
      (cap.amount ≤ mia.force_settled_volume →
        settlement_iteration eng cfg fuel s =
          match next_asset s.db order.settlement_asset_id with
          | some following => .ok (.again ⟨s.db, following, cap⟩)
          | none => .ok (.finished s.db)) ∧
      (mia.force_settled_volume < cap.amount →
        ∀ r, settlement_iteration eng cfg fuel s = .ok r →
          ∃ s2, r = .again s2 ∧ s2.max_settlement_volume = cap ∧
            s2.current_asset = order.settlement_asset_id ∧
            ∀ b ∈ s2.db.bitassets, b.id = mia.id →
              mia.force_settled_volume ≤ b.force_settled_volume ∧
                b.force_settled_volume ≤ cap.amount)) ∧
    (∀ (fuel : Nat) (db db2 : database),
      clear_expired_orders eng cfg fuel db = .ok db2 →
      ∃ db1 s0,
        cancel_expired_limit_orders eng fuel
          { db with skip_flags := db.skip_flags ||| cfg.skip_authority_check } = .ok db1 ∧
        s0.db = { db1 with skip_flags := db.skip_flags } ∧
        s0.max_settlement_volume = ⟨0, 0⟩ ∧
        ∀ b ∈ db2.bitassets, ∃ b0 ∈ db1.bitassets,
          (b0.force_settled_volume = 0 → b.force_settled_volume = 0 ∨
            ∃ t ∈ settlement_trace eng cfg fuel fuel s0,
              ∃ order mia_object mia cap,
                current_request t = .ok (some (order, mia_object, mia)) ∧
                mia.id = b0.id ∧
                cap_in_force eng t.db t.max_settlement_volume order.settlement_asset_id
                  mia_object mia = .ok cap ∧
                b.force_settled_volume ≤ cap.amount) ∧
          (b = b0 ∨
            ∃ t ∈ settlement_trace eng cfg fuel fuel s0,
              ∃ order mia_object mia cap,
                current_request t = .ok (some (order, mia_object, mia)) ∧
                mia.id = b0.id ∧
                cap_in_force eng t.db t.max_settlement_volume order.settlement_asset_id
                  mia_object mia = .ok cap ∧
                b = { b0 with force_settled_volume := b.force_settled_volume } ∧
                b.force_settled_volume ≤ cap.amount)) := by
  refine ⟨fun fuel s order mia_object mia cap hreq hns hdue hfeed hcap =>
    settlement_iteration_within_cap eng cfg hmatch fuel s order mia_object mia cap hreq hns
      hdue hfeed hcap, ?_⟩
  intro fuel db db2 h
  unfold clear_expired_orders at h
  cases hlim : cancel_expired_limit_orders eng fuel
      { db with skip_flags := db.skip_flags ||| cfg.skip_authority_check } with
  | error e => simp [hlim, bind, Except.bind] at h
  | ok db1 =>
    simp only [hlim, bind, Except.bind] at h
    have key : ∀ (s0 : settlement_loop_state), s0.db = { db1 with skip_flags := db.skip_flags } →
        (∀ b ∈ db2.bitassets, ∃ b0 ∈ s0.db.bitassets,
          b = b0 ∨
          ∃ t ∈ settlement_trace eng cfg fuel fuel s0,
            ∃ order mia_object mia cap,
              current_request t = .ok (some (order, mia_object, mia)) ∧
              mia.id = b0.id ∧
              cap_in_force eng t.db t.max_settlement_volume order.settlement_asset_id
                mia_object mia = .ok cap ∧
              b = { b0 with force_settled_volume := b.force_settled_volume } ∧
              b.force_settled_volume ≤ cap.amount) →
        ∀ b ∈ db2.bitassets, ∃ b0 ∈ db1.bitassets,
          (b0.force_settled_volume = 0 → b.force_settled_volume = 0 ∨
            ∃ t ∈ settlement_trace eng cfg fuel fuel s0,
              ∃ order mia_object mia cap,
                current_request t = .ok (some (order, mia_object, mia)) ∧
                mia.id = b0.id ∧
                cap_in_force eng t.db t.max_settlement_volume order.settlement_asset_id
                  mia_object mia = .ok cap ∧
                b.force_settled_volume ≤ cap.amount) ∧
          (b = b0 ∨
            ∃ t ∈ settlement_trace eng cfg fuel fuel s0,
              ∃ order mia_object mia cap,
                current_request t = .ok (some (order, mia_object, mia)) ∧
                mia.id = b0.id ∧
                cap_in_force eng t.db t.max_settlement_volume order.settlement_asset_id
                  mia_object mia = .ok cap ∧
                b = { b0 with force_settled_volume := b.force_settled_volume } ∧
                b.force_settled_volume ≤ cap.amount) := by
      intro s0 hs0 hall b hb
      obtain ⟨b0, hb0, hrel⟩ := hall b hb
      rw [hs0] at hb0
      refine ⟨b0, hb0, ?_, hrel⟩
      intro hzero
      rcases hrel with h1 | ⟨t, ht, order, mia_object, mia, cap, hreq, hid, hcap, _, hle⟩
      · left
        rw [h1]
        exact hzero
      · exact Or.inr ⟨t, ht, order, mia_object, mia, cap, hreq, hid, hcap, hle⟩
    cases hhead : db1.force_settlements.head? with
    | none =>
      simp only [hhead, pure, Except.pure] at h
      injection h with h
      subst h
      refine ⟨db1, ⟨{ db1 with skip_flags := db.skip_flags }, 0, ⟨0, 0⟩⟩, rfl, rfl, rfl, ?_⟩
      exact key _ rfl (fun b hb => ⟨b, hb, Or.inl rfl⟩)
    | some first =>
      simp only [hhead] at h
      refine ⟨db1, ⟨{ db1 with skip_flags := db.skip_flags }, first.settlement_asset_id,
        ⟨0, 0⟩⟩, rfl, rfl, rfl, ?_⟩
      exact key _ rfl (settlement_loop_volumes eng cfg hmatch hframe fuel fuel _ db2 h)

/-- C15, at a concrete market with the supply 10000 and the volume share 5%, so that the cap
is 500: a pass over due requests for 100, 100 and 1000 units ends with the volume 500
persisted, and an iteration that starts with the volume 500 at the cached cap 500 matches
nothing and ends the loop with the state unchanged. -/
theorem force_settled_volume_within_cap_witness :
    (clear_expired_orders sample_engine default_config 10
      (settlement_state (settling_bitasset (usd_per_core 1 2) 100 500 0) 10000
        [short_position 5000 20000]
        [settle_request 1 100 20, settle_request 2 100 20, settle_request 3 1000 20])).map
      (fun d => d.bitassets.map (fun b => b.force_settled_volume)) = .ok [500] ∧
    settlement_iteration sample_engine default_config 10
      ⟨settlement_state (settling_bitasset (usd_per_core 1 2) 100 500 500) 10000
        [short_position 4500 19010] [settle_request 3 700 20], 1, ⟨500, 1⟩⟩ =
      .ok (.finished (settlement_state (settling_bitasset (usd_per_core 1 2) 100 500 500) 10000
        [short_position 4500 19010] [settle_request 3 700 20])) :=
  ⟨by decide,
    (((force_settled_volume_within_cap sample_engine default_config
      (fun db call order p m a db2 h => (sample_match_ok default_config db call order p m a db2
        h).1)
      (fun db call order p m a db2 h => (sample_match_ok default_config db call order p m a db2
        h).2)).1 10
      ⟨settlement_state (settling_bitasset (usd_per_core 1 2) 100 500 500) 10000
        [short_position 4500 19010] [settle_request 3 700 20], 1, ⟨500, 1⟩⟩
      (settle_request 3 700 20) usd_asset (settling_bitasset (usd_per_core 1 2) 100 500 500)
      ⟨500, 1⟩ (by decide) (by decide) (by decide) (by decide) (by decide)).2.2.1
      (by decide)).trans (by decide)⟩

/-! ## Progress of the force-settlement loop -/

theorem asset_lt_not_out_of_fuel (a b : asset) : a.lt b ≠ .error .out_of_fuel := by
  unfold asset.lt
  rw [FC_ASSERT_bind]
  split <;> simp [pure, Except.pure]

theorem safe_sub_not_out_of_fuel (a b : Int) : safe_sub a b ≠ .error .out_of_fuel := by
  unfold safe_sub
  split
  · simp
  · split <;> simp

theorem safe_add_not_out_of_fuel (a b : Int) : safe_add a b ≠ .error .out_of_fuel := by
  unfold safe_add
  split
  · simp
  · split <;> simp

theorem asset_sub_not_out_of_fuel (a b : asset) : a.sub b ≠ .error .out_of_fuel := by
  unfold asset.sub
  rw [FC_ASSERT_bind]
  split
  · cases hs : safe_sub a.amount b.amount with
    | error e =>
      intro h
      simp only [bind, Except.bind] at h
      injection h with h
      exact safe_sub_not_out_of_fuel _ _ (h ▸ hs)
    | ok v => simp [bind, Except.bind, pure, Except.pure]
  · simp

theorem asset_add_not_out_of_fuel (a b : asset) : a.add b ≠ .error .out_of_fuel := by
  unfold asset.add
  rw [FC_ASSERT_bind]
  split
  · cases hs : safe_add a.amount b.amount with
    | error e =>
      intro h
      simp only [bind, Except.bind] at h
      injection h with h
      exact safe_add_not_out_of_fuel _ _ (h ▸ hs)
    | ok v => simp [bind, Except.bind, pure, Except.pure]
  · simp

theorem bitasset_data_not_out_of_fuel (mia_object : asset_object) (db : database) :
    mia_object.bitasset_data db ≠ .error .out_of_fuel := by
  unfold asset_object.bitasset_data database.get_bitasset
  split
  · simp
  · split <;> simp

/-- The inner loop ends: with a match that settles a positive amount whenever it returns,
`settled` grows by at least one unit in every round, so that the loop has left before the fuel
`cap - settled + 1` is used up. -/
theorem match_settlement_loop_fuel (eng : market_engine) (cfg : chain_config)
    (mia_object : asset_object) (order_id : Nat) (settlement_price : price) (cap : asset)
    (hprog : ∀ db call order p max_settlement amount db2,
      eng.match_ db call order p max_settlement = .ok (amount, db2) → 1 ≤ amount.amount)
    (hnofuel : ∀ db call order p max_settlement,
      eng.match_ db call order p max_settlement ≠ .error .out_of_fuel) :
    ∀ (fuel : Nat) (db : database) (settled : asset),
      (cap.amount - settled.amount).toNat < fuel →
      match_settlement_loop eng cfg mia_object order_id settlement_price cap fuel db settled
        ≠ .error .out_of_fuel := by
  intro fuel
  induction fuel with
  | zero =>
    intro db settled hlt
    exact absurd hlt (Nat.not_lt_zero _)
  | succ n ih =>
    intro db settled hfuel h
    rw [match_settlement_loop] at h
    cases hlt : settled.lt cap with
    | error e =>
      simp only [hlt, bind, Except.bind] at h
      injection h with h
      exact asset_lt_not_out_of_fuel _ _ (h ▸ hlt)
    | ok below =>
      obtain ⟨hid, hbelow⟩ := asset_lt_ok _ _ _ hlt
      simp only [hlt, bind, Except.bind] at h
      cases hb : below with
      | false => simp [hb, pure, Except.pure] at h
      | true =>
        rw [hb] at hbelow
        have hlt2 : settled.amount < cap.amount := of_decide_eq_true hbelow.symm
        simp only [hb, if_true] at h
        cases hfind : db.find_settlement order_id with
        | none => simp [hfind, pure, Except.pure] at h
        | some order =>
          simp only [hfind] at h
          cases hbit : mia_object.bitasset_data db with
          | error e =>
            simp only [hbit] at h
            injection h with h
            exact bitasset_data_not_out_of_fuel _ _ (h ▸ hbit)
          | ok bitasset =>
            simp only [hbit] at h
            split at h
            · cases h
            · rename_i call hcall
              cases hdebt : (call.debt_type == mia_object.id) with
              | false => simp [hdebt, assert] at h
              | true =>
                simp only [hdebt, assert, if_true] at h
                cases hsub : cap.sub settled with
                | error e =>
                  simp only [hsub] at h
                  injection h with h
                  exact asset_sub_not_out_of_fuel _ _ (h ▸ hsub)
                | ok max_settlement =>
                  simp only [hsub] at h
                  cases hm : eng.match_ db call order settlement_price max_settlement with
                  | ok r =>
                    obtain ⟨amount, db1⟩ := r
                    simp only [hm] at h
                    cases hadd : settled.add amount with
                    | error e =>
                      simp only [hadd] at h
                      injection h with h
                      exact asset_add_not_out_of_fuel _ _ (h ▸ hadd)
                    | ok settled1 =>
                      simp only [hadd] at h
                      obtain ⟨_, _, hsum⟩ := asset_add_ok _ _ _ hadd
                      have hp := hprog _ _ _ _ _ _ _ hm
                      exact ih db1 settled1 (by omega) h
                  | error e =>
                    simp only [hm] at h
                    cases e <;> first
                      | (cases h; done)
                      | exact hnofuel _ _ _ _ _ hm

/-- With a match that returns 0 and leaves the request in the store, the inner loop of an
iteration does not end: whatever the fuel, the model runs out of it. -/
theorem match_settlement_loop_idle (p : price) :
    ∀ fuel : Nat,
      match_settlement_loop idle_engine default_config usd_asset 1 p ⟨500, 1⟩ fuel
        (settlement_state (settling_bitasset (usd_per_core 1 2) 100 500 0) 10000
          [short_position 5000 20000] [settle_request 1 1000 20]) ⟨0, 1⟩
        = .error .out_of_fuel := by
  intro fuel
  induction fuel with
  | zero => rfl
  | succ n ih =>
    rw [match_settlement_loop]
    have h1 : asset.lt ⟨0, 1⟩ ⟨500, 1⟩ = .ok true := by decide
    have h2 : (settlement_state (settling_bitasset (usd_per_core 1 2) 100 500 0) 10000
        [short_position 5000 20000] [settle_request 1 1000 20]).find_settlement 1 =
        some (settle_request 1 1000 20) := by decide
    have h3 : usd_asset.bitasset_data
        (settlement_state (settling_bitasset (usd_per_core 1 2) 100 500 0) 10000
          [short_position 5000 20000] [settle_request 1 1000 20]) =
        .ok (settling_bitasset (usd_per_core 1 2) 100 500 0) := by decide
    have h4 : (settlement_state (settling_bitasset (usd_per_core 1 2) 100 500 0) 10000
        [short_position 5000 20000] [settle_request 1 1000 20]).call_orders_by_collateral[
          lower_bound price.lt
            ((settlement_state (settling_bitasset (usd_per_core 1 2) 100 500 0) 10000
              [short_position 5000 20000]
              [settle_request 1 1000 20]).call_orders_by_collateral.map
                call_order_object.collateral_key)
            (price.min default_config
              (settling_bitasset (usd_per_core 1 2) 100 500 0).options.short_backing_asset
              usd_asset.id)]? = some (short_position 5000 20000) := by decide
    have h5 : ((short_position 5000 20000).debt_type == usd_asset.id) = true := by decide
    have h6 : asset.sub ⟨500, 1⟩ ⟨0, 1⟩ = .ok ⟨500, 1⟩ := by decide
    have h7 : asset.add ⟨0, 1⟩ ⟨0, 1⟩ = .ok ⟨0, 1⟩ := by decide
    simp only [h1, bind, Except.bind, if_true, h2, h3, h4, h5, assert, h6, idle_engine, h7]
    exact ih

/-- With a match that returns 0, which is at most `max_settlement`, and leaves the request in
the store, an iteration on a due request below the cap never ends: whatever the fuel of the
inner loop, the model runs out of it. -/
theorem settlement_iteration_idle (fuel : Nat) :
    settlement_iteration idle_engine default_config fuel
      ⟨settlement_state (settling_bitasset (usd_per_core 1 2) 100 500 0) 10000
        [short_position 5000 20000] [settle_request 1 1000 20], 1, ⟨0, 0⟩⟩
      = .error .out_of_fuel := by
  rw [settlement_iteration_matching idle_engine default_config fuel
    ⟨settlement_state (settling_bitasset (usd_per_core 1 2) 100 500 0) 10000
      [short_position 5000 20000] [settle_request 1 1000 20], 1, ⟨0, 0⟩⟩
    (settle_request 1 1000 20) usd_asset (settling_bitasset (usd_per_core 1 2) 100 500 0)
    ⟨500, 1⟩ (by decide) (by decide) (by decide) (by decide) (by decide) (by decide)]
  have hp : settlement_payout default_config (settle_request 1 1000 20)
      (settling_bitasset (usd_per_core 1 2) 100 500 0) =
      .ok (⟨1000, 1⟩, ⟨1980, 0⟩, ⟨⟨1000, 1⟩, ⟨1980, 0⟩⟩) := by decide
  have hloop : match_settlement_loop idle_engine default_config usd_asset
      (settle_request 1 1000 20).id ⟨⟨1000, 1⟩, ⟨1980, 0⟩⟩ ⟨500, 1⟩ fuel
      (settlement_state (settling_bitasset (usd_per_core 1 2) 100 500 0) 10000
        [short_position 5000 20000] [settle_request 1 1000 20])
      (usd_asset.amount
        (settling_bitasset (usd_per_core 1 2) 100 500 0).force_settled_volume)
      = .error .out_of_fuel := match_settlement_loop_idle _ fuel
  simp only [hp, bind, Except.bind, hloop]

/-- C19, as stated, fails: on a due request for 1000 units, with the cap 500 and nothing
settled before, the match settles 500 units, which is `max_settlement`; the iteration ends
with the request still in the store, with 500 units left, and with `current_asset` unchanged:
the request is not removed and the loop has not moved to the next asset. -/
theorem settlement_iteration_keeps_request_counterexample :
    (settlement_iteration sample_engine default_config 10
      ⟨settlement_state (settling_bitasset (usd_per_core 1 2) 100 500 0) 10000
        [short_position 5000 20000] [settle_request 1 1000 20], 1, ⟨0, 0⟩⟩).map
      (fun r =>
        match r with
        | .again s => some (s.db.find_settlement 1, s.current_asset, s.max_settlement_volume,
            s.db.bitassets.map (fun b => b.force_settled_volume))
        | .finished _ => none) =
      .ok (some (some (settle_request 1 500 20), 1, ⟨500, 1⟩, [500])) ∧
    next_asset (settlement_state (settling_bitasset (usd_per_core 1 2) 100 500 0) 10000
      [short_position 5000 20000] [settle_request 1 1000 20]) 1 = none := by
  decide

/-- C19, amended: at each iteration of the force-settlement loop, for every behaviour of the
match, the loop ends with the state unchanged, or the current request is removed from the
store, or the loop moves to the next asset with the state unchanged, or the iteration ends
with the persisted `force_settled_volume` of the asset at or above the cap in force, which is
then cached for the asset. An iteration on a due request that starts with the volume at or
above the cached cap moves to the next asset or ends, with the state unchanged. The matching
loop inside an iteration ends when every match that returns settles a positive amount. -/
theorem settlement_iteration_progress (eng : market_engine) (cfg : chain_config) (fuel : Nat)
    (s : settlement_loop_state) (order : force_settlement_object) (mia_object : asset_object)
    (mia : asset_bitasset_data_object)
    (hreq : current_request s = .ok (some (order, mia_object, mia))) :
    (∀ r, settlement_iteration eng cfg fuel s = .ok r →
      r = .finished s.db ∨
      ∃ s2, r = .again s2 ∧
        (s2.db.find_settlement order.id = none ∨
          (s2.db = s.db ∧
            next_asset s.db order.settlement_asset_id = some s2.current_asset) ∨
          (s2.current_asset = order.settlement_asset_id ∧
            s2.max_settlement_volume.asset_id = order.settlement_asset_id ∧
            ∀ b ∈ s2.db.bitassets, b.id = mia.id →
              s2.max_settlement_volume.amount ≤ b.force_settled_volume))) ∧
    (mia.has_settlement = false →
      ¬ order.settlement_date > s.db.dgp.time →
      mia.current_feed.settlement_price.is_null = false →
      s.max_settlement_volume.asset_id = order.settlement_asset_id →
      s.max_settlement_volume.amount ≤ mia.force_settled_volume →
      settlement_iteration eng cfg fuel s =
        match next_asset s.db order.settlement_asset_id with
        | some following => .ok (.again ⟨s.db, following, s.max_settlement_volume⟩)
        | none => .ok (.finished s.db)) ∧
    ((∀ db call order p max_settlement amount db2,
        eng.match_ db call order p max_settlement = .ok (amount, db2) → 1 ≤ amount.amount) →
      (∀ db call order p max_settlement,
        eng.match_ db call order p max_settlement ≠ .error .out_of_fuel) →
      ∀ (p : price) (cap : asset) (n : Nat) (db : database) (settled : asset),
        (cap.amount - settled.amount).toNat < n →
        match_settlement_loop eng cfg mia_object order.id p cap n db settled
          ≠ .error .out_of_fuel) := by
  refine ⟨?_, ?_, fun hprog hnofuel p cap n db settled hn =>
    match_settlement_loop_fuel eng cfg mia_object order.id p cap hprog hnofuel n db settled hn⟩
  · intro r h
    by_cases hs : mia.has_settlement = true
    · rw [settlement_iteration_cancel eng cfg fuel s order mia_object mia hreq (Or.inl hs)]
        at h
      injection h with h
      exact Or.inr ⟨_, h.symm, Or.inl (cancel_order_find_none s.db order)⟩
    · have hns : mia.has_settlement = false := by simpa using hs
      by_cases hnd : order.settlement_date > s.db.dgp.time
      · rw [settlement_iteration_not_due eng cfg fuel s order mia_object mia hreq hns hnd]
          at h
        split at h
        · rename_i following hnext
          injection h with h
          exact Or.inr ⟨_, h.symm, Or.inr (Or.inl ⟨rfl, hnext⟩)⟩
        · injection h with h
          exact Or.inl h.symm
      · by_cases hnull : mia.current_feed.settlement_price.is_null = true
        · rw [settlement_iteration_cancel eng cfg fuel s order mia_object mia hreq
            (Or.inr ⟨hnd, hnull⟩)] at h
          injection h with h
          exact Or.inr ⟨_, h.symm, Or.inl (cancel_order_find_none s.db order)⟩
        · have hfeed : mia.current_feed.settlement_price.is_null = false := by
            simpa using hnull
          cases hcap : cap_in_force eng s.db s.max_settlement_volume
              order.settlement_asset_id mia_object mia with
          | error e =>
            rw [settlement_iteration_cap_error eng cfg fuel s order mia_object mia e hreq
              hns hnd hfeed hcap] at h
            cases h
          | ok cap =>
            by_cases hge : mia.force_settled_volume ≥ cap.amount
            · rw [settlement_iteration_capped eng cfg fuel s order mia_object mia cap hreq
                hns hnd hfeed hcap hge] at h
              split at h
              · rename_i following hnext
                injection h with h
                exact Or.inr ⟨_, h.symm, Or.inr (Or.inl ⟨rfl, hnext⟩)⟩
              · injection h with h
                exact Or.inl h.symm
            · have hbelow : mia.force_settled_volume < cap.amount := not_le.1 hge
              obtain ⟨payout, db2, settled2, _, hloop, hres⟩ :=
                settlement_iteration_matching_ok eng cfg fuel s order mia_object mia cap
                  hreq hns hnd hfeed hcap hbelow r h
              obtain ⟨hsid, hexit⟩ := match_settlement_loop_exit eng cfg mia_object order.id
                payout.2.2 cap fuel s.db _ db2 settled2 hloop
              refine Or.inr ⟨_, hres, ?_⟩
              rcases hexit with hnot | hgone
              · right
                right
                refine ⟨rfl, ?_, ?_⟩
                · show cap.asset_id = order.settlement_asset_id
                  obtain ⟨hc1, hc2⟩ := cap_in_force_ok eng s.db s.max_settlement_volume
                    order.settlement_asset_id mia_object mia cap hcap
                  by_cases hid : s.max_settlement_volume.asset_id = order.settlement_asset_id
                  · rw [hc1 hid]
                    exact hid
                  · obtain ⟨dyn, _, hc⟩ := hc2 hid
                    rw [hc]
                    exact (current_request_ok s order mia_object mia hreq).2.2.1
                · intro b hb hbid
                  simp only [database.modify_bitasset, List.mem_map] at hb
                  obtain ⟨x, _, hx⟩ := hb
                  by_cases hxid : x.id = mia.id
                  · rw [if_pos hxid] at hx
                    subst hx
                    exact not_lt.1 hnot
                  · rw [if_neg hxid] at hx
                    subst hx
                    exact absurd hbid hxid
              · left
                exact hgone
  · intro hns hdue hfeed hid hge
    have hcap : cap_in_force eng s.db s.max_settlement_volume order.settlement_asset_id
        mia_object mia = .ok s.max_settlement_volume := by
      unfold cap_in_force
      rw [if_neg (not_not.2 hid)]
      rfl
    exact settlement_iteration_capped eng cfg fuel s order mia_object mia _ hreq hns hdue
      hfeed hcap hge

/-- C19, amended, at the concrete market with the cap 500: the iteration after the one that
reached the cap, on the same request with 500 units left, ends the loop with the state
unchanged. -/
theorem settlement_iteration_progress_witness :
    settlement_iteration sample_engine default_config 10
      ⟨settlement_state (settling_bitasset (usd_per_core 1 2) 100 500 500) 10000
        [short_position 4500 19010] [settle_request 1 500 20], 1, ⟨500, 1⟩⟩ =
      .ok (.finished (settlement_state (settling_bitasset (usd_per_core 1 2) 100 500 500) 10000
        [short_position 4500 19010] [settle_request 1 500 20])) :=
  ((settlement_iteration_progress sample_engine default_config 10
    ⟨settlement_state (settling_bitasset (usd_per_core 1 2) 100 500 500) 10000
      [short_position 4500 19010] [settle_request 1 500 20], 1, ⟨500, 1⟩⟩
    (settle_request 1 500 20) usd_asset (settling_bitasset (usd_per_core 1 2) 100 500 500)
    (by decide)).2.1 (by decide) (by decide) (by decide) (by decide) (by decide)).trans
    (by decide)

end Graphene
